import Mathlib

/-! # GPU stream assignment (`device/gpu/gpu_stream_assign.cc`)

A shallow embedding of the stream-assignment pass: `AssignGpuStream`,
`FindAllReduceStreamSwitchPos`, `FindSendNodePos`, `FindRecvNodePos`,
`InsertStreamSwitchNode`, `GenSendRecvCNodesForAllReduce` and
`CreateStreamSwitchNode`.

Pointers are natural numbers (`nullptr` is `0`), iterators into the execution
order are indices into the list that holds it, and the effects of the pass
(node attributes, created nodes, created streams and events) are threaded
explicitly through a `KernelGraph` and a `Device` value.  Code that throws or
leaves defined behaviour (a null node dereferenced, a read or an insert outside
the vector) returns `Except.error`.
-/

namespace GpuStreamAssign

/-! ## Data model -/

/-- Address of a graph node (`AnfNodePtr`). -/
abbrev AnfNodePtr := Nat

/-- Address of a kernel node (`CNodePtr`); a `CNode` is an `AnfNode`. -/
abbrev CNodePtr := Nat

/-- The null pointer. -/
def nullptr : Nat := 0

/-- Modelled from the spec: the operator-name constants `kAllReduceOpName`, `kSendOpName` and
`kRecvOpName` are declared outside the two source files; the collective kernels are the ones
named AllReduce. -/
def kAllReduceOpName : String := "AllReduce"

/-- Modelled from the spec: name of the Send placeholder operator. -/
def kSendOpName : String := "Send"

/-- Modelled from the spec: name of the Recv placeholder operator. -/
def kRecvOpName : String := "Recv"

/-- Ways in which the pass stops without a result. -/
inductive Failure where
  /-- `MS_EXCEPTION_IF_NULL` fired, or a null node was dereferenced. -/
  | null_pointer
  /-- An iterator was dereferenced, or a vector insert was made, outside the vector. -/
  | out_of_range
  /-- `AnfAlgo::GetNodeAttr` was asked for an attribute the node does not carry. -/
  | missing_attr
  /-- The branch `Generating CNodes for send and recv failed`. -/
  | gen_failed
  deriving DecidableEq, Repr

/-- Modelled from the spec: `StreamSwitchType` (the role tag of a pair) is declared in
`gpu_stream_assign.h`; the source only ever builds `kAllReduceStreamSwitch`, the second value
stands for any other tag. -/
inductive StreamSwitchType where
  | kAllReduceStreamSwitch
  | kStreamSwitchInvalidType
  deriving DecidableEq, Repr

/-- Modelled from the spec: `SendRecvPair`, in the field order used by the brace initialisers
of `FindAllReduceStreamSwitchPos`. -/
structure SendRecvPair where
  stream_switch_type : StreamSwitchType
  mock_send_node : CNodePtr
  mock_recv_node : CNodePtr
  send_node_offset : Nat
  recv_node_offset : Nat
  deriving DecidableEq, Repr

/-- Modelled from the spec: `StreamSwitchNode`, a placeholder keyed by its insertion offset. -/
structure StreamSwitchNode where
  offset : Nat
  cnode : CNodePtr
  deriving DecidableEq, Repr

/-- Modelled from the spec: the ordering of `StreamSwitchNode` inside the `std::set` is declared
in `gpu_stream_assign.h`; the placeholders are "keyed by (offset, node)" and "ordered first by
offset ascending", which is the lexicographic order on the two fields. -/
def StreamSwitchNode.lt (a b : StreamSwitchNode) : Bool :=
  decide (a.offset < b.offset ∨ (a.offset = b.offset ∧ a.cnode < b.cnode))

/-- The kernel graph as far as the pass reads and writes it.  `cnode_name` is what
`AnfAlgo::GetCNodeName` returns, `visit_kernel` is the first component of
`AnfAlgo::VisitKernel(·, 0)`, `attrs` is the attribute map behind `SetNodeAttr`/`GetNodeAttr`,
and `node_count` is the number of nodes allocated so far (the next node gets the next address). -/
structure KernelGraph where
  execution_order : List CNodePtr
  cnode_name : CNodePtr → String
  inputs : CNodePtr → List AnfNodePtr
  visit_kernel : AnfNodePtr → AnfNodePtr
  attrs : CNodePtr → String → Option Nat
  node_count : Nat

/-- Modelled from the spec: the device side (`GPUDeviceManager` and the CUDA runtime) is outside
the source files.  One default compute stream pre-exists, `stream_count` streams and
`event_count` events have been created so far. -/
structure Device where
  default_stream : Nat
  stream_count : Nat
  event_count : Nat
  deriving DecidableEq, Repr

/-- Modelled from the spec: `GPUDeviceManager::CreateStream` returns a handle different from the
default stream and from every stream created before. -/
def CreateStream (d : Device) : Nat × Device :=
  (d.default_stream + d.stream_count + 1, { d with stream_count := d.stream_count + 1 })

/-- Modelled from the spec: `cudaEventCreate` returns a handle different from every event handle
returned before. -/
def cudaEventCreate (d : Device) : Nat × Device :=
  (d.event_count + 1, { d with event_count := d.event_count + 1 })

-- Equality of results is decidable when equality of errors and of values is.
deriving instance DecidableEq for Except

/-- `AnfAlgo::GetCNodeName`: the operator name of the node; it dereferences the node and throws
on a null one. -/
def GetCNodeName (g : KernelGraph) (node : CNodePtr) : Except Failure String :=
  if node = nullptr then .error .null_pointer else .ok (g.cnode_name node)

/-- `AnfAlgo::VisitKernel(input, 0).first`. -/
def VisitKernel (g : KernelGraph) (input : AnfNodePtr) : AnfNodePtr := g.visit_kernel input

/-- `AnfAlgo::SetNodeAttr(key, MakeValue(value), node)`. -/
def SetNodeAttr (key : String) (value : Nat) (node : CNodePtr) (g : KernelGraph) : KernelGraph :=
  { g with attrs := fun n k => if n = node ∧ k = key then some value else g.attrs n k }

/-- `AnfAlgo::GetNodeAttr<uintptr_t>(node, key)`: fails when the attribute is absent. -/
def GetNodeAttr (g : KernelGraph) (node : CNodePtr) (key : String) : Except Failure Nat :=
  match g.attrs node key with
  | some v => .ok v
  | none => .error .missing_attr

/-! ## The boundary searches -/

/-- The loop of `FindSendNodePos`: `todo` iterations remain before `iter` reaches `last`. -/
def FindSendNodePos.loop (v : List CNodePtr) (mock_recv_node : CNodePtr) (last : Nat) :
    Nat → Nat → Except Failure Nat
  | 0, _ => .ok last
  | todo + 1, iter =>
    match v[iter + 1]? with
    | none => .error .out_of_range
    | some next =>
      if next = mock_recv_node then .ok iter
      else FindSendNodePos.loop v mock_recv_node last todo (iter + 1)

/-- The positions that the loop of `FindSendNodePos` reads as `*(iter + 1)`, in the order in
which it reads them: the same loop, recording the position of every read. -/
def FindSendNodePos.reads (v : List CNodePtr) (mock_recv_node : CNodePtr) :
    Nat → Nat → List Nat
  | 0, _ => []
  | todo + 1, iter =>
    (iter + 1) ::
      match v[iter + 1]? with
      | none => []
      | some next =>
        if next = mock_recv_node then []
        else FindSendNodePos.reads v mock_recv_node todo (iter + 1)

/-- `FindSendNodePos(begin, end, mock_recv_node, stream_switch_type)` over the vector `v`;
iterators are indices into `v`. -/
def FindSendNodePos (v : List CNodePtr) (first last : Nat) (mock_recv_node : CNodePtr)
    (stream_switch_type : StreamSwitchType) : Except Failure Nat :=
  if mock_recv_node = nullptr then .error .null_pointer
  else if stream_switch_type = .kAllReduceStreamSwitch then
    FindSendNodePos.loop v mock_recv_node last (last - first) first
  else .ok last

/-- The inner loop of `FindRecvNodePos`, `for (auto input : node->inputs())`: whether some
input of `node` resolves to `mock_send_node`.  The call `node->inputs()` on a null node is a
null dereference. -/
def consumes (g : KernelGraph) (node mock_send_node : CNodePtr) : Except Failure Bool :=
  if node = nullptr then .error .null_pointer
  else .ok ((g.inputs node).any (fun input => decide (mock_send_node = VisitKernel g input)))

/-- The loop of `FindRecvNodePos`. -/
def FindRecvNodePos.loop (g : KernelGraph) (v : List CNodePtr) (mock_send_node : CNodePtr)
    (stream_switch_type : StreamSwitchType) (last : Nat) : Nat → Nat → Except Failure Nat
  | 0, _ => .ok last
  | todo + 1, iter =>
    match v[iter]? with
    | none => .error .out_of_range
    | some node =>
      if stream_switch_type = .kAllReduceStreamSwitch then
        match consumes g node mock_send_node with
        | .error e => .error e
        | .ok found =>
          if found = true then .ok iter
          else FindRecvNodePos.loop g v mock_send_node stream_switch_type last todo (iter + 1)
      else FindRecvNodePos.loop g v mock_send_node stream_switch_type last todo (iter + 1)

/-- `FindRecvNodePos(begin, end, mock_send_node, stream_switch_type)` over the vector `v`. -/
def FindRecvNodePos (g : KernelGraph) (v : List CNodePtr) (first last : Nat)
    (mock_send_node : CNodePtr) (stream_switch_type : StreamSwitchType) : Except Failure Nat :=
  if mock_send_node = nullptr then .error .null_pointer
  else FindRecvNodePos.loop g v mock_send_node stream_switch_type last (last - first) first

/-- One iteration of the loop of `FindAllReduceStreamSwitchPos`, at position `iter`; a
`continue` returns the pairs collected so far.  `iter_begin` is position `0`, and `IntToSize` is
the identity on the differences of positions, which are never negative. -/
def FindAllReduceStreamSwitchPos.body (g : KernelGraph) (v : List CNodePtr) (iter : Nat)
    (send_recv_pairs : List SendRecvPair) : Except Failure (List SendRecvPair) :=
  match v[iter]? with
  | none => .error .out_of_range
  | some kernel =>
    match GetCNodeName g kernel with
    | .error e => .error e
    | .ok kernel_name =>
      if kernel_name = kAllReduceOpName then
        match FindSendNodePos v 0 (iter + 1) kernel .kAllReduceStreamSwitch with
        | .error e => .error e
        | .ok mock_send_node_iter =>
          if mock_send_node_iter = iter + 1 then .ok send_recv_pairs
          else
            match v[mock_send_node_iter]? with
            | none => .error .out_of_range
            | some mock_send_node =>
              let pair1 : SendRecvPair :=
                ⟨.kAllReduceStreamSwitch, mock_send_node, kernel, mock_send_node_iter - 0 + 1,
                  iter - 0⟩
              let pairs1 := send_recv_pairs ++ [pair1]
              match FindRecvNodePos g v iter v.length kernel .kAllReduceStreamSwitch with
              | .error e => .error e
              | .ok mock_recv_node_iter =>
                if mock_recv_node_iter = v.length then .ok pairs1
                else
                  match v[mock_recv_node_iter]? with
                  | none => .error .out_of_range
                  | some mock_recv_node =>
                    let pair2 : SendRecvPair :=
                      ⟨.kAllReduceStreamSwitch, kernel, mock_recv_node, iter - 0 + 1,
                        mock_recv_node_iter - 0⟩
                    .ok (pairs1 ++ [pair2])
      else .ok send_recv_pairs

/-- The loop of `FindAllReduceStreamSwitchPos`. -/
def FindAllReduceStreamSwitchPos.loop (g : KernelGraph) (v : List CNodePtr) :
    Nat → Nat → List SendRecvPair → Except Failure (List SendRecvPair)
  | 0, _, send_recv_pairs => .ok send_recv_pairs
  | todo + 1, iter, send_recv_pairs =>
    match FindAllReduceStreamSwitchPos.body g v iter send_recv_pairs with
    | .error e => .error e
    | .ok pairs1 => FindAllReduceStreamSwitchPos.loop g v todo (iter + 1) pairs1

/-- `FindAllReduceStreamSwitchPos(kernel_graph, &send_recv_pairs)`, called with an empty
vector of pairs. -/
def FindAllReduceStreamSwitchPos (g : KernelGraph) : Except Failure (List SendRecvPair) :=
  FindAllReduceStreamSwitchPos.loop g g.execution_order g.execution_order.length 0 []

/-! ## Placeholder generation and insertion -/

/-- `CreateStreamSwitchNode(kernel_graph, name)`: a value node holding the primitive and the new
kernel node are allocated; the kernel build info and the abstract it also sets are never read by
the pass and are not part of `KernelGraph`.  A node is named by the number of its allocation,
which stands for its address: that the Send node of a pair gets the smaller number than its Recv
node says nothing about their addresses, and no statement on the order of two placeholders
inside one offset is meant to rest on it. -/
def CreateStreamSwitchNode (g : KernelGraph) (name : String) :
    Except Failure (CNodePtr × KernelGraph) :=
  let apply : AnfNodePtr := g.node_count + 1
  let node : CNodePtr := g.node_count + 2
  let g1 : KernelGraph :=
    { g with
      node_count := g.node_count + 2
      cnode_name := fun n => if n = node then name else g.cnode_name n
      inputs := fun n => if n = node then [apply] else g.inputs n }
  if node = nullptr then .error .null_pointer else .ok (node, g1)

/-- `GenSendRecvCNodesForAllReduce`: returns the flag, the Send node and the Recv node. -/
def GenSendRecvCNodesForAllReduce (g : KernelGraph) (d : Device)
    (mock_send_node mock_recv_node : CNodePtr) :
    Except Failure (Bool × CNodePtr × CNodePtr × KernelGraph × Device) :=
  match CreateStreamSwitchNode g kSendOpName with
  | .error e => .error e
  | .ok (send_node, g1) =>
    if send_node = nullptr then .error .null_pointer
    else
      match CreateStreamSwitchNode g1 kRecvOpName with
      | .error e => .error e
      | .ok (recv_node, g2) =>
        if recv_node = nullptr then .error .null_pointer
        else
          let (event, d1) := cudaEventCreate d
          let g3 := SetNodeAttr "record_event" event send_node g2
          let g4 := SetNodeAttr "wait_event" event recv_node g3
          match GetNodeAttr g4 mock_send_node "stream_id" with
          | .error e => .error e
          | .ok send_stream =>
            let g5 := SetNodeAttr "record_event_stream" send_stream send_node g4
            match GetNodeAttr g5 mock_recv_node "stream_id" with
            | .error e => .error e
            | .ok recv_stream =>
              let g6 := SetNodeAttr "wait_event_stream" recv_stream recv_node g5
              .ok (true, send_node, recv_node, g6, d1)

/-- `std::set::insert` on the set kept as its ascending list of elements: the element goes
before the first element that is not smaller, unless that element is equivalent to it. -/
def setInsert (x : StreamSwitchNode) : List StreamSwitchNode → List StreamSwitchNode
  | [] => [x]
  | y :: ys =>
    if y.lt x then y :: setInsert x ys
    else if x.lt y then x :: y :: ys
    else y :: ys

/-- `std::vector::insert(begin() + offset, node)`; outside `[0, size]` it is undefined. -/
def vectorInsert (v : List CNodePtr) (offset : Nat) (node : CNodePtr) :
    Except Failure (List CNodePtr) :=
  if offset ≤ v.length then .ok (v.take offset ++ node :: v.drop offset)
  else .error .out_of_range

/-- Steps 1 and 2 of `InsertStreamSwitchNode`: the loop over the pairs that generates the
placeholders and collects them in the ordered set. -/
def InsertStreamSwitchNode.collect :
    List SendRecvPair → KernelGraph → Device → List StreamSwitchNode →
      Except Failure (KernelGraph × Device × List StreamSwitchNode)
  | [], g, d, nodes => .ok (g, d, nodes)
  | pair :: rest, g, d, nodes =>
    if pair.stream_switch_type = .kAllReduceStreamSwitch then
      match GenSendRecvCNodesForAllReduce g d pair.mock_send_node pair.mock_recv_node with
      | .error e => .error e
      | .ok (ok, send_node, recv_node, g1, d1) =>
        if ok = false then .error .gen_failed
        else
          InsertStreamSwitchNode.collect rest g1 d1
            (setInsert ⟨pair.recv_node_offset, recv_node⟩
              (setInsert ⟨pair.send_node_offset, send_node⟩ nodes))
    else
      InsertStreamSwitchNode.collect rest g d
        (setInsert ⟨pair.recv_node_offset, nullptr⟩
          (setInsert ⟨pair.send_node_offset, nullptr⟩ nodes))

/-- The body of the loop of step 3 of `InsertStreamSwitchNode`, run over the elements in the
sequence in which the loop visits them: every element is inserted at its offset. -/
def InsertStreamSwitchNode.insertEach :
    List StreamSwitchNode → List CNodePtr → Except Failure (List CNodePtr)
  | [], execution_kernels => .ok execution_kernels
  | node :: rest, execution_kernels =>
    match vectorInsert execution_kernels node.offset node.cnode with
    | .error e => .error e
    | .ok v1 => InsertStreamSwitchNode.insertEach rest v1

/-- Step 3 of `InsertStreamSwitchNode`: the loop `for (node = rbegin(); node != rend(); node++)`
visits the elements of the ordered set, given as its ascending list, from the last to the
first. -/
def InsertStreamSwitchNode.splice (ordered_stream_switch_nodes : List StreamSwitchNode)
    (execution_kernels : List CNodePtr) : Except Failure (List CNodePtr) :=
  InsertStreamSwitchNode.insertEach ordered_stream_switch_nodes.reverse execution_kernels

/-- `InsertStreamSwitchNode(kernel_graph, send_recv_pairs)`. -/
def InsertStreamSwitchNode (g : KernelGraph) (d : Device) (send_recv_pairs : List SendRecvPair) :
    Except Failure (KernelGraph × Device) :=
  match InsertStreamSwitchNode.collect send_recv_pairs g d [] with
  | .error e => .error e
  | .ok (g1, d1, ordered_stream_switch_nodes) =>
    match InsertStreamSwitchNode.splice ordered_stream_switch_nodes g1.execution_order with
    | .error e => .error e
    | .ok execution_kernels => .ok ({ g1 with execution_order := execution_kernels }, d1)

/-! ## The pass -/

/-- The first loop of `AssignGpuStream`: AllReduce kernels are collected, every other kernel is
tagged with the default stream. -/
def AssignGpuStream.tag (default_stream : Nat) :
    List CNodePtr → KernelGraph → List CNodePtr → Except Failure (KernelGraph × List CNodePtr)
  | [], g, allreduce_kernels => .ok (g, allreduce_kernels)
  | kernel_node :: rest, g, allreduce_kernels =>
    match GetCNodeName g kernel_node with
    | .error e => .error e
    | .ok kernel_name =>
      if kernel_name = kAllReduceOpName then
        AssignGpuStream.tag default_stream rest g (allreduce_kernels ++ [kernel_node])
      else
        AssignGpuStream.tag default_stream rest
          (SetNodeAttr "stream_id" default_stream kernel_node g) allreduce_kernels

/-- The `std::transform` of `AssignGpuStream`: every collected kernel is tagged with the
communication stream. -/
def AssignGpuStream.tagComm (comm_stream : Nat) : List CNodePtr → KernelGraph → KernelGraph
  | [], g => g
  | allreduce_kernel :: rest, g =>
    AssignGpuStream.tagComm comm_stream rest (SetNodeAttr "stream_id" comm_stream allreduce_kernel g)

/-- `AssignGpuStream(kernel_graph)`; the graph is a value, so the null check on it never
fires. -/
def AssignGpuStream (g : KernelGraph) (d : Device) : Except Failure (KernelGraph × Device) :=
  match AssignGpuStream.tag d.default_stream g.execution_order g [] with
  | .error e => .error e
  | .ok (g1, allreduce_kernels) =>
    if allreduce_kernels.length > 1 then
      let (comm_stream, d1) := CreateStream d
      let g2 := AssignGpuStream.tagComm comm_stream allreduce_kernels g1
      match FindAllReduceStreamSwitchPos g2 with
      | .error e => .error e
      | .ok send_recv_pairs => InsertStreamSwitchNode g2 d1 send_recv_pairs
    else .ok (g1, d)

/-! ## Auxiliary notions used in the statements -/

/-- The AllReduce kernels of an order, one entry per position. -/
def allreduceKernels (g : KernelGraph) (order : List CNodePtr) : List CNodePtr :=
  order.filter (fun k => decide (GetCNodeName g k = .ok kAllReduceOpName))

/-- Two graphs that differ in their attribute maps only. -/
def sameButAttrs (g g' : KernelGraph) : Prop :=
  g'.execution_order = g.execution_order ∧ g'.cnode_name = g.cnode_name ∧
    g'.inputs = g.inputs ∧ g'.visit_kernel = g.visit_kernel ∧ g'.node_count = g.node_count

/-- A pair of the AllReduce kind whose mock nodes are nodes of `v` and whose two offsets are
insertion positions of `v`. -/
def pairWithin (v : List CNodePtr) (p : SendRecvPair) : Prop :=
  p.stream_switch_type = .kAllReduceStreamSwitch ∧ p.mock_send_node ∈ v ∧ p.mock_recv_node ∈ v ∧
    p.send_node_offset ≤ v.length ∧ p.recv_node_offset ≤ v.length

/-- What one successful call of `GenSendRecvCNodesForAllReduce` changes: four addresses are
taken, the second is the Send node and the fourth the Recv node, both carry the new event and
the stream read from their mock node, and nothing else is touched. -/
structure GenEffect (g : KernelGraph) (d : Device) (mock_send_node mock_recv_node : CNodePtr)
    (g' : KernelGraph) (d' : Device) : Prop where
  order : g'.execution_order = g.execution_order
  count : g'.node_count = g.node_count + 4
  device : d' = { d with event_count := d.event_count + 1 }
  inputs_old : ∀ n, n ≤ g.node_count → g'.inputs n = g.inputs n
  visit : g'.visit_kernel = g.visit_kernel
  name_old : ∀ n, n ≠ g.node_count + 2 → n ≠ g.node_count + 4 → g'.cnode_name n = g.cnode_name n
  name_send : g'.cnode_name (g.node_count + 2) = kSendOpName
  name_recv : g'.cnode_name (g.node_count + 4) = kRecvOpName
  attrs_old : ∀ n key, n ≠ g.node_count + 2 → n ≠ g.node_count + 4 → g'.attrs n key = g.attrs n key
  stream_id : ∀ n, g'.attrs n "stream_id" = g.attrs n "stream_id"
  record_event : g'.attrs (g.node_count + 2) "record_event" = some (d.event_count + 1)
  wait_event : g'.attrs (g.node_count + 4) "wait_event" = some (d.event_count + 1)
  record_event_stream :
    g'.attrs (g.node_count + 2) "record_event_stream" = g.attrs mock_send_node "stream_id"
  wait_event_stream :
    g'.attrs (g.node_count + 4) "wait_event_stream" = g.attrs mock_recv_node "stream_id"
  send_other : ∀ key, key ≠ "record_event" → key ≠ "record_event_stream" →
    g'.attrs (g.node_count + 2) key = g.attrs (g.node_count + 2) key
  recv_other : ∀ key, key ≠ "wait_event" → key ≠ "wait_event_stream" →
    g'.attrs (g.node_count + 4) key = g.attrs (g.node_count + 4) key

/-- The placeholders generated for a list of AllReduce pairs by a graph in which `count` nodes
are allocated, in generation order: for every pair its Send node, then its Recv node. -/
def placeholders (count : Nat) : List SendRecvPair → List StreamSwitchNode
  | [] => []
  | p :: rest =>
    ⟨p.send_node_offset, count + 2⟩ :: ⟨p.recv_node_offset, count + 4⟩ ::
      placeholders (count + 4) rest

/-- Insertion of a list of elements, one after the other, into the ordered set. -/
def setInsertAll (xs : List StreamSwitchNode) (nodes : List StreamSwitchNode) :
    List StreamSwitchNode :=
  xs.foldl (fun s x => setInsert x s) nodes

/-- A pair of the AllReduce kind whose two mock nodes carry a `stream_id` attribute. -/
def pairReady (g : KernelGraph) (p : SendRecvPair) : Prop :=
  p.stream_switch_type = .kAllReduceStreamSwitch ∧
    (g.attrs p.mock_send_node "stream_id").isSome = true ∧
    (g.attrs p.mock_recv_node "stream_id").isSome = true

/-- What steps 1 and 2 of `InsertStreamSwitchNode` change for a list of AllReduce pairs: the
`i`-th pair gets the Send node `node_count + 4 i + 2` and the Recv node `node_count + 4 i + 4`,
which share the `i`-th new event. -/
structure CollectEffect (g : KernelGraph) (d : Device) (pairs : List SendRecvPair)
    (g' : KernelGraph) (d' : Device) : Prop where
  order : g'.execution_order = g.execution_order
  count : g'.node_count = g.node_count + 4 * pairs.length
  device : d' = { d with event_count := d.event_count + pairs.length }
  visit : g'.visit_kernel = g.visit_kernel
  inputs_old : ∀ n, n ≤ g.node_count → g'.inputs n = g.inputs n
  name_old : ∀ n, n ≤ g.node_count → g'.cnode_name n = g.cnode_name n
  attrs_old : ∀ n key, n ≤ g.node_count → g'.attrs n key = g.attrs n key
  stream_id : ∀ n, g'.attrs n "stream_id" = g.attrs n "stream_id"
  name_send : ∀ i, i < pairs.length → g'.cnode_name (g.node_count + 4 * i + 2) = kSendOpName
  name_recv : ∀ i, i < pairs.length → g'.cnode_name (g.node_count + 4 * i + 4) = kRecvOpName
  record_event : ∀ i, i < pairs.length →
    g'.attrs (g.node_count + 4 * i + 2) "record_event" = some (d.event_count + i + 1)
  wait_event : ∀ i, i < pairs.length →
    g'.attrs (g.node_count + 4 * i + 4) "wait_event" = some (d.event_count + i + 1)
  record_event_stream : ∀ i (h : i < pairs.length),
    g'.attrs (g.node_count + 4 * i + 2) "record_event_stream"
      = g.attrs pairs[i].mock_send_node "stream_id"
  wait_event_stream : ∀ i (h : i < pairs.length),
    g'.attrs (g.node_count + 4 * i + 4) "wait_event_stream"
      = g.attrs pairs[i].mock_recv_node "stream_id"

/-- The graph that `AssignGpuStream` hands to the search and to the insertion once it has
created the communication stream: both tagging loops have run.  Where the first loop throws,
the graph is as it was. -/
def AssignGpuStream.tagged (g : KernelGraph) (d : Device) : KernelGraph :=
  match AssignGpuStream.tag d.default_stream g.execution_order g [] with
  | .error _ => g
  | .ok (g1, allreduce_kernels) =>
    AssignGpuStream.tagComm (CreateStream d).1 allreduce_kernels g1

instance (v : List CNodePtr) (p : SendRecvPair) : Decidable (pairWithin v p) := by
  unfold pairWithin; infer_instance

instance (g : KernelGraph) (p : SendRecvPair) : Decidable (pairReady g p) := by
  unfold pairReady; infer_instance

/-- The pair `p` is the send-side pair of the AllReduce kernel `K` at position `iter` of `v`:
its mock send node sits at the first position `s` whose successor in `v` is `K`. -/
def sendSidePair (v : List CNodePtr) (iter : Nat) (K : CNodePtr) (p : SendRecvPair) : Prop :=
  p.stream_switch_type = .kAllReduceStreamSwitch ∧ p.mock_recv_node = K ∧
    p.recv_node_offset = iter ∧
    ∃ s, s ≤ iter ∧ v[s]? = some p.mock_send_node ∧ v[s + 1]? = some K ∧
      (∀ t, t < s → v[t + 1]? ≠ some K) ∧ p.send_node_offset = s + 1

/-- The pair `p` is the recv-side pair of the AllReduce kernel `K` at position `iter` of `v`:
its mock recv node sits at the first position `r` from `iter` on whose node consumes `K`. -/
def recvSidePair (g : KernelGraph) (v : List CNodePtr) (iter : Nat) (K : CNodePtr)
    (p : SendRecvPair) : Prop :=
  p.stream_switch_type = .kAllReduceStreamSwitch ∧ p.mock_send_node = K ∧
    p.send_node_offset = iter + 1 ∧
    ∃ r, iter ≤ r ∧ r < v.length ∧ v[r]? = some p.mock_recv_node ∧
      consumes g p.mock_recv_node K = .ok true ∧
      (∀ t, iter ≤ t → t < r → ∀ node, v[t]? = some node → consumes g node K = .ok false) ∧
      p.recv_node_offset = r

/-- The pair `p` is one of the pairs of an AllReduce kernel of `v`. -/
def pairFound (g : KernelGraph) (v : List CNodePtr) (p : SendRecvPair) : Prop :=
  ∃ iter K, v[iter]? = some K ∧ GetCNodeName g K = .ok kAllReduceOpName ∧
    (sendSidePair v iter K p ∨ recvSidePair g v iter K p)

/-- The order obtained by reading every offset against the original order, in the words of the
description of the splice: from index `k` of the original order on, the placeholders with offset
`k` in the ascending order of the set, followed by the original node at index `k` and then the
same for `k + 1`; after the last original node, the placeholders whose offset is the length. -/
def readAgainstOriginal (nodes : List StreamSwitchNode) : Nat → List CNodePtr → List CNodePtr
  | k, [] => (nodes.filter (fun x => decide (x.offset = k))).map StreamSwitchNode.cnode
  | k, node :: rest =>
    (nodes.filter (fun x => decide (x.offset = k))).map StreamSwitchNode.cnode ++
      node :: readAgainstOriginal nodes (k + 1) rest

/-! ## Example graphs -/

/-- A graph over the order `order` whose nodes in `allreduce` are AllReduce kernels (all others
are named `Op`), in which node `n` has the list `deps n` of inputs, inputs resolve to
themselves, no node carries an attribute, and `count` nodes are allocated. -/
def mkGraph (order : List CNodePtr) (allreduce : List CNodePtr) (deps : CNodePtr → List AnfNodePtr)
    (count : Nat) : KernelGraph where
  execution_order := order
  cnode_name := fun n => if n ∈ allreduce then kAllReduceOpName else "Op"
  inputs := deps
  visit_kernel := fun n => n
  attrs := fun _ _ => none
  node_count := count

/-- A device with default stream `7`, no created stream and no created event. -/
def dev0 : Device := ⟨7, 0, 0⟩


/-- The order `[A, B, C]` of the first scenario: `B` (node 2) is the only AllReduce kernel, it
consumes `A` (node 1) and `C` (node 3) consumes it. -/
def graphOneAllReduce : KernelGraph :=
  mkGraph [1, 2, 3] [2] (fun n => if n = 2 then [1] else if n = 3 then [2] else []) 3

/-- The order `[A, R1, M, R2, C]` of the second scenario: `R1` (node 2) and `R2` (node 4) are
AllReduce kernels, `R1` consumes `A`, `R2` consumes `M` and `C` consumes `R2`. -/
def graphTwoAllReduce : KernelGraph :=
  mkGraph [1, 2, 3, 4, 5] [2, 4]
    (fun n => if n = 2 then [1] else if n = 4 then [3] else if n = 5 then [4] else []) 5

/-- The graph `graphTwoAllReduce` after the tagging of `AssignGpuStream`: non-AllReduce kernels
carry the default stream `7`, the AllReduce kernels carry the communication stream `8`. -/
def graphTwoAllReduceTagged : KernelGraph :=
  { graphTwoAllReduce with
    attrs := fun n k =>
      if k = "stream_id" ∧ n ∈ [1, 2, 3, 4, 5] then some (if n ∈ [2, 4] then 8 else 7) else none }

/-- The pairs that `FindAllReduceStreamSwitchPos` finds in `graphTwoAllReduce`. -/
def pairsTwoAllReduce : List SendRecvPair :=
  [⟨.kAllReduceStreamSwitch, 1, 2, 1, 1⟩, ⟨.kAllReduceStreamSwitch, 3, 4, 3, 3⟩,
    ⟨.kAllReduceStreamSwitch, 4, 5, 4, 4⟩]

/-- The order `[A, B, K]`: `K` (node 3) is an AllReduce kernel whose only input is produced by
`A` (node 1); `B` (node 2) is unrelated to it. -/
def graphUnrelatedPredecessor : KernelGraph :=
  mkGraph [1, 2, 3] [3] (fun n => if n = 3 then [1] else []) 3

/-- The order `[R1, C, R2]`: `R1` (node 1) and `R2` (node 3) are AllReduce kernels, `C` (node 2)
consumes `R1` and `R2` consumes `C`. -/
def graphLeadingAllReduce : KernelGraph :=
  mkGraph [1, 2, 3] [1, 3] (fun n => if n = 2 then [1] else if n = 3 then [2] else []) 3

/-- The order `[A, R1, R2]`: `R1` (node 2) and `R2` (node 3) are AllReduce kernels, `R1`
consumes `A` (node 1) and `R2` consumes `R1`. -/
def graphAdjacentAllReduce : KernelGraph :=
  mkGraph [1, 2, 3] [2, 3] (fun n => if n = 2 then [1] else if n = 3 then [2] else []) 3

/-- The order `[K]`: a single AllReduce kernel (node 1) without inputs. -/
def graphSingleAllReduce : KernelGraph :=
  mkGraph [1] [1] (fun _ => []) 1

/-- The order `[A, null, B]`: two kernels without inputs and a null entry between them. -/
def graphNullEntry : KernelGraph :=
  mkGraph [1, nullptr, 2] [] (fun _ => []) 2

end GpuStreamAssign

/-! # Argument conversion (`pynative/pynative_execute.cc`)

A shallow embedding of `ConvertInputs`.  The Python objects, the tensor class and the
enumeration of signature dtypes are declared outside the source files and are parameters of the
embedding; an exception or a read outside a vector is an `Except.error`. -/

namespace PynativeExecute

/-- A `SignatureEnumDType`, given by the value of the enumerator. -/
abbrev SignatureEnumDType := Nat

/-- A `Signature`, of which `ConvertInputs` reads the `dtype` only. -/
structure Signature where
  dtype : SignatureEnumDType
  deriving DecidableEq, Repr

/-- Ways in which `ConvertInputs` stops without a result. -/
inductive ConvertFailure where
  /-- The read `dtypes[i]` lies outside the vector of dtypes. -/
  | out_of_range
  /-- The item `py_args[k]` was evaluated for a `k` outside the tuple. -/
  | index_error
  /-- The object did not cast to a non-null `tensor::TensorPtr`. -/
  | cast_error
  deriving DecidableEq, Repr

/-- What `ConvertInputs` uses of its surroundings: the enumerator `kDTypeEmptyDefaultValue`, the
three `py::isinstance` tests, the cast `py::cast<tensor::TensorPtr>` (`none` when it throws or
gives a null pointer), and the construction of a tensor from a Python int or float with the
`Dtype()` of a given tensor. -/
structure Interface (PyObject Tensor : Type) where
  kDTypeEmptyDefaultValue : SignatureEnumDType
  isinstance_Tensor : PyObject → Bool
  isinstance_int : PyObject → Bool
  isinstance_float : PyObject → Bool
  cast_TensorPtr : PyObject → Option Tensor
  tensor_from_int : PyObject → Tensor → PyObject
  tensor_from_float : PyObject → Tensor → PyObject

/-- `std::map::find` on a map keyed by `SignatureEnumDType`, kept as the list of its entries in
ascending order of the key. -/
def mapFind {β : Type} : List (SignatureEnumDType × β) → SignatureEnumDType → Option β
  | [], _ => none
  | (k, v) :: rest, key => if k = key then some v else mapFind rest key

/-- `std::map::insert`: the entry goes to its place in key order, and nothing changes when the
key is present. -/
def mapInsert {β : Type} (key : SignatureEnumDType) (value : β) :
    List (SignatureEnumDType × β) → List (SignatureEnumDType × β)
  | [] => [(key, value)]
  | (k, v) :: rest =>
    if key < k then (key, value) :: (k, v) :: rest
    else if key = k then (k, v) :: rest
    else (k, v) :: mapInsert key value rest

/-- `it->second.push_back(i)` for the entry `it` found under `key`. -/
def mapPushBack (key : SignatureEnumDType) (i : Nat) :
    List (SignatureEnumDType × List Nat) → List (SignatureEnumDType × List Nat)
  | [] => []
  | (k, v) :: rest =>
    if k = key then (k, v ++ [i]) :: rest else (k, v) :: mapPushBack key i rest

/-- The loop that fills `type_indexs`: `rest` are the dtypes from position `i` on. -/
def ConvertInputs.groupLoop :
    List SignatureEnumDType → Nat → List (SignatureEnumDType × List Nat) →
      List (SignatureEnumDType × List Nat)
  | [], _, type_indexs => type_indexs
  | dtype :: rest, i, type_indexs =>
    match mapFind type_indexs dtype with
    | none => ConvertInputs.groupLoop rest (i + 1) (mapInsert dtype [i] type_indexs)
    | some _ => ConvertInputs.groupLoop rest (i + 1) (mapPushBack dtype i type_indexs)

/-- The inner loop over `indexs[1..]` that picks `m_index`: the last position of the group, from
its second one on, whose argument is a tensor. -/
def ConvertInputs.pickLoop {PyObject Tensor : Type} (env : Interface PyObject Tensor)
    (py_args : List PyObject) : List Nat → Nat → Except ConvertFailure Nat
  | [], m_index => .ok m_index
  | index :: rest, m_index =>
    match py_args[index]? with
    | none => .error .index_error
    | some obj =>
      if env.isinstance_Tensor obj = true then ConvertInputs.pickLoop env py_args rest index
      else ConvertInputs.pickLoop env py_args rest m_index

/-- The loop over `type_indexs` that fills `dst_type`. -/
def ConvertInputs.dstLoop {PyObject Tensor : Type} (env : Interface PyObject Tensor)
    (py_args : List PyObject) :
    List (SignatureEnumDType × List Nat) → List (SignatureEnumDType × Nat) →
      Except ConvertFailure (List (SignatureEnumDType × Nat))
  | [], dst_type => .ok dst_type
  | (type, indexs) :: rest, dst_type =>
    if indexs.length < 2 then ConvertInputs.dstLoop env py_args rest dst_type
    else
      match indexs with
      | [] => ConvertInputs.dstLoop env py_args rest dst_type
      | first :: others =>
        match ConvertInputs.pickLoop env py_args others first with
        | .error e => .error e
        | .ok m_index => ConvertInputs.dstLoop env py_args rest (mapInsert type m_index dst_type)

/-- The loop that fills `py_inputs`: `rest` are the arguments from position `i` on, the result
are the items of `py_inputs` from position `i` on. -/
def ConvertInputs.fillLoop {PyObject Tensor : Type} (env : Interface PyObject Tensor)
    (dtypes : List SignatureEnumDType) (py_args : List PyObject)
    (dst_type : List (SignatureEnumDType × Nat)) :
    List PyObject → Nat → Except ConvertFailure (List PyObject)
  | [], _ => .ok []
  | arg :: rest, i =>
    match dtypes[i]? with
    | none => .error .out_of_range
    | some dtype =>
      let found := mapFind dst_type dtype
      if found.isSome = true ∧ found ≠ some i ∧
          (env.isinstance_int arg = true ∨ env.isinstance_float arg = true) then
        match py_args[found.getD 0]? with
        | none => .error .index_error
        | some source =>
          match env.cast_TensorPtr source with
          | none => .error .cast_error
          | some tensor_ptr =>
            let item :=
              if env.isinstance_int arg = true then env.tensor_from_int arg tensor_ptr
              else env.tensor_from_float arg tensor_ptr
            match ConvertInputs.fillLoop env dtypes py_args dst_type rest (i + 1) with
            | .error e => .error e
            | .ok items => .ok (item :: items)
      else
        match ConvertInputs.fillLoop env dtypes py_args dst_type rest (i + 1) with
        | .error e => .error e
        | .ok items => .ok (arg :: items)

/-- `ConvertInputs(prim, py_args)`, with `signature` for `prim->signatures()`. -/
def ConvertInputs {PyObject Tensor : Type} (env : Interface PyObject Tensor)
    (signature : List Signature) (py_args : List PyObject) :
    Except ConvertFailure (List PyObject) :=
  let dtypes := signature.map (fun sig => sig.dtype)
  let empty_dtype_count := dtypes.count env.kDTypeEmptyDefaultValue
  if dtypes.length = 0 ∨ dtypes.length = empty_dtype_count then .ok py_args
  else
    let type_indexs := ConvertInputs.groupLoop dtypes 0 []
    match ConvertInputs.dstLoop env py_args type_indexs [] with
    | .error e => .error e
    | .ok dst_type => ConvertInputs.fillLoop env dtypes py_args dst_type py_args 0

/-! ## Example objects -/

/-- Python objects for the examples: ints, floats (by an opaque value), tensors (by an
identifier and a dtype), tensors made from an int or a float, and strings. -/
inductive ExampleObject where
  | int_ (value : Int)
  | float_ (value : Nat)
  | tensor (id dtype : Nat)
  | int_tensor (value : Int) (dtype : Nat)
  | float_tensor (value : Nat) (dtype : Nat)
  | str (value : String)
  deriving DecidableEq, Repr

/-- The interface on the example objects; a tensor is cast to its dtype, and
`kDTypeEmptyDefaultValue` is the enumerator `0`. -/
def exampleInterface : Interface ExampleObject Nat where
  kDTypeEmptyDefaultValue := 0
  isinstance_Tensor := fun o =>
    match o with
    | .tensor _ _ => true
    | .int_tensor _ _ => true
    | .float_tensor _ _ => true
    | _ => false
  isinstance_int := fun o =>
    match o with
    | .int_ _ => true
    | _ => false
  isinstance_float := fun o =>
    match o with
    | .float_ _ => true
    | _ => false
  cast_TensorPtr := fun o =>
    match o with
    | .tensor _ dtype => some dtype
    | .int_tensor _ dtype => some dtype
    | .float_tensor _ dtype => some dtype
    | _ => none
  tensor_from_int := fun o dtype =>
    match o with
    | .int_ value => .int_tensor value dtype
    | other => other
  tensor_from_float := fun o dtype =>
    match o with
    | .float_ value => .float_tensor value dtype
    | other => other

end PynativeExecute

namespace GpuStreamAssign

/-! ## Stream tagging -/

@[simp] theorem SetNodeAttr_execution_order (key : String) (value : Nat) (node : CNodePtr)
    (g : KernelGraph) : (SetNodeAttr key value node g).execution_order = g.execution_order := rfl

@[simp] theorem SetNodeAttr_cnode_name (key : String) (value : Nat) (node : CNodePtr)
    (g : KernelGraph) : (SetNodeAttr key value node g).cnode_name = g.cnode_name := rfl

@[simp] theorem SetNodeAttr_inputs (key : String) (value : Nat) (node : CNodePtr)
    (g : KernelGraph) : (SetNodeAttr key value node g).inputs = g.inputs := rfl

@[simp] theorem SetNodeAttr_visit_kernel (key : String) (value : Nat) (node : CNodePtr)
    (g : KernelGraph) : (SetNodeAttr key value node g).visit_kernel = g.visit_kernel := rfl

@[simp] theorem SetNodeAttr_node_count (key : String) (value : Nat) (node : CNodePtr)
    (g : KernelGraph) : (SetNodeAttr key value node g).node_count = g.node_count := rfl

theorem SetNodeAttr_attrs (key : String) (value : Nat) (node : CNodePtr) (g : KernelGraph)
    (n : CNodePtr) (k : String) :
    (SetNodeAttr key value node g).attrs n k
      = if n = node ∧ k = key then some value else g.attrs n k := rfl

@[simp] theorem GetCNodeName_SetNodeAttr (key : String) (value : Nat) (node : CNodePtr)
    (g : KernelGraph) (n : CNodePtr) :
    GetCNodeName (SetNodeAttr key value node g) n = GetCNodeName g n := rfl

theorem sameButAttrs_refl (g : KernelGraph) : sameButAttrs g g := ⟨rfl, rfl, rfl, rfl, rfl⟩

theorem sameButAttrs_trans {g g' g'' : KernelGraph} (h : sameButAttrs g g')
    (h' : sameButAttrs g' g'') : sameButAttrs g g'' :=
  ⟨h'.1.trans h.1, h'.2.1.trans h.2.1, h'.2.2.1.trans h.2.2.1, h'.2.2.2.1.trans h.2.2.2.1,
    h'.2.2.2.2.trans h.2.2.2.2⟩

theorem sameButAttrs_SetNodeAttr (key : String) (value : Nat) (node : CNodePtr)
    (g : KernelGraph) : sameButAttrs g (SetNodeAttr key value node g) := ⟨rfl, rfl, rfl, rfl, rfl⟩

theorem GetCNodeName_of_ne_nullptr (g : KernelGraph) {node : CNodePtr} (h : node ≠ nullptr) :
    GetCNodeName g node = .ok (g.cnode_name node) := by
  simp [GetCNodeName, h]

theorem GetCNodeName_eq_ok_iff {g : KernelGraph} {node : CNodePtr} {name : String} :
    GetCNodeName g node = .ok name ↔ node ≠ nullptr ∧ g.cnode_name node = name := by
  unfold GetCNodeName
  by_cases h : node = nullptr
  · simp [h]
  · simp [h]

theorem GetCNodeName_ne_nullptr {g : KernelGraph} {node : CNodePtr} {name : String}
    (h : GetCNodeName g node = .ok name) : node ≠ nullptr :=
  (GetCNodeName_eq_ok_iff.mp h).1

theorem allreduceKernels_SetNodeAttr (key : String) (value : Nat) (node : CNodePtr)
    (g : KernelGraph) (l : List CNodePtr) :
    allreduceKernels (SetNodeAttr key value node g) l = allreduceKernels g l := by
  simp [allreduceKernels]

theorem tag_spec (ds : Nat) (l : List CNodePtr) (hnn : ∀ k ∈ l, k ≠ nullptr) :
    ∀ (g : KernelGraph) (acc : List CNodePtr),
      ∃ g1, AssignGpuStream.tag ds l g acc = .ok (g1, acc ++ allreduceKernels g l) ∧
        sameButAttrs g g1 ∧
        ∀ (n : CNodePtr) (key : String), g1.attrs n key
          = if key = "stream_id" ∧ n ∈ l ∧ GetCNodeName g n ≠ .ok kAllReduceOpName then some ds
            else g.attrs n key := by
  induction l with
  | nil =>
    intro g acc
    exact ⟨g, by simp [AssignGpuStream.tag, allreduceKernels], sameButAttrs_refl g, by simp⟩
  | cons k rest ih =>
    intro g acc
    have hk0 : k ≠ nullptr := hnn k (List.mem_cons_self _ _)
    have hrest : ∀ x ∈ rest, x ≠ nullptr := fun x hx => hnn x (List.mem_cons_of_mem _ hx)
    have hget := GetCNodeName_of_ne_nullptr g hk0
    unfold AssignGpuStream.tag
    rw [hget]
    simp only []
    by_cases hk : g.cnode_name k = kAllReduceOpName
    · have hname : GetCNodeName g k = .ok kAllReduceOpName := by rw [hget, hk]
      obtain ⟨g1, h1, h2, h3⟩ := ih hrest g (acc ++ [k])
      refine ⟨g1, ?_, h2, ?_⟩
      · rw [if_pos hk, h1]
        simp [allreduceKernels, List.filter_cons, hname]
      · intro n key
        rw [h3]
        by_cases hn : n = k
        · subst hn; simp [hname]
        · simp [hn]
    · have hname : GetCNodeName g k ≠ .ok kAllReduceOpName := by
        rw [hget]; intro h; exact hk (Except.ok.inj h)
      obtain ⟨g1, h1, h2, h3⟩ := ih hrest (SetNodeAttr "stream_id" ds k g) acc
      refine ⟨g1, ?_, sameButAttrs_trans (sameButAttrs_SetNodeAttr _ _ _ g) h2, ?_⟩
      · rw [if_neg hk, h1, allreduceKernels_SetNodeAttr]
        simp [allreduceKernels, List.filter_cons, hname]
      · intro n key
        rw [h3]
        simp only [GetCNodeName_SetNodeAttr, SetNodeAttr_attrs, List.mem_cons]
        by_cases hn : n = k
        · subst hn
          by_cases hkey : key = "stream_id"
          · simp [hkey, hname]
          · simp [hkey]
        · simp [hn]

theorem tagComm_same (cs : Nat) (l : List CNodePtr) (g : KernelGraph) :
    sameButAttrs g (AssignGpuStream.tagComm cs l g) := by
  induction l generalizing g with
  | nil => exact sameButAttrs_refl g
  | cons k rest ih =>
    exact sameButAttrs_trans (sameButAttrs_SetNodeAttr _ _ _ g) (ih _)

theorem tagComm_attrs (cs : Nat) (l : List CNodePtr) (g : KernelGraph)
    (n : CNodePtr) (key : String) :
    (AssignGpuStream.tagComm cs l g).attrs n key
      = if key = "stream_id" ∧ n ∈ l then some cs else g.attrs n key := by
  induction l generalizing g with
  | nil => simp [AssignGpuStream.tagComm]
  | cons k rest ih =>
    unfold AssignGpuStream.tagComm
    rw [ih]
    simp only [SetNodeAttr_attrs, List.mem_cons]
    by_cases hn : n = k
    · subst hn
      by_cases hkey : key = "stream_id"
      · simp [hkey]
      · simp [hkey]
    · simp [hn]

/-! ## The boundary searches -/

theorem FindSendNodePos_loop_spec (v : List CNodePtr) (m : CNodePtr) (last : Nat) (todo : Nat) :
    ∀ iter : Nat,
      ((∃ j, iter ≤ j ∧ j < iter + todo ∧ v[j + 1]? = some m) ∨ iter + todo < v.length) →
      ∃ s, FindSendNodePos.loop v m last todo iter = .ok s ∧
        ((s = last ∧ ∀ t, iter ≤ t → t < iter + todo → v[t + 1]? ≠ some m) ∨
          (iter ≤ s ∧ s < iter + todo ∧ v[s + 1]? = some m ∧
            ∀ t, iter ≤ t → t < s → v[t + 1]? ≠ some m)) := by
  induction todo with
  | zero =>
    intro iter _
    exact ⟨last, rfl, Or.inl ⟨rfl, fun t h1 h2 => absurd h2 (by omega)⟩⟩
  | succ todo ih =>
    intro iter h
    unfold FindSendNodePos.loop
    have hread : ∃ x, v[iter + 1]? = some x := by
      have hlt : iter + 1 < v.length := by
        rcases h with ⟨j, hj1, _, hj3⟩ | h
        · have := (List.getElem?_eq_some_iff.mp hj3).1
          omega
        · omega
      exact ⟨v[iter + 1], List.getElem?_eq_getElem hlt⟩
    obtain ⟨x, hx⟩ := hread
    rw [hx]
    by_cases hxm : x = m
    · subst hxm
      refine ⟨iter, by simp, Or.inr ⟨le_refl _, by omega, hx, fun t h1 h2 => absurd h2 (by omega)⟩⟩
    · have hne : v[iter + 1]? ≠ some m := by
        rw [hx]; intro hc; exact hxm (Option.some.inj hc)
      have h' : (∃ j, iter + 1 ≤ j ∧ j < iter + 1 + todo ∧ v[j + 1]? = some m) ∨
          iter + 1 + todo < v.length := by
        rcases h with ⟨j, hj1, hj2, hj3⟩ | h
        · left
          refine ⟨j, ?_, by omega, hj3⟩
          rcases Nat.eq_or_lt_of_le hj1 with hjeq | hjlt
          · subst hjeq; exact absurd hj3 hne
          · exact hjlt
        · right; omega
      obtain ⟨s, hs, hprop⟩ := ih (iter + 1) h'
      refine ⟨s, by simp [hxm, hs], ?_⟩
      rcases hprop with ⟨hs1, hs2⟩ | ⟨hs1, hs2, hs3, hs4⟩
      · left
        refine ⟨hs1, fun t h1 h2 => ?_⟩
        rcases Nat.eq_or_lt_of_le h1 with hteq | htlt
        · subst hteq; exact hne
        · exact hs2 t htlt (by omega)
      · right
        refine ⟨by omega, by omega, hs3, fun t h1 h2 => ?_⟩
        rcases Nat.eq_or_lt_of_le h1 with hteq | htlt
        · subst hteq; exact hne
        · exact hs4 t htlt h2

theorem consumes_of_ne_nullptr (g : KernelGraph) {node : CNodePtr} (m : CNodePtr)
    (h : node ≠ nullptr) :
    consumes g node m
      = .ok ((g.inputs node).any (fun input => decide (m = VisitKernel g input))) := by
  simp [consumes, h]

theorem consumes_ne_nullptr {g : KernelGraph} {node m : CNodePtr} {b : Bool}
    (h : consumes g node m = .ok b) : node ≠ nullptr := by
  intro hn
  simp [consumes, hn] at h

theorem consumes_eq_ok_true_iff {g : KernelGraph} {node m : CNodePtr} :
    consumes g node m = .ok true ↔
      node ≠ nullptr ∧ ∃ input ∈ g.inputs node, VisitKernel g input = m := by
  unfold consumes
  by_cases h : node = nullptr
  · simp [h]
  · simp only [h, if_false, Except.ok.injEq, List.any_eq_true, decide_eq_true_eq, ne_eq,
      not_false_eq_true, true_and]
    constructor
    · rintro ⟨i, hi, he⟩; exact ⟨i, hi, he.symm⟩
    · rintro ⟨i, hi, he⟩; exact ⟨i, hi, he.symm⟩

theorem consumes_eq_ok_false_iff {g : KernelGraph} {node m : CNodePtr} :
    consumes g node m = .ok false ↔
      node ≠ nullptr ∧ ∀ input ∈ g.inputs node, VisitKernel g input ≠ m := by
  unfold consumes
  by_cases h : node = nullptr
  · simp [h]
  · simp only [h, if_false, Except.ok.injEq, List.any_eq_false, decide_eq_true_eq, ne_eq,
      not_false_eq_true, true_and]
    constructor
    · intro hall i hi he; exact hall i hi he.symm
    · intro hall i hi he; exact hall i hi he.symm

theorem FindRecvNodePos_loop_of_ok (g : KernelGraph) (v : List CNodePtr) (m : CNodePtr)
    (last : Nat) (todo : Nat) :
    ∀ (iter r : Nat), iter + todo ≤ v.length →
      FindRecvNodePos.loop g v m .kAllReduceStreamSwitch last todo iter = .ok r →
      ((r = last ∧ ∀ t, iter ≤ t → t < iter + todo → ∀ node, v[t]? = some node →
            consumes g node m = .ok false) ∨
        (iter ≤ r ∧ r < iter + todo ∧
          (∃ node, v[r]? = some node ∧ consumes g node m = .ok true) ∧
          ∀ t, iter ≤ t → t < r → ∀ node, v[t]? = some node →
            consumes g node m = .ok false)) := by
  induction todo with
  | zero =>
    intro iter r _ h
    simp only [FindRecvNodePos.loop, Except.ok.injEq] at h
    exact Or.inl ⟨h.symm, fun t h1 h2 => absurd h2 (by omega)⟩
  | succ todo ih =>
    intro iter r hlen h
    have hlt : iter < v.length := by omega
    have hx : v[iter]? = some v[iter] := List.getElem?_eq_getElem hlt
    unfold FindRecvNodePos.loop at h
    rw [hx] at h
    simp only [if_true] at h
    cases hc : consumes g v[iter] m with
    | error e => rw [hc] at h; cases h
    | ok found =>
      rw [hc] at h
      cases found with
      | true =>
        simp only [if_true, Except.ok.injEq] at h
        subst h
        exact Or.inr ⟨le_refl _, by omega, ⟨v[iter], hx, hc⟩,
          fun t h1 h2 => absurd h2 (by omega)⟩
      | false =>
        simp only [Bool.false_eq_true, if_false] at h
        have hnone : ∀ node, v[iter]? = some node → consumes g node m = .ok false := by
          intro node hn
          rw [hx] at hn
          cases Option.some.inj hn
          exact hc
        rcases ih (iter + 1) r (by omega) h with ⟨hr1, hr2⟩ | ⟨hr1, hr2, hr3, hr4⟩
        · left
          refine ⟨hr1, fun t h1 h2 => ?_⟩
          rcases Nat.eq_or_lt_of_le h1 with hteq | htlt
          · subst hteq; exact hnone
          · exact hr2 t htlt (by omega)
        · right
          refine ⟨by omega, by omega, hr3, fun t h1 h2 => ?_⟩
          rcases Nat.eq_or_lt_of_le h1 with hteq | htlt
          · subst hteq; exact hnone
          · exact hr4 t htlt h2

theorem FindRecvNodePos_loop_ok (g : KernelGraph) (v : List CNodePtr) (m : CNodePtr)
    (last : Nat) (todo : Nat) :
    ∀ iter : Nat, iter + todo ≤ v.length →
      (∀ t, iter ≤ t → t < iter + todo → v[t]? ≠ some nullptr) →
      ∃ r, FindRecvNodePos.loop g v m .kAllReduceStreamSwitch last todo iter = .ok r := by
  induction todo with
  | zero =>
    intro iter _ _
    exact ⟨last, rfl⟩
  | succ todo ih =>
    intro iter hlen hnn
    have hlt : iter < v.length := by omega
    have hx : v[iter]? = some v[iter] := List.getElem?_eq_getElem hlt
    have hne : v[iter] ≠ nullptr := by
      intro hn
      exact hnn iter (le_refl _) (by omega) (by rw [hx, hn])
    unfold FindRecvNodePos.loop
    rw [hx]
    simp only [if_true]
    rw [consumes_of_ne_nullptr g m hne]
    simp only []
    by_cases hc : (g.inputs v[iter]).any (fun input => decide (m = VisitKernel g input)) = true
    · exact ⟨iter, by rw [if_pos hc]⟩
    · obtain ⟨r, hr⟩ := ih (iter + 1) (by omega) (fun t h1 h2 => hnn t (by omega) (by omega))
      exact ⟨r, by rw [if_neg hc]; exact hr⟩

theorem FindRecvNodePos_loop_spec (g : KernelGraph) (v : List CNodePtr) (m : CNodePtr)
    (last : Nat) (todo : Nat) (iter : Nat) (hlen : iter + todo ≤ v.length)
    (hnn : ∀ t, iter ≤ t → t < iter + todo → v[t]? ≠ some nullptr) :
    ∃ r, FindRecvNodePos.loop g v m .kAllReduceStreamSwitch last todo iter = .ok r ∧
      ((r = last ∧ ∀ t, iter ≤ t → t < iter + todo → ∀ node, v[t]? = some node →
            consumes g node m = .ok false) ∨
        (iter ≤ r ∧ r < iter + todo ∧
          (∃ node, v[r]? = some node ∧ consumes g node m = .ok true) ∧
          ∀ t, iter ≤ t → t < r → ∀ node, v[t]? = some node →
            consumes g node m = .ok false)) := by
  obtain ⟨r, hr⟩ := FindRecvNodePos_loop_ok g v m last todo iter hlen hnn
  exact ⟨r, hr, FindRecvNodePos_loop_of_ok g v m last todo iter r hlen hr⟩

theorem FindSendNodePos_eq_loop (v : List CNodePtr) (first last : Nat) (m : CNodePtr)
    (hm : m ≠ nullptr) :
    FindSendNodePos v first last m .kAllReduceStreamSwitch
      = FindSendNodePos.loop v m last (last - first) first := by
  simp [FindSendNodePos, hm]

theorem FindRecvNodePos_eq_loop (g : KernelGraph) (v : List CNodePtr) (first last : Nat)
    (m : CNodePtr) (ty : StreamSwitchType) (hm : m ≠ nullptr) :
    FindRecvNodePos g v first last m ty
      = FindRecvNodePos.loop g v m ty last (last - first) first := by
  simp [FindRecvNodePos, hm]

theorem consumes_congr {g g' : KernelGraph} (h : sameButAttrs g g') (node m : CNodePtr) :
    consumes g' node m = consumes g node m := by
  unfold consumes VisitKernel
  rw [h.2.2.1, h.2.2.2.1]

theorem GetCNodeName_congr {g g' : KernelGraph} (h : sameButAttrs g g') (node : CNodePtr) :
    GetCNodeName g' node = GetCNodeName g node := by
  unfold GetCNodeName
  rw [h.2.1]

theorem allreduceKernels_congr {g g' : KernelGraph} (h : sameButAttrs g g')
    (l : List CNodePtr) : allreduceKernels g' l = allreduceKernels g l := by
  simp [allreduceKernels, GetCNodeName_congr h]

theorem FindRecvNodePos_loop_congr {g g' : KernelGraph} (h : sameButAttrs g g')
    (v : List CNodePtr) (m : CNodePtr) (ty : StreamSwitchType) (last todo : Nat) :
    ∀ iter, FindRecvNodePos.loop g' v m ty last todo iter
      = FindRecvNodePos.loop g v m ty last todo iter := by
  induction todo with
  | zero => intro iter; rfl
  | succ todo ih =>
    intro iter
    unfold FindRecvNodePos.loop
    cases v[iter]? with
    | none => rfl
    | some node =>
      simp only [consumes_congr h, ih]

theorem FindAllReduceStreamSwitchPos_body_congr {g g' : KernelGraph} (h : sameButAttrs g g')
    (v : List CNodePtr) (iter : Nat) (pairs : List SendRecvPair) :
    FindAllReduceStreamSwitchPos.body g' v iter pairs
      = FindAllReduceStreamSwitchPos.body g v iter pairs := by
  unfold FindAllReduceStreamSwitchPos.body FindRecvNodePos
  simp only [GetCNodeName_congr h, FindRecvNodePos_loop_congr h]

theorem FindAllReduceStreamSwitchPos_loop_congr {g g' : KernelGraph} (h : sameButAttrs g g')
    (v : List CNodePtr) (todo : Nat) :
    ∀ iter pairs, FindAllReduceStreamSwitchPos.loop g' v todo iter pairs
      = FindAllReduceStreamSwitchPos.loop g v todo iter pairs := by
  induction todo with
  | zero => intro iter pairs; rfl
  | succ todo ih =>
    intro iter pairs
    unfold FindAllReduceStreamSwitchPos.loop
    rw [FindAllReduceStreamSwitchPos_body_congr h]
    cases FindAllReduceStreamSwitchPos.body g v iter pairs with
    | error e => rfl
    | ok p => exact ih _ _

theorem FindAllReduceStreamSwitchPos_congr {g g' : KernelGraph} (h : sameButAttrs g g') :
    FindAllReduceStreamSwitchPos g' = FindAllReduceStreamSwitchPos g := by
  unfold FindAllReduceStreamSwitchPos
  rw [h.1]
  exact FindAllReduceStreamSwitchPos_loop_congr h _ _ _ _

theorem mem_allreduceKernels {g : KernelGraph} {order : List CNodePtr} {n : CNodePtr} :
    n ∈ allreduceKernels g order ↔ n ∈ order ∧ GetCNodeName g n = .ok kAllReduceOpName := by
  simp [allreduceKernels]

theorem allreduceKernels_length_le (g : KernelGraph) (order : List CNodePtr) :
    (allreduceKernels g order).length ≤ order.length :=
  List.length_filter_le _ _

theorem FindAllReduceStreamSwitchPos_body_other (g : KernelGraph) (v : List CNodePtr) (iter : Nat)
    (pairs : List SendRecvPair) (K : CNodePtr) (hx : v[iter]? = some K) (hK : K ≠ nullptr)
    (hname : GetCNodeName g K ≠ .ok kAllReduceOpName) :
    FindAllReduceStreamSwitchPos.body g v iter pairs = .ok pairs := by
  have hget := GetCNodeName_of_ne_nullptr g hK
  have hne : g.cnode_name K ≠ kAllReduceOpName := by
    intro h; exact hname (by rw [hget, h])
  unfold FindAllReduceStreamSwitchPos.body
  rw [hx]
  simp only [hget, hne, if_false]

theorem FindAllReduceStreamSwitchPos_body_ne_nullptr (g : KernelGraph) (v : List CNodePtr)
    (iter : Nat) (pairs pairs' : List SendRecvPair) (K : CNodePtr) (hx : v[iter]? = some K)
    (hb : FindAllReduceStreamSwitchPos.body g v iter pairs = .ok pairs') : K ≠ nullptr := by
  intro hK
  subst hK
  unfold FindAllReduceStreamSwitchPos.body at hb
  rw [hx] at hb
  simp [GetCNodeName] at hb

theorem FindRecvNodePos_ok_of_ne_nullptr (g : KernelGraph) (v : List CNodePtr) (iter : Nat)
    (K : CNodePtr) (hK : K ≠ nullptr) (hi : iter ≤ v.length)
    (hnn : ∀ t, iter ≤ t → t < v.length → v[t]? ≠ some nullptr) :
    ∃ r, FindRecvNodePos g v iter v.length K .kAllReduceStreamSwitch = .ok r := by
  obtain ⟨r, hr⟩ := FindRecvNodePos_loop_ok g v K v.length (v.length - iter) iter (by omega)
    (fun t h1 h2 => hnn t h1 (by omega))
  exact ⟨r, by rw [FindRecvNodePos_eq_loop g v iter v.length K _ hK]; exact hr⟩

theorem FindAllReduceStreamSwitchPos_body_allreduce (g : KernelGraph) (v : List CNodePtr)
    (iter : Nat) (pairs : List SendRecvPair) (K : CNodePtr) (hx : v[iter]? = some K)
    (hname : GetCNodeName g K = .ok kAllReduceOpName)
    (hsafe : 1 ≤ iter ∨ 2 ≤ v.length)
    (hrecv : ∀ s, FindSendNodePos v 0 (iter + 1) K .kAllReduceStreamSwitch = .ok s →
      s ≠ iter + 1 → ∃ r, FindRecvNodePos g v iter v.length K .kAllReduceStreamSwitch = .ok r) :
    ∃ s, FindSendNodePos v 0 (iter + 1) K .kAllReduceStreamSwitch = .ok s ∧
      ((s = iter + 1 ∧ (∀ t, t ≤ iter → v[t + 1]? ≠ some K) ∧
          FindAllReduceStreamSwitchPos.body g v iter pairs = .ok pairs) ∨
        (s ≤ iter ∧ v[s + 1]? = some K ∧ (∀ t, t < s → v[t + 1]? ≠ some K) ∧
          ∃ ms, v[s]? = some ms ∧
            ∃ r, FindRecvNodePos g v iter v.length K .kAllReduceStreamSwitch = .ok r ∧
              iter ≤ r ∧
              (∀ t, iter ≤ t → t < r → ∀ node, v[t]? = some node →
                consumes g node K = .ok false) ∧
              ((r = v.length ∧
                  FindAllReduceStreamSwitchPos.body g v iter pairs
                    = .ok (pairs ++ [⟨.kAllReduceStreamSwitch, ms, K, s + 1, iter⟩])) ∨
                (r < v.length ∧ ∃ mr, v[r]? = some mr ∧ consumes g mr K = .ok true ∧
                  FindAllReduceStreamSwitchPos.body g v iter pairs
                    = .ok (pairs ++ [⟨.kAllReduceStreamSwitch, ms, K, s + 1, iter⟩,
                        ⟨.kAllReduceStreamSwitch, K, mr, iter + 1, r⟩]))))) := by
  have hK : K ≠ nullptr := GetCNodeName_ne_nullptr hname
  have hi : iter < v.length := (List.getElem?_eq_some_iff.mp hx).1
  have hpre : (∃ j, 0 ≤ j ∧ j < 0 + (iter + 1 - 0) ∧ v[j + 1]? = some K) ∨
      0 + (iter + 1 - 0) < v.length := by
    by_cases h0 : iter = 0
    · right
      rcases hsafe with h1 | h2
      · omega
      · omega
    · left
      refine ⟨iter - 1, Nat.zero_le _, by omega, ?_⟩
      have : iter - 1 + 1 = iter := by omega
      rw [this]; exact hx
  obtain ⟨s, hs, hsprop⟩ := FindSendNodePos_loop_spec v K (iter + 1) (iter + 1 - 0) 0 hpre
  have hsend : FindSendNodePos v 0 (iter + 1) K .kAllReduceStreamSwitch = .ok s := by
    rw [FindSendNodePos_eq_loop v 0 (iter + 1) K hK]; exact hs
  refine ⟨s, hsend, ?_⟩
  have hbody : FindAllReduceStreamSwitchPos.body g v iter pairs
      = if s = iter + 1 then .ok pairs
        else
          match v[s]? with
          | none => .error .out_of_range
          | some mock_send_node =>
            match FindRecvNodePos g v iter v.length K .kAllReduceStreamSwitch with
            | .error e => .error e
            | .ok r =>
              if r = v.length then
                .ok (pairs ++ [⟨.kAllReduceStreamSwitch, mock_send_node, K, s - 0 + 1, iter - 0⟩])
              else
                match v[r]? with
                | none => .error .out_of_range
                | some mock_recv_node =>
                  .ok (pairs ++ [⟨.kAllReduceStreamSwitch, mock_send_node, K, s - 0 + 1, iter - 0⟩]
                    ++ [⟨.kAllReduceStreamSwitch, K, mock_recv_node, iter - 0 + 1, r - 0⟩]) := by
    unfold FindAllReduceStreamSwitchPos.body
    rw [hx]
    simp only [hname, if_true, hsend]
  rcases hsprop with ⟨h1, h2⟩ | ⟨_, h2, h3, h4⟩
  · left
    refine ⟨h1, fun t ht => h2 t (Nat.zero_le _) (by omega), ?_⟩
    rw [hbody, if_pos h1]
  · right
    have hsi : s ≤ iter := by omega
    have hne : s ≠ iter + 1 := by omega
    have hsv : s < v.length := by omega
    have hxs : v[s]? = some v[s] := List.getElem?_eq_getElem hsv
    refine ⟨hsi, h3, fun t ht => h4 t (Nat.zero_le _) ht, v[s], hxs, ?_⟩
    obtain ⟨r, hrecv'⟩ := hrecv s hsend hne
    have hr : FindRecvNodePos.loop g v K .kAllReduceStreamSwitch v.length (v.length - iter) iter
        = .ok r := by
      rw [← FindRecvNodePos_eq_loop g v iter v.length K _ hK]; exact hrecv'
    have hrprop := FindRecvNodePos_loop_of_ok g v K v.length (v.length - iter) iter r
      (by omega) hr
    refine ⟨r, hrecv', ?_⟩
    rw [hbody, if_neg hne, hxs]
    simp only [hrecv', Nat.sub_zero]
    rcases hrprop with ⟨e1, e2⟩ | ⟨e1, e2, ⟨node, hnode, hc⟩, e4⟩
    · refine ⟨by omega, fun t ht1 ht2 nd hn => e2 t ht1 (by omega) nd hn, Or.inl ⟨e1, ?_⟩⟩
      rw [if_pos e1]
    · have hrlt : r < v.length := by omega
      refine ⟨e1, e4, Or.inr ⟨hrlt, node, hnode, hc, ?_⟩⟩
      rw [if_neg (by omega), hnode]
      simp

theorem FindAllReduceStreamSwitchPos_body_found (g : KernelGraph) (v : List CNodePtr) (iter : Nat)
    (pairs : List SendRecvPair) (hnn : ∀ k ∈ v, k ≠ nullptr)
    (hi : iter < v.length) (hsafe : 1 ≤ iter ∨ 2 ≤ v.length) :
    ∃ extra, FindAllReduceStreamSwitchPos.body g v iter pairs = .ok (pairs ++ extra) ∧
      ∀ p ∈ extra, pairFound g v p := by
  have hx : v[iter]? = some v[iter] := List.getElem?_eq_getElem hi
  have hK : v[iter] ≠ nullptr := hnn _ (List.getElem_mem hi)
  by_cases hname : GetCNodeName g v[iter] = .ok kAllReduceOpName
  · obtain ⟨s, _, hcase⟩ :=
      FindAllReduceStreamSwitchPos_body_allreduce g v iter pairs v[iter] hx hname hsafe
        (fun _ _ _ => FindRecvNodePos_ok_of_ne_nullptr g v iter v[iter] hK (le_of_lt hi)
          (fun t _ ht he => hnn nullptr (by
            obtain ⟨hlt, hget⟩ := List.getElem?_eq_some_iff.mp he
            rw [← hget]; exact List.getElem_mem hlt) rfl))
    rcases hcase with ⟨_, _, hb⟩ | ⟨h1, h2, h3, ms, hms, r, _, hr1, hr2, hr⟩
    · exact ⟨[], by rw [List.append_nil]; exact hb, by simp⟩
    · have hsend : pairFound g v ⟨.kAllReduceStreamSwitch, ms, v[iter], s + 1, iter⟩ :=
        ⟨iter, v[iter], hx, hname, Or.inl ⟨rfl, rfl, rfl, s, h1, hms, h2, h3, rfl⟩⟩
      rcases hr with ⟨_, hb⟩ | ⟨hrlt, mr, hmr, hc, hb⟩
      · refine ⟨_, hb, fun p hp => ?_⟩
        rw [List.mem_singleton] at hp
        rw [hp]; exact hsend
      · refine ⟨_, hb, fun p hp => ?_⟩
        simp only [List.mem_cons, List.mem_singleton, List.not_mem_nil, or_false] at hp
        rcases hp with hp | hp
        · rw [hp]; exact hsend
        · rw [hp]
          exact ⟨iter, v[iter], hx, hname,
            Or.inr ⟨rfl, rfl, rfl, r, hr1, hrlt, hmr, hc, hr2, rfl⟩⟩
  · exact ⟨[], by
      rw [List.append_nil]
      exact FindAllReduceStreamSwitchPos_body_other g v iter pairs v[iter] hx hK hname, by simp⟩

theorem FindAllReduceStreamSwitchPos_loop_found (g : KernelGraph) (v : List CNodePtr)
    (hnn : ∀ k ∈ v, k ≠ nullptr) (todo : Nat) :
    ∀ (iter : Nat) (pairs : List SendRecvPair), iter + todo = v.length →
      (1 ≤ iter ∨ 2 ≤ v.length ∨ todo = 0) →
      ∃ extra, FindAllReduceStreamSwitchPos.loop g v todo iter pairs = .ok (pairs ++ extra) ∧
        ∀ p ∈ extra, pairFound g v p := by
  induction todo with
  | zero =>
    intro iter pairs _ _
    exact ⟨[], by simp [FindAllReduceStreamSwitchPos.loop], by simp⟩
  | succ todo ih =>
    intro iter pairs hlen hsafe
    have hsafe' : 1 ≤ iter ∨ 2 ≤ v.length := by
      rcases hsafe with h | h | h
      · exact Or.inl h
      · exact Or.inr h
      · omega
    obtain ⟨e1, he1, hw1⟩ :=
      FindAllReduceStreamSwitchPos_body_found g v iter pairs hnn (by omega) hsafe'
    obtain ⟨e2, he2, hw2⟩ := ih (iter + 1) (pairs ++ e1) (by omega) (Or.inl (by omega))
    refine ⟨e1 ++ e2, ?_, ?_⟩
    · unfold FindAllReduceStreamSwitchPos.loop
      rw [he1]
      simp only []
      rw [he2, List.append_assoc]
    · intro p hp
      rcases List.mem_append.mp hp with h | h
      · exact hw1 p h
      · exact hw2 p h

theorem FindAllReduceStreamSwitchPos_found (g : KernelGraph)
    (hnn : ∀ k ∈ g.execution_order, k ≠ nullptr)
    (hlen : g.execution_order.length ≠ 1) :
    ∃ pairs, FindAllReduceStreamSwitchPos g = .ok pairs ∧
      ∀ p ∈ pairs, pairFound g g.execution_order p := by
  obtain ⟨extra, h1, h2⟩ :=
    FindAllReduceStreamSwitchPos_loop_found g g.execution_order hnn g.execution_order.length 0 []
      (by omega) (by omega)
  exact ⟨extra, by simpa [FindAllReduceStreamSwitchPos] using h1, h2⟩

theorem pairFound_anchored {g : KernelGraph} {v : List CNodePtr} {p : SendRecvPair}
    (h : pairFound g v p) :
    GetCNodeName g p.mock_send_node = .ok kAllReduceOpName ∨
      GetCNodeName g p.mock_recv_node = .ok kAllReduceOpName := by
  obtain ⟨iter, K, _, hname, hs | hr⟩ := h
  · right; rw [hs.2.1]; exact hname
  · left; rw [hr.2.1]; exact hname

theorem FindAllReduceStreamSwitchPos_body_safe (g : KernelGraph) (v : List CNodePtr) (iter : Nat)
    (pairs pairs' : List SendRecvPair) (K : CNodePtr) (hx : v[iter]? = some K)
    (hname : GetCNodeName g K = .ok kAllReduceOpName)
    (hb : FindAllReduceStreamSwitchPos.body g v iter pairs = .ok pairs') :
    1 ≤ iter ∨ 2 ≤ v.length := by
  have hK : K ≠ nullptr := GetCNodeName_ne_nullptr hname
  by_contra hcon
  have h0 : iter = 0 := by omega
  have hlen : v.length < 2 := by omega
  have hnone : v[0 + 1]? = none := by
    rw [List.getElem?_eq_none_iff]; omega
  subst h0
  unfold FindAllReduceStreamSwitchPos.body at hb
  rw [hx] at hb
  simp [hname, FindSendNodePos, hK, FindSendNodePos.loop, hnone] at hb

theorem FindAllReduceStreamSwitchPos_body_recv_of_ok (g : KernelGraph) (v : List CNodePtr)
    (iter : Nat) (pairs pairs' : List SendRecvPair) (K : CNodePtr) (hx : v[iter]? = some K)
    (hname : GetCNodeName g K = .ok kAllReduceOpName)
    (hb : FindAllReduceStreamSwitchPos.body g v iter pairs = .ok pairs') :
    ∀ s, FindSendNodePos v 0 (iter + 1) K .kAllReduceStreamSwitch = .ok s →
      s ≠ iter + 1 → ∃ r, FindRecvNodePos g v iter v.length K .kAllReduceStreamSwitch = .ok r := by
  intro s hsend hne
  unfold FindAllReduceStreamSwitchPos.body at hb
  rw [hx] at hb
  simp only [hname, if_true, hsend, hne, if_false] at hb
  cases hs : v[s]? with
  | none => rw [hs] at hb; cases hb
  | some ms =>
    rw [hs] at hb
    simp only [] at hb
    cases hr : FindRecvNodePos g v iter v.length K .kAllReduceStreamSwitch with
    | error e => rw [hr] at hb; cases hb
    | ok r => exact ⟨r, rfl⟩

theorem FindAllReduceStreamSwitchPos_body_found_of_ok (g : KernelGraph) (v : List CNodePtr)
    (iter : Nat) (pairs pairs' : List SendRecvPair) (hi : iter < v.length)
    (hb : FindAllReduceStreamSwitchPos.body g v iter pairs = .ok pairs') :
    ∃ extra, pairs' = pairs ++ extra ∧ ∀ p ∈ extra, pairFound g v p := by
  have hx : v[iter]? = some v[iter] := List.getElem?_eq_getElem hi
  by_cases hname : GetCNodeName g v[iter] = .ok kAllReduceOpName
  · have hsafe :=
      FindAllReduceStreamSwitchPos_body_safe g v iter pairs pairs' v[iter] hx hname hb
    obtain ⟨s, _, hcase⟩ :=
      FindAllReduceStreamSwitchPos_body_allreduce g v iter pairs v[iter] hx hname hsafe
        (FindAllReduceStreamSwitchPos_body_recv_of_ok g v iter pairs pairs' v[iter] hx hname hb)
    rcases hcase with ⟨_, _, hb'⟩ | ⟨h1, h2, h3, ms, hms, r, _, hr1, hr2, hr⟩
    · rw [hb] at hb'
      exact ⟨[], by rw [List.append_nil]; exact Except.ok.inj hb', by simp⟩
    · have hsend : pairFound g v ⟨.kAllReduceStreamSwitch, ms, v[iter], s + 1, iter⟩ :=
        ⟨iter, v[iter], hx, hname, Or.inl ⟨rfl, rfl, rfl, s, h1, hms, h2, h3, rfl⟩⟩
      rcases hr with ⟨_, hb'⟩ | ⟨hrlt, mr, hmr, hc, hb'⟩
      · rw [hb] at hb'
        refine ⟨_, Except.ok.inj hb', fun p hp => ?_⟩
        rw [List.mem_singleton] at hp
        rw [hp]; exact hsend
      · rw [hb] at hb'
        refine ⟨_, Except.ok.inj hb', fun p hp => ?_⟩
        simp only [List.mem_cons, List.mem_singleton, List.not_mem_nil, or_false] at hp
        rcases hp with hp | hp
        · rw [hp]; exact hsend
        · rw [hp]
          exact ⟨iter, v[iter], hx, hname,
            Or.inr ⟨rfl, rfl, rfl, r, hr1, hrlt, hmr, hc, hr2, rfl⟩⟩
  · have hK := FindAllReduceStreamSwitchPos_body_ne_nullptr g v iter pairs pairs' v[iter] hx hb
    have hb' := FindAllReduceStreamSwitchPos_body_other g v iter pairs v[iter] hx hK hname
    rw [hb] at hb'
    exact ⟨[], by rw [List.append_nil]; exact Except.ok.inj hb', by simp⟩

theorem FindAllReduceStreamSwitchPos_loop_found_of_ok (g : KernelGraph) (v : List CNodePtr)
    (todo : Nat) :
    ∀ (iter : Nat) (pairs result : List SendRecvPair), iter + todo = v.length →
      FindAllReduceStreamSwitchPos.loop g v todo iter pairs = .ok result →
      ∃ extra, result = pairs ++ extra ∧ ∀ p ∈ extra, pairFound g v p := by
  induction todo with
  | zero =>
    intro iter pairs result _ h
    simp only [FindAllReduceStreamSwitchPos.loop, Except.ok.injEq] at h
    exact ⟨[], by simp [h], by simp⟩
  | succ todo ih =>
    intro iter pairs result hlen h
    unfold FindAllReduceStreamSwitchPos.loop at h
    cases hb : FindAllReduceStreamSwitchPos.body g v iter pairs with
    | error e => rw [hb] at h; cases h
    | ok pairs1 =>
      rw [hb] at h
      obtain ⟨e1, he1, hw1⟩ :=
        FindAllReduceStreamSwitchPos_body_found_of_ok g v iter pairs pairs1 (by omega) hb
      obtain ⟨e2, he2, hw2⟩ := ih (iter + 1) pairs1 result (by omega) h
      refine ⟨e1 ++ e2, by rw [he2, he1, List.append_assoc], ?_⟩
      intro p hp
      rcases List.mem_append.mp hp with h' | h'
      · exact hw1 p h'
      · exact hw2 p h'

theorem FindAllReduceStreamSwitchPos_found_of_ok (g : KernelGraph) (pairs : List SendRecvPair)
    (h : FindAllReduceStreamSwitchPos g = .ok pairs) :
    ∀ p ∈ pairs, pairFound g g.execution_order p := by
  obtain ⟨extra, h1, h2⟩ :=
    FindAllReduceStreamSwitchPos_loop_found_of_ok g g.execution_order g.execution_order.length 0 []
      pairs (by omega) h
  rw [List.nil_append] at h1
  rw [h1]; exact h2

theorem mem_of_getElem?_eq_some {v : List CNodePtr} {i : Nat} {a : CNodePtr}
    (h : v[i]? = some a) : a ∈ v := by
  obtain ⟨hlt, he⟩ := List.getElem?_eq_some_iff.mp h
  rw [← he]
  exact List.getElem_mem hlt

theorem pairFound_within {g : KernelGraph} {v : List CNodePtr} {p : SendRecvPair}
    (h : pairFound g v p) : pairWithin v p := by
  obtain ⟨iter, K, hx, _, hs | hr⟩ := h
  · obtain ⟨h1, h2, h3, s, hs1, hs2, _, _, hs5⟩ := hs
    have hi : iter < v.length := (List.getElem?_eq_some_iff.mp hx).1
    refine ⟨h1, mem_of_getElem?_eq_some hs2, by rw [h2]; exact mem_of_getElem?_eq_some hx, ?_, ?_⟩
    · rw [hs5]; omega
    · rw [h3]; omega
  · obtain ⟨h1, h2, h3, r, _, hr2, hr3, _, _, hr6⟩ := hr
    have hi : iter < v.length := (List.getElem?_eq_some_iff.mp hx).1
    refine ⟨h1, by rw [h2]; exact mem_of_getElem?_eq_some hx, mem_of_getElem?_eq_some hr3, ?_, ?_⟩
    · rw [h3]; omega
    · rw [hr6]; omega

theorem FindAllReduceStreamSwitchPos_ok (g : KernelGraph)
    (hnn : ∀ k ∈ g.execution_order, k ≠ nullptr)
    (hlen : g.execution_order.length ≠ 1) :
    ∃ pairs, FindAllReduceStreamSwitchPos g = .ok pairs ∧
      ∀ p ∈ pairs, pairWithin g.execution_order p := by
  obtain ⟨pairs, h1, h2⟩ := FindAllReduceStreamSwitchPos_found g hnn hlen
  exact ⟨pairs, h1, fun p hp => pairFound_within (h2 p hp)⟩

theorem indexOf_of_getElem? {v : List CNodePtr} (hnd : v.Nodup) {i : Nat} {a : CNodePtr}
    (h : v[i]? = some a) : v.indexOf a = i := by
  obtain ⟨hlt, he⟩ := List.getElem?_eq_some_iff.mp h
  rw [← he]
  exact List.indexOf_getElem hnd i hlt

theorem sendSidePair_offset_le {v : List CNodePtr} {iter : Nat} {K : CNodePtr}
    {p : SendRecvPair} (hx : v[iter]? = some K) (h : sendSidePair v iter K p)
    (hpos : 1 ≤ iter) : p.send_node_offset ≤ p.recv_node_offset := by
  obtain ⟨_, _, h3, s, hs1, _, _, hs4, hs5⟩ := h
  rw [h3, hs5]
  by_contra hcon
  have hs : s = iter := by omega
  have := hs4 (iter - 1) (by omega)
  have e : iter - 1 + 1 = iter := by omega
  rw [e] at this
  exact this hx

theorem FindSendNodePos_reads_lt (v : List CNodePtr) (m : CNodePtr) (todo : Nat) :
    ∀ iter : Nat,
      ((∃ j, iter ≤ j ∧ j < iter + todo ∧ v[j + 1]? = some m) ∨ iter + todo < v.length) →
      ∀ i ∈ FindSendNodePos.reads v m todo iter, i < v.length := by
  induction todo with
  | zero =>
    intro iter _ i hi
    simp [FindSendNodePos.reads] at hi
  | succ todo ih =>
    intro iter h i hi
    have hlt : iter + 1 < v.length := by
      rcases h with ⟨j, hj1, _, hj3⟩ | h
      · have := (List.getElem?_eq_some_iff.mp hj3).1
        omega
      · omega
    have hx : v[iter + 1]? = some v[iter + 1] := List.getElem?_eq_getElem hlt
    unfold FindSendNodePos.reads at hi
    rw [hx] at hi
    by_cases hxm : v[iter + 1] = m
    · simp only [hxm, if_true, List.mem_singleton] at hi
      omega
    · simp only [hxm, if_false, List.mem_cons] at hi
      rcases hi with hi | hi
      · omega
      · refine ih (iter + 1) ?_ i hi
        rcases h with ⟨j, hj1, hj2, hj3⟩ | h
        · left
          refine ⟨j, ?_, by omega, hj3⟩
          rcases Nat.eq_or_lt_of_le hj1 with hjeq | hjlt
          · subst hjeq
            rw [hx] at hj3
            exact absurd (Option.some.inj hj3) hxm
          · exact hjlt
        · right; omega

theorem FindSendNodePos_loop_out_of_range_iff (v : List CNodePtr) (m : CNodePtr) (last : Nat)
    (todo : Nat) :
    ∀ iter : Nat, FindSendNodePos.loop v m last todo iter = .error .out_of_range ↔
      ∃ i ∈ FindSendNodePos.reads v m todo iter, v.length ≤ i := by
  induction todo with
  | zero =>
    intro iter
    simp [FindSendNodePos.loop, FindSendNodePos.reads]
  | succ todo ih =>
    intro iter
    unfold FindSendNodePos.loop FindSendNodePos.reads
    cases hx : v[iter + 1]? with
    | none =>
      have hlen : v.length ≤ iter + 1 := List.getElem?_eq_none_iff.mp hx
      simp [hlen]
    | some next =>
      have hlt : iter + 1 < v.length := (List.getElem?_eq_some_iff.mp hx).1
      by_cases hxm : next = m
      · simp only [hxm, if_true, List.mem_singleton]
        constructor
        · intro h; cases h
        · rintro ⟨i, hi, hle⟩
          omega
      · simp only [hxm, if_false, List.mem_cons]
        rw [ih (iter + 1)]
        constructor
        · rintro ⟨i, hi, hle⟩
          exact ⟨i, Or.inr hi, hle⟩
        · rintro ⟨i, hi | hi, hle⟩
          · omega
          · exact ⟨i, hi, hle⟩

theorem FindSendNodePos_call_pre (v : List CNodePtr) (iter : Nat) (K : CNodePtr)
    (hx : v[iter]? = some K) (hsafe : 1 ≤ iter ∨ 2 ≤ v.length) :
    (∃ j, 0 ≤ j ∧ j < 0 + (iter + 1 - 0) ∧ v[j + 1]? = some K) ∨
      0 + (iter + 1 - 0) < v.length := by
  by_cases h0 : iter = 0
  · right
    rcases hsafe with h1 | h2
    · omega
    · omega
  · left
    refine ⟨iter - 1, Nat.zero_le _, by omega, ?_⟩
    have : iter - 1 + 1 = iter := by omega
    rw [this]; exact hx

/-! ## Placeholder generation -/

theorem CreateStreamSwitchNode_ok (g : KernelGraph) (name : String) :
    CreateStreamSwitchNode g name = .ok (g.node_count + 2,
      { g with
        node_count := g.node_count + 2
        cnode_name := fun n => if n = g.node_count + 2 then name else g.cnode_name n
        inputs := fun n => if n = g.node_count + 2 then [g.node_count + 1] else g.inputs n }) := by
  simp [CreateStreamSwitchNode, nullptr]

theorem GetNodeAttr_eq_ok {g : KernelGraph} {node : CNodePtr} {key : String} {a : Nat}
    (h : g.attrs node key = some a) : GetNodeAttr g node key = .ok a := by
  simp [GetNodeAttr, h]

theorem GetNodeAttr_eq_error {g : KernelGraph} {node : CNodePtr} {key : String}
    (h : g.attrs node key = none) : GetNodeAttr g node key = .error .missing_attr := by
  simp [GetNodeAttr, h]

theorem GenSendRecvCNodesForAllReduce_ok (g : KernelGraph) (d : Device)
    (mock_send_node mock_recv_node : CNodePtr) (a b : Nat)
    (ha : g.attrs mock_send_node "stream_id" = some a)
    (hb : g.attrs mock_recv_node "stream_id" = some b) :
    ∃ g' d', GenSendRecvCNodesForAllReduce g d mock_send_node mock_recv_node
        = .ok (true, g.node_count + 2, g.node_count + 4, g', d') ∧
      GenEffect g d mock_send_node mock_recv_node g' d' := by
  have hs : ("stream_id" : String) ≠ "record_event" := by decide
  have hs2 : ("stream_id" : String) ≠ "wait_event" := by decide
  have hs3 : ("stream_id" : String) ≠ "record_event_stream" := by decide
  have hs4 : ("stream_id" : String) ≠ "wait_event_stream" := by decide
  unfold GenSendRecvCNodesForAllReduce
  rw [CreateStreamSwitchNode_ok]
  simp only [nullptr, Nat.add_eq_zero, OfNat.ofNat_ne_zero, and_false, if_false]
  rw [CreateStreamSwitchNode_ok]
  simp only [Nat.add_eq_zero, OfNat.ofNat_ne_zero, and_false, if_false, cudaEventCreate]
  rw [GetNodeAttr_eq_ok (a := a) (by simp [SetNodeAttr_attrs, hs, hs2, ha])]
  simp only []
  rw [GetNodeAttr_eq_ok (a := b) (by simp [SetNodeAttr_attrs, hs, hs2, hs3, hb])]
  refine ⟨_, _, rfl, ?_⟩
  constructor
  · rfl
  · rfl
  · rfl
  · intro n hn
    have h1 : n ≠ g.node_count + 2 := by omega
    have h2 : n ≠ g.node_count + 2 + 2 := by omega
    simp [SetNodeAttr, h1, h2]
  · rfl
  · intro n h1 h2
    have h2' : n ≠ g.node_count + 2 + 2 := by omega
    simp [SetNodeAttr, h1, h2']
  · simp [SetNodeAttr, kSendOpName]
  · simp [SetNodeAttr, kRecvOpName]
  · intro n key h1 h2
    have h2' : n ≠ g.node_count + 2 + 2 := by omega
    simp [SetNodeAttr, h1, h2']
  · intro n
    simp [SetNodeAttr, hs, hs2, hs3, hs4]
  · simp [SetNodeAttr]
  · simp [SetNodeAttr]
  · simp [SetNodeAttr, ha]
  · simp [SetNodeAttr, hb]
  · intro key h1 h2
    simp [SetNodeAttr, h1, h2]
  · intro key h1 h2
    simp [SetNodeAttr, h1, h2]

theorem CollectEffect_nil (g : KernelGraph) (d : Device) : CollectEffect g d [] g d where
  order := rfl
  count := rfl
  device := rfl
  visit := rfl
  inputs_old := fun _ _ => rfl
  name_old := fun _ _ => rfl
  attrs_old := fun _ _ _ => rfl
  stream_id := fun _ => rfl
  name_send := fun i h => absurd h (Nat.not_lt_zero i)
  name_recv := fun i h => absurd h (Nat.not_lt_zero i)
  record_event := fun i h => absurd h (Nat.not_lt_zero i)
  wait_event := fun i h => absurd h (Nat.not_lt_zero i)
  record_event_stream := fun i h => absurd h (Nat.not_lt_zero i)
  wait_event_stream := fun i h => absurd h (Nat.not_lt_zero i)

theorem CollectEffect_cons {g g1 g' : KernelGraph} {d d1 d' : Device} {p : SendRecvPair}
    {rest : List SendRecvPair}
    (h1 : GenEffect g d p.mock_send_node p.mock_recv_node g1 d1)
    (h2 : CollectEffect g1 d1 rest g' d') : CollectEffect g d (p :: rest) g' d' where
  order := h2.order.trans h1.order
  count := by rw [h2.count, h1.count, List.length_cons]; omega
  device := by
    rw [h2.device, h1.device]
    simp only [List.length_cons, Device.mk.injEq, true_and]
    omega
  visit := h2.visit.trans h1.visit
  inputs_old := fun n hn => by
    rw [h2.inputs_old n (by have := h1.count; omega), h1.inputs_old n hn]
  name_old := fun n hn => by
    rw [h2.name_old n (by have := h1.count; omega), h1.name_old n (by omega) (by omega)]
  attrs_old := fun n key hn => by
    rw [h2.attrs_old n key (by have := h1.count; omega), h1.attrs_old n key (by omega) (by omega)]
  stream_id := fun n => by rw [h2.stream_id, h1.stream_id]
  name_send := fun i hi => by
    cases i with
    | zero => rw [h2.name_old _ (by have := h1.count; omega)]; exact h1.name_send
    | succ j =>
      have := h2.name_send j (by simpa using hi)
      rw [h1.count] at this
      have e1 : g.node_count + 4 * (j + 1) + 2 = g.node_count + 4 + 4 * j + 2 := by omega
      rw [e1]; exact this
  name_recv := fun i hi => by
    cases i with
    | zero => rw [h2.name_old _ (by have := h1.count; omega)]; exact h1.name_recv
    | succ j =>
      have := h2.name_recv j (by simpa using hi)
      rw [h1.count] at this
      have e1 : g.node_count + 4 * (j + 1) + 4 = g.node_count + 4 + 4 * j + 4 := by omega
      rw [e1]; exact this
  record_event := fun i hi => by
    cases i with
    | zero => rw [h2.attrs_old _ _ (by have := h1.count; omega)]; exact h1.record_event
    | succ j =>
      have := h2.record_event j (by simpa using hi)
      rw [h1.count, h1.device] at this
      have e1 : g.node_count + 4 * (j + 1) + 2 = g.node_count + 4 + 4 * j + 2 := by omega
      have e2 : d.event_count + (j + 1) + 1 = d.event_count + 1 + j + 1 := by omega
      rw [e1, e2]; exact this
  wait_event := fun i hi => by
    cases i with
    | zero => rw [h2.attrs_old _ _ (by have := h1.count; omega)]; exact h1.wait_event
    | succ j =>
      have := h2.wait_event j (by simpa using hi)
      rw [h1.count, h1.device] at this
      have e1 : g.node_count + 4 * (j + 1) + 4 = g.node_count + 4 + 4 * j + 4 := by omega
      have e2 : d.event_count + (j + 1) + 1 = d.event_count + 1 + j + 1 := by omega
      rw [e1, e2]; exact this
  record_event_stream := fun i hi => by
    cases i with
    | zero =>
      rw [h2.attrs_old _ _ (by have := h1.count; omega)]
      exact h1.record_event_stream
    | succ j =>
      have := h2.record_event_stream j (by simpa using hi)
      rw [h1.count, h1.stream_id] at this
      have e1 : g.node_count + 4 * (j + 1) + 2 = g.node_count + 4 + 4 * j + 2 := by omega
      rw [e1]; simpa using this
  wait_event_stream := fun i hi => by
    cases i with
    | zero =>
      rw [h2.attrs_old _ _ (by have := h1.count; omega)]
      exact h1.wait_event_stream
    | succ j =>
      have := h2.wait_event_stream j (by simpa using hi)
      rw [h1.count, h1.stream_id] at this
      have e1 : g.node_count + 4 * (j + 1) + 4 = g.node_count + 4 + 4 * j + 4 := by omega
      rw [e1]; simpa using this

theorem collect_ok (pairs : List SendRecvPair) :
    ∀ (g : KernelGraph) (d : Device) (nodes : List StreamSwitchNode),
      (∀ p ∈ pairs, pairReady g p) →
      ∃ g' d', InsertStreamSwitchNode.collect pairs g d nodes
          = .ok (g', d', setInsertAll (placeholders g.node_count pairs) nodes) ∧
        CollectEffect g d pairs g' d' := by
  induction pairs with
  | nil =>
    intro g d nodes _
    exact ⟨g, d, rfl, CollectEffect_nil g d⟩
  | cons p rest ih =>
    intro g d nodes hready
    obtain ⟨hty, hsend, hrecv⟩ := hready p (List.mem_cons_self _ _)
    obtain ⟨a, ha⟩ := Option.isSome_iff_exists.mp hsend
    obtain ⟨b, hb⟩ := Option.isSome_iff_exists.mp hrecv
    obtain ⟨g1, d1, hgen, heff⟩ :=
      GenSendRecvCNodesForAllReduce_ok g d p.mock_send_node p.mock_recv_node a b ha hb
    have hready1 : ∀ q ∈ rest, pairReady g1 q := by
      intro q hq
      obtain ⟨h1, h2, h3⟩ := hready q (List.mem_cons_of_mem _ hq)
      exact ⟨h1, by rw [heff.stream_id]; exact h2, by rw [heff.stream_id]; exact h3⟩
    obtain ⟨g', d', hcol, hceff⟩ := ih g1 d1
      (setInsert ⟨p.recv_node_offset, g.node_count + 4⟩
        (setInsert ⟨p.send_node_offset, g.node_count + 2⟩ nodes)) hready1
    refine ⟨g', d', ?_, CollectEffect_cons heff hceff⟩
    unfold InsertStreamSwitchNode.collect
    rw [if_pos hty, hgen]
    simp only [Bool.true_eq_false, if_false]
    rw [hcol, heff.count]
    rfl

theorem collect_append (done rest : List SendRecvPair) :
    ∀ (g : KernelGraph) (d : Device) (nodes : List StreamSwitchNode)
      (gk : KernelGraph) (dk : Device) (nk : List StreamSwitchNode),
      InsertStreamSwitchNode.collect done g d nodes = .ok (gk, dk, nk) →
      InsertStreamSwitchNode.collect (done ++ rest) g d nodes
        = InsertStreamSwitchNode.collect rest gk dk nk := by
  induction done with
  | nil =>
    intro g d nodes gk dk nk h
    simp only [InsertStreamSwitchNode.collect, Except.ok.injEq, Prod.mk.injEq] at h
    obtain ⟨h1, h2, h3⟩ := h
    rw [List.nil_append, h1, h2, h3]
  | cons p done ih =>
    intro g d nodes gk dk nk h
    rw [List.cons_append]
    unfold InsertStreamSwitchNode.collect at h
    conv_lhs => unfold InsertStreamSwitchNode.collect
    by_cases hty : p.stream_switch_type = .kAllReduceStreamSwitch
    · rw [if_pos hty] at h ⊢
      cases hgen : GenSendRecvCNodesForAllReduce g d p.mock_send_node p.mock_recv_node with
      | error e => rw [hgen] at h; cases h
      | ok res =>
        obtain ⟨ok, send_node, recv_node, g1, d1⟩ := res
        rw [hgen] at h
        simp only [] at h ⊢
        by_cases hok : ok = false
        · rw [if_pos hok] at h; cases h
        · rw [if_neg hok] at h ⊢
          exact ih _ _ _ _ _ _ h
    · rw [if_neg hty] at h ⊢
      exact ih _ _ _ _ _ _ h

/-! ## The ordered set and the splice -/

theorem StreamSwitchNode.lt_iff (a b : StreamSwitchNode) :
    a.lt b = true ↔ a.offset < b.offset ∨ (a.offset = b.offset ∧ a.cnode < b.cnode) := by
  simp [StreamSwitchNode.lt]

theorem StreamSwitchNode.eq_of_not_lt {a b : StreamSwitchNode} (h1 : ¬ a.lt b = true)
    (h2 : ¬ b.lt a = true) : a = b := by
  rw [StreamSwitchNode.lt_iff] at h1 h2
  cases a with
  | mk ao ac =>
    cases b with
    | mk bo bc =>
      unfold CNodePtr at *
      simp only at h1 h2
      have : ao = bo := by omega
      have : ac = bc := by omega
      simp [*]

theorem StreamSwitchNode.lt_irrefl (a : StreamSwitchNode) : ¬ a.lt a = true := by
  rw [StreamSwitchNode.lt_iff]; unfold CNodePtr at *; omega

theorem StreamSwitchNode.lt_trans {a b c : StreamSwitchNode} (h1 : a.lt b = true)
    (h2 : b.lt c = true) : a.lt c = true := by
  rw [StreamSwitchNode.lt_iff] at *; unfold CNodePtr at *; omega

theorem StreamSwitchNode.offset_le_of_lt {a b : StreamSwitchNode} (h : a.lt b = true) :
    a.offset ≤ b.offset := by
  rw [StreamSwitchNode.lt_iff] at h; omega

theorem mem_setInsert {x y : StreamSwitchNode} {s : List StreamSwitchNode}
    (h : y ∈ setInsert x s) : y = x ∨ y ∈ s := by
  induction s with
  | nil => simpa [setInsert] using h
  | cons z zs ih =>
    unfold setInsert at h
    split at h
    · rcases List.mem_cons.mp h with h | h
      · exact Or.inr (h ▸ List.mem_cons_self _ _)
      · rcases ih h with h | h
        · exact Or.inl h
        · exact Or.inr (List.mem_cons_of_mem _ h)
    · split at h
      · rcases List.mem_cons.mp h with h | h
        · exact Or.inl h
        · exact Or.inr h
      · exact Or.inr h

theorem setInsert_perm {x : StreamSwitchNode} {s : List StreamSwitchNode}
    (h : x ∉ s) : (setInsert x s).Perm (x :: s) := by
  induction s with
  | nil => simp [setInsert]
  | cons z zs ih =>
    have hz : x ≠ z := fun e => h (e ▸ List.mem_cons_self _ _)
    have hzs : x ∉ zs := fun e => h (List.mem_cons_of_mem _ e)
    unfold setInsert
    by_cases h1 : z.lt x = true
    · rw [if_pos h1]
      exact ((ih hzs).cons z).trans (List.Perm.swap x z zs)
    · rw [if_neg h1]
      by_cases h2 : x.lt z = true
      · rw [if_pos h2]
      · exact absurd (StreamSwitchNode.eq_of_not_lt h2 h1) hz

theorem setInsert_sorted {x : StreamSwitchNode} {s : List StreamSwitchNode}
    (h : s.Pairwise (fun a b => a.lt b = true)) :
    (setInsert x s).Pairwise (fun a b => a.lt b = true) := by
  induction s with
  | nil => simp [setInsert]
  | cons z zs ih =>
    obtain ⟨hz, hzs⟩ := List.pairwise_cons.mp h
    unfold setInsert
    by_cases h1 : z.lt x = true
    · rw [if_pos h1]
      refine List.pairwise_cons.mpr ⟨fun y hy => ?_, ih hzs⟩
      rcases mem_setInsert hy with hy | hy
      · rw [hy]; exact h1
      · exact hz y hy
    · rw [if_neg h1]
      by_cases h2 : x.lt z = true
      · rw [if_pos h2]
        refine List.pairwise_cons.mpr ⟨fun y hy => ?_, h⟩
        rcases List.mem_cons.mp hy with hy | hy
        · rw [hy]; exact h2
        · exact StreamSwitchNode.lt_trans h2 (hz y hy)
      · rw [if_neg h2]; exact h

theorem setInsertAll_perm (xs : List StreamSwitchNode) :
    ∀ nodes : List StreamSwitchNode, (xs ++ nodes).Nodup →
      (setInsertAll xs nodes).Perm (xs ++ nodes) := by
  induction xs with
  | nil => intro nodes _; exact List.Perm.refl _
  | cons x rest ih =>
    intro nodes hnd
    have hx : x ∉ nodes := by
      intro hmem
      have := (List.nodup_cons.mp hnd).1
      exact this (List.mem_append_right _ hmem)
    have hp : (setInsert x nodes).Perm (x :: nodes) := setInsert_perm hx
    have hnd' : (rest ++ setInsert x nodes).Nodup := by
      have h1 : (rest ++ x :: nodes).Nodup :=
        (List.perm_middle.symm.nodup_iff).mp hnd
      exact ((List.Perm.append_left rest hp).nodup_iff).mpr h1
    have := ih (setInsert x nodes) hnd'
    show (setInsertAll rest (setInsert x nodes)).Perm (x :: rest ++ nodes)
    exact this.trans ((List.Perm.append_left rest hp).trans List.perm_middle)

theorem setInsertAll_sorted (xs : List StreamSwitchNode) :
    ∀ nodes : List StreamSwitchNode, nodes.Pairwise (fun a b => a.lt b = true) →
      (setInsertAll xs nodes).Pairwise (fun a b => a.lt b = true) := by
  induction xs with
  | nil => intro nodes h; exact h
  | cons x rest ih =>
    intro nodes h
    exact ih (setInsert x nodes) (setInsert_sorted h)

theorem placeholders_length (pairs : List SendRecvPair) :
    ∀ count : Nat, (placeholders count pairs).length = 2 * pairs.length := by
  induction pairs with
  | nil => intro _; rfl
  | cons p rest ih =>
    intro count
    simp only [placeholders, List.length_cons, ih]
    omega

theorem placeholders_cnode_bounds (pairs : List SendRecvPair) :
    ∀ (count : Nat) (x : StreamSwitchNode), x ∈ placeholders count pairs →
      count < x.cnode ∧ x.cnode ≤ count + 4 * pairs.length := by
  induction pairs with
  | nil => intro _ x hx; simp [placeholders] at hx
  | cons p rest ih =>
    intro count x hx
    simp only [placeholders, List.mem_cons] at hx
    simp only [List.length_cons]
    rcases hx with hx | hx | hx
    · subst hx; unfold CNodePtr at *; simp only []; omega
    · subst hx; unfold CNodePtr at *; simp only []; omega
    · have := ih (count + 4) x hx
      unfold CNodePtr at *; omega

theorem placeholders_nodup (pairs : List SendRecvPair) :
    ∀ count : Nat, (placeholders count pairs).Nodup := by
  induction pairs with
  | nil => intro _; simp [placeholders]
  | cons p rest ih =>
    intro count
    simp only [placeholders]
    refine List.nodup_cons.mpr ⟨?_, List.nodup_cons.mpr ⟨?_, ih (count + 4)⟩⟩
    · intro hmem
      rcases List.mem_cons.mp hmem with h | h
      · have := congrArg StreamSwitchNode.cnode h
        unfold CNodePtr at *; simp only [] at this; omega
      · have := (placeholders_cnode_bounds rest (count + 4) _ h).1
        unfold CNodePtr at *; simp only [] at this; omega
    · intro hmem
      have := (placeholders_cnode_bounds rest (count + 4) _ hmem).1
      unfold CNodePtr at *; simp only [] at this; omega

theorem placeholders_offsets (pairs : List SendRecvPair) (bound : Nat)
    (h : ∀ p ∈ pairs, p.send_node_offset ≤ bound ∧ p.recv_node_offset ≤ bound) :
    ∀ (count : Nat) (x : StreamSwitchNode), x ∈ placeholders count pairs →
      x.offset ≤ bound := by
  induction pairs with
  | nil => intro _ x hx; simp [placeholders] at hx
  | cons p rest ih =>
    intro count x hx
    simp only [placeholders, List.mem_cons] at hx
    have hp := h p (List.mem_cons_self _ _)
    rcases hx with hx | hx | hx
    · subst hx; exact hp.1
    · subst hx; exact hp.2
    · exact ih (fun q hq => h q (List.mem_cons_of_mem _ hq)) (count + 4) x hx

theorem vectorInsert_ok {v : List CNodePtr} {offset : Nat} (node : CNodePtr)
    (h : offset ≤ v.length) :
    vectorInsert v offset node = .ok (v.take offset ++ node :: v.drop offset) := by
  simp [vectorInsert, h]

theorem vectorInsert_length (v : List CNodePtr) (offset : Nat) (node : CNodePtr) :
    (v.take offset ++ node :: v.drop offset).length = v.length + 1 := by
  have h := congrArg List.length (List.take_append_drop offset v)
  simp only [List.length_append, List.length_cons] at h ⊢
  omega

theorem vectorInsert_perm (v : List CNodePtr) (offset : Nat) (node : CNodePtr) :
    (v.take offset ++ node :: v.drop offset).Perm (node :: v) := by
  have h : (v.take offset ++ node :: v.drop offset).Perm (node :: (v.take offset ++ v.drop offset)) :=
    List.perm_middle
  rwa [List.take_append_drop] at h

theorem vectorInsert_filter (v : List CNodePtr) (offset : Nat) (node : CNodePtr)
    (keep : CNodePtr → Bool) (h : keep node = false) :
    (v.take offset ++ node :: v.drop offset).filter keep = v.filter keep := by
  rw [List.filter_append, List.filter_cons, h]
  simp only [Bool.false_eq_true, if_false]
  rw [← List.filter_append, List.take_append_drop]

theorem splice_ok (nodes : List StreamSwitchNode) :
    ∀ v : List CNodePtr, (∀ x ∈ nodes, x.offset ≤ v.length) →
      ∃ w, InsertStreamSwitchNode.insertEach nodes v = .ok w ∧
        w.length = v.length + nodes.length ∧
        w.Perm (nodes.map StreamSwitchNode.cnode ++ v) ∧
        ∀ keep : CNodePtr → Bool, (∀ x ∈ nodes, keep x.cnode = false) →
          w.filter keep = v.filter keep := by
  induction nodes with
  | nil =>
    intro v _
    exact ⟨v, rfl, rfl, List.Perm.refl _, fun _ _ => rfl⟩
  | cons x rest ih =>
    intro v h
    have hx : x.offset ≤ v.length := h x (List.mem_cons_self _ _)
    have hlen := vectorInsert_length v x.offset x.cnode
    obtain ⟨w, hw, hwl, hwp, hwf⟩ := ih (v.take x.offset ++ x.cnode :: v.drop x.offset)
      (fun y hy => by
        have := h y (List.mem_cons_of_mem _ hy)
        omega)
    refine ⟨w, ?_, by rw [hwl, hlen, List.length_cons]; omega, ?_, ?_⟩
    · unfold InsertStreamSwitchNode.insertEach
      rw [vectorInsert_ok _ hx]
      exact hw
    · refine hwp.trans ?_
      have h1 := List.Perm.append_left (rest.map StreamSwitchNode.cnode)
        (vectorInsert_perm v x.offset x.cnode)
      refine h1.trans ?_
      simp only [List.map_cons, List.cons_append]
      exact List.perm_middle
    · intro keep hk
      rw [hwf keep (fun y hy => hk y (List.mem_cons_of_mem _ hy))]
      exact vectorInsert_filter v x.offset x.cnode keep (hk x (List.mem_cons_self _ _))

theorem splice_append (nodes : List StreamSwitchNode) (t : List CNodePtr) :
    ∀ v w : List CNodePtr, (∀ x ∈ nodes, x.offset ≤ v.length) →
      InsertStreamSwitchNode.insertEach nodes v = .ok w →
      InsertStreamSwitchNode.insertEach nodes (v ++ t) = .ok (w ++ t) := by
  induction nodes with
  | nil =>
    intro v w _ hw
    simp only [InsertStreamSwitchNode.insertEach, Except.ok.injEq] at hw ⊢
    rw [hw]
  | cons x rest ih =>
    intro v w h hw
    have hx : x.offset ≤ v.length := h x (List.mem_cons_self _ _)
    have hlen := vectorInsert_length v x.offset x.cnode
    unfold InsertStreamSwitchNode.insertEach at hw ⊢
    rw [vectorInsert_ok _ hx] at hw
    rw [vectorInsert_ok _ (by rw [List.length_append]; omega)]
    simp only [] at hw ⊢
    have e : (v ++ t).take x.offset ++ x.cnode :: (v ++ t).drop x.offset
        = (v.take x.offset ++ x.cnode :: v.drop x.offset) ++ t := by
      rw [List.take_append_of_le_length hx, List.drop_append_of_le_length hx]
      simp
    rw [e]
    exact ih _ w (fun y hy => by
      have := h y (List.mem_cons_of_mem _ hy)
      omega) hw

theorem splice_desc (nodes : List StreamSwitchNode) :
    ∀ v : List CNodePtr, (∀ x ∈ nodes, x.offset ≤ v.length) →
      nodes.Pairwise (fun a b => b.offset ≤ a.offset) →
      ∃ w, InsertStreamSwitchNode.insertEach nodes v = .ok w ∧
        ∀ x ∈ nodes, ∃ pre mid post, w = pre ++ x.cnode :: (mid ++ post) ∧
          (∀ c ∈ mid, ∃ y ∈ nodes, y.cnode = c ∧ y.offset = x.offset) ∧
          post.head? = v[x.offset]? := by
  induction nodes with
  | nil =>
    intro v _ _
    exact ⟨v, rfl, fun x hx => absurd hx (List.not_mem_nil x)⟩
  | cons x rest ih =>
    intro v h hsorted
    obtain ⟨hxrest, hrest⟩ := List.pairwise_cons.mp hsorted
    have hx : x.offset ≤ v.length := h x (List.mem_cons_self _ _)
    have hlen : (v.take x.offset).length = x.offset := by
      rw [List.length_take]; omega
    obtain ⟨W, hW, hWprop⟩ := ih (v.take x.offset)
      (fun y hy => by rw [hlen]; exact hxrest y hy) hrest
    have hsp := splice_append rest (x.cnode :: v.drop x.offset) (v.take x.offset) W
      (fun y hy => by rw [hlen]; exact hxrest y hy) hW
    refine ⟨W ++ x.cnode :: v.drop x.offset, ?_, ?_⟩
    · unfold InsertStreamSwitchNode.insertEach
      rw [vectorInsert_ok _ hx]
      exact hsp
    · intro y hy
      rcases List.mem_cons.mp hy with hyx | hyrest
      · subst hyx
        refine ⟨W, [], v.drop y.offset, by simp, by simp, ?_⟩
        exact List.head?_drop v y.offset
      · obtain ⟨pre, mid, post, hWeq, hmid, hpost⟩ := hWprop y hyrest
        have hyle : y.offset ≤ x.offset := hxrest y hyrest
        rcases Nat.lt_or_eq_of_le hyle with hlt | heq
        · have hget : (v.take x.offset)[y.offset]? = v[y.offset]? := by
            rw [List.getElem?_take]
            simp [hlt]
          have hylt : y.offset < v.length := by omega
          rw [hget, List.getElem?_eq_getElem hylt] at hpost
          refine ⟨pre, mid, post ++ x.cnode :: v.drop x.offset, ?_, ?_, ?_⟩
          · rw [hWeq]; simp
          · intro c hc
            obtain ⟨z, hz, hzc, hzo⟩ := hmid c hc
            exact ⟨z, List.mem_cons_of_mem _ hz, hzc, hzo⟩
          · rw [List.getElem?_eq_getElem hylt]
            cases post with
            | nil => simp at hpost
            | cons a post' => simpa using hpost
        · have hnone : (v.take x.offset)[y.offset]? = none := by
            rw [List.getElem?_eq_none_iff, hlen]; omega
          rw [hnone] at hpost
          have hpnil : post = [] := by
            cases post with
            | nil => rfl
            | cons a post' => simp at hpost
          subst hpnil
          refine ⟨pre, mid ++ [x.cnode], v.drop x.offset, ?_, ?_, ?_⟩
          · rw [hWeq]; simp
          · intro c hc
            rcases List.mem_append.mp hc with hc | hc
            · obtain ⟨z, hz, hzc, hzo⟩ := hmid c hc
              exact ⟨z, List.mem_cons_of_mem _ hz, hzc, hzo⟩
            · rw [List.mem_singleton] at hc
              exact ⟨x, List.mem_cons_self _ _, hc.symm, heq.symm⟩
          · rw [heq]
            exact List.head?_drop v x.offset

theorem setInsertAll_placeholders (count : Nat) (pairs : List SendRecvPair) :
    (setInsertAll (placeholders count pairs) []).Perm (placeholders count pairs) ∧
      (setInsertAll (placeholders count pairs) []).Pairwise (fun a b => a.lt b = true) := by
  constructor
  · have := setInsertAll_perm (placeholders count pairs) []
      (by rw [List.append_nil]; exact placeholders_nodup pairs count)
    rwa [List.append_nil] at this
  · exact setInsertAll_sorted _ [] List.Pairwise.nil

theorem InsertStreamSwitchNode_ok (g : KernelGraph) (d : Device) (pairs : List SendRecvPair)
    (hready : ∀ p ∈ pairs, pairReady g p)
    (hoff : ∀ p ∈ pairs, p.send_node_offset ≤ g.execution_order.length ∧
      p.recv_node_offset ≤ g.execution_order.length) :
    ∃ g1 d' w, CollectEffect g d pairs g1 d' ∧
      InsertStreamSwitchNode.insertEach (setInsertAll (placeholders g.node_count pairs) []).reverse
        g.execution_order = .ok w ∧
      InsertStreamSwitchNode g d pairs = .ok ({ g1 with execution_order := w }, d') := by
  obtain ⟨g1, d', hcol, heff⟩ := collect_ok pairs g d [] hready
  obtain ⟨hperm, _⟩ := setInsertAll_placeholders g.node_count pairs
  have hoffs : ∀ x ∈ (setInsertAll (placeholders g.node_count pairs) []).reverse,
      x.offset ≤ g.execution_order.length := by
    intro x hx
    have hx' : x ∈ placeholders g.node_count pairs := hperm.subset (List.mem_reverse.mp hx)
    exact placeholders_offsets pairs _ hoff g.node_count x hx'
  obtain ⟨w, hw, _⟩ := splice_ok _ g.execution_order hoffs
  refine ⟨g1, d', w, heff, hw, ?_⟩
  unfold InsertStreamSwitchNode InsertStreamSwitchNode.splice
  rw [hcol]
  simp only []
  rw [heff.order, hw]

theorem mem_placeholders (pairs : List SendRecvPair) :
    ∀ (count : Nat) (x : StreamSwitchNode), x ∈ placeholders count pairs ↔
      ∃ (i : Nat) (h : i < pairs.length),
        x = ⟨pairs[i].send_node_offset, count + 4 * i + 2⟩ ∨
          x = ⟨pairs[i].recv_node_offset, count + 4 * i + 4⟩ := by
  induction pairs with
  | nil => intro count x; simp [placeholders]
  | cons p rest ih =>
    intro count x
    simp only [placeholders, List.mem_cons, ih (count + 4) x]
    constructor
    · rintro (h | h | ⟨i, hi, h⟩)
      · exact ⟨0, by simp, Or.inl (by simpa using h)⟩
      · exact ⟨0, by simp, Or.inr (by simpa using h)⟩
      · refine ⟨i + 1, by simpa using hi, ?_⟩
        have e1 : count + 4 * (i + 1) + 2 = count + 4 + 4 * i + 2 := by omega
        have e2 : count + 4 * (i + 1) + 4 = count + 4 + 4 * i + 4 := by omega
        rw [e1, e2]
        simpa using h
    · rintro ⟨i, hi, h⟩
      cases i with
      | zero =>
        rcases h with h | h
        · exact Or.inl (by simpa using h)
        · exact Or.inr (Or.inl (by simpa using h))
      | succ j =>
        refine Or.inr (Or.inr ⟨j, by simpa using hi, ?_⟩)
        have e1 : count + 4 * (j + 1) + 2 = count + 4 + 4 * j + 2 := by omega
        have e2 : count + 4 * (j + 1) + 4 = count + 4 + 4 * j + 4 := by omega
        rw [e1, e2] at h
        simpa using h

theorem InsertStreamSwitchNode_result (g : KernelGraph) (d : Device) (pairs : List SendRecvPair)
    (hready : ∀ p ∈ pairs, pairReady g p)
    (hoff : ∀ p ∈ pairs, p.send_node_offset ≤ g.execution_order.length ∧
      p.recv_node_offset ≤ g.execution_order.length) :
    ∃ g1 d' w, CollectEffect g d pairs g1 d' ∧
      InsertStreamSwitchNode g d pairs = .ok ({ g1 with execution_order := w }, d') ∧
      w.length = g.execution_order.length + 2 * pairs.length ∧
      w.Perm ((placeholders g.node_count pairs).map StreamSwitchNode.cnode ++ g.execution_order) ∧
      (∀ keep : CNodePtr → Bool, (∀ x ∈ placeholders g.node_count pairs, keep x.cnode = false) →
        w.filter keep = g.execution_order.filter keep) ∧
      ∀ x ∈ placeholders g.node_count pairs, ∃ pre mid post, w = pre ++ x.cnode :: (mid ++ post) ∧
        (∀ c ∈ mid, ∃ y ∈ placeholders g.node_count pairs, y.cnode = c ∧ y.offset = x.offset) ∧
        post.head? = g.execution_order[x.offset]? := by
  obtain ⟨g1, d', w, heff, hw, hins⟩ := InsertStreamSwitchNode_ok g d pairs hready hoff
  obtain ⟨hperm, hsorted⟩ := setInsertAll_placeholders g.node_count pairs
  have hmem : ∀ x, x ∈ (setInsertAll (placeholders g.node_count pairs) []).reverse ↔
      x ∈ placeholders g.node_count pairs := fun x =>
    List.mem_reverse.trans hperm.mem_iff
  have hoffs : ∀ x ∈ (setInsertAll (placeholders g.node_count pairs) []).reverse,
      x.offset ≤ g.execution_order.length := fun x hx =>
    placeholders_offsets pairs _ hoff g.node_count x ((hmem x).mp hx)
  have hdesc : (setInsertAll (placeholders g.node_count pairs) []).reverse.Pairwise
      (fun a b => b.offset ≤ a.offset) := by
    rw [List.pairwise_reverse]
    exact hsorted.imp (fun hab => StreamSwitchNode.offset_le_of_lt hab)
  obtain ⟨w1, hw1, hlen, hp, hfilter⟩ := splice_ok _ g.execution_order hoffs
  obtain ⟨w2, hw2, hdec⟩ := splice_desc _ g.execution_order hoffs hdesc
  have e1 : w1 = w := by
    rw [hw] at hw1; exact (Except.ok.inj hw1).symm
  have e2 : w2 = w := by
    rw [hw] at hw2; exact (Except.ok.inj hw2).symm
  rw [e1] at hlen hp hfilter
  rw [e2] at hdec
  refine ⟨g1, d', w, heff, hins, ?_, ?_, ?_, ?_⟩
  · rw [hlen, List.length_reverse, hperm.length_eq, placeholders_length]
  · refine hp.trans (List.Perm.append_right _ ?_)
    exact ((List.reverse_perm _).trans hperm).map _
  · intro keep hk
    exact hfilter keep (fun x hx => hk x ((hmem x).mp hx))
  · intro x hx
    obtain ⟨pre, mid, post, h1, h2, h3⟩ := hdec x ((hmem x).mpr hx)
    refine ⟨pre, mid, post, h1, fun c hc => ?_, h3⟩
    obtain ⟨y, hy, hyc, hyo⟩ := h2 c hc
    exact ⟨y, (hmem y).mp hy, hyc, hyo⟩

theorem readAgainstOriginal_of_lt (nodes : List StreamSwitchNode) (v : List CNodePtr) :
    ∀ k : Nat, (∀ x ∈ nodes, x.offset < k) → readAgainstOriginal nodes k v = v := by
  induction v with
  | nil =>
    intro k h
    have : nodes.filter (fun x => decide (x.offset = k)) = [] := by
      rw [List.filter_eq_nil_iff]
      intro x hx
      have := h x hx
      simp only [decide_eq_true_eq]
      omega
    simp [readAgainstOriginal, this]
  | cons a rest ih =>
    intro k h
    have : nodes.filter (fun x => decide (x.offset = k)) = [] := by
      rw [List.filter_eq_nil_iff]
      intro x hx
      have := h x hx
      simp only [decide_eq_true_eq]
      omega
    simp only [readAgainstOriginal, this, List.map_nil, List.nil_append]
    rw [ih (k + 1) (fun x hx => by have := h x hx; omega)]

theorem readAgainstOriginal_append_last (nodes : List StreamSwitchNode) (x : StreamSwitchNode)
    (hmax : ∀ y ∈ nodes, y.offset ≤ x.offset) (v : List CNodePtr) :
    ∀ k : Nat, k ≤ x.offset → x.offset ≤ k + v.length →
      readAgainstOriginal (nodes ++ [x]) k v
        = readAgainstOriginal nodes k (v.take (x.offset - k)) ++
            x.cnode :: v.drop (x.offset - k) := by
  induction v with
  | nil =>
    intro k h1 h2
    have hk : x.offset = k := by simpa using Nat.le_antisymm h2 h1
    simp [readAgainstOriginal, List.filter_append, hk]
  | cons a rest ih =>
    intro k h1 h2
    rcases Nat.eq_or_lt_of_le h1 with hk | hk
    · have hz : x.offset - k = 0 := by omega
      rw [hz]
      have hrest : readAgainstOriginal (nodes ++ [x]) (k + 1) rest = rest := by
        apply readAgainstOriginal_of_lt
        intro y hy
        rcases List.mem_append.mp hy with hy | hy
        · have := hmax y hy; omega
        · rw [List.mem_singleton] at hy
          rw [hy]; omega
      simp [readAgainstOriginal, List.filter_append, hk.symm, hrest]
    · have hne : ¬ x.offset = k := by omega
      have hsub : x.offset - k = (x.offset - (k + 1)) + 1 := by omega
      rw [hsub]
      simp only [readAgainstOriginal, List.filter_append, List.take_succ_cons,
        List.drop_succ_cons, List.map_append, List.append_assoc, List.cons_append]
      rw [ih (k + 1) (by omega) (by simp only [List.length_cons] at h2; omega)]
      simp [List.filter_cons, hne]

theorem splice_eq_readAgainstOriginal (ds : List StreamSwitchNode) :
    ∀ v : List CNodePtr, (∀ x ∈ ds, x.offset ≤ v.length) →
      ds.Pairwise (fun a b => b.offset ≤ a.offset) →
      InsertStreamSwitchNode.insertEach ds v = .ok (readAgainstOriginal ds.reverse 0 v) := by
  induction ds with
  | nil =>
    intro v _ _
    rw [List.reverse_nil, readAgainstOriginal_of_lt [] v 0 (fun x hx => absurd hx (List.not_mem_nil x))]
    rfl
  | cons x rest ih =>
    intro v h hsorted
    obtain ⟨hxrest, hrest⟩ := List.pairwise_cons.mp hsorted
    have hx : x.offset ≤ v.length := h x (List.mem_cons_self _ _)
    have hlen : (v.take x.offset).length = x.offset := by
      rw [List.length_take]; omega
    have hW := ih (v.take x.offset) (fun y hy => by rw [hlen]; exact hxrest y hy) hrest
    have hsp := splice_append rest (x.cnode :: v.drop x.offset) (v.take x.offset) _
      (fun y hy => by rw [hlen]; exact hxrest y hy) hW
    unfold InsertStreamSwitchNode.insertEach
    rw [vectorInsert_ok _ hx]
    simp only []
    rw [hsp, List.reverse_cons,
      readAgainstOriginal_append_last rest.reverse x
        (fun y hy => hxrest y (List.mem_reverse.mp hy)) v 0 (Nat.zero_le _) (by omega)]
    rfl

/-! ## The pass as a whole -/

theorem tagged_eq (g : KernelGraph) (d : Device) (hnn : ∀ k ∈ g.execution_order, k ≠ nullptr) :
    ∃ g1, AssignGpuStream.tag d.default_stream g.execution_order g []
        = .ok (g1, allreduceKernels g g.execution_order) ∧
      AssignGpuStream.tagged g d
        = AssignGpuStream.tagComm (CreateStream d).1 (allreduceKernels g g.execution_order) g1 ∧
      sameButAttrs g g1 ∧
      ∀ (n : CNodePtr) (key : String), g1.attrs n key
        = if key = "stream_id" ∧ n ∈ g.execution_order ∧
              GetCNodeName g n ≠ .ok kAllReduceOpName then some d.default_stream
          else g.attrs n key := by
  obtain ⟨g1, h1, h2, h3⟩ := tag_spec d.default_stream g.execution_order hnn g []
  rw [List.nil_append] at h1
  refine ⟨g1, h1, ?_, h2, h3⟩
  unfold AssignGpuStream.tagged
  rw [h1]

theorem tagged_same (g : KernelGraph) (d : Device)
    (hnn : ∀ k ∈ g.execution_order, k ≠ nullptr) :
    sameButAttrs g (AssignGpuStream.tagged g d) := by
  obtain ⟨g1, _, h2, h3, _⟩ := tagged_eq g d hnn
  rw [h2]
  exact sameButAttrs_trans h3 (tagComm_same _ _ _)

theorem tagged_stream_id (g : KernelGraph) (d : Device)
    (hnn : ∀ k ∈ g.execution_order, k ≠ nullptr) (n : CNodePtr)
    (hn : n ∈ g.execution_order) :
    (AssignGpuStream.tagged g d).attrs n "stream_id"
      = some (if GetCNodeName g n = .ok kAllReduceOpName then (CreateStream d).1
          else d.default_stream) := by
  obtain ⟨g1, _, h2, _, h4⟩ := tagged_eq g d hnn
  rw [h2, tagComm_attrs, h4]
  by_cases hname : GetCNodeName g n = .ok kAllReduceOpName
  · have : n ∈ allreduceKernels g g.execution_order := mem_allreduceKernels.mpr ⟨hn, hname⟩
    simp [this, hname]
  · have : n ∉ allreduceKernels g g.execution_order := fun h =>
      hname (mem_allreduceKernels.mp h).2
    simp [this, hname, hn]

theorem tagged_attrs_other (g : KernelGraph) (d : Device)
    (hnn : ∀ k ∈ g.execution_order, k ≠ nullptr) (n : CNodePtr) (key : String)
    (hkey : key ≠ "stream_id") :
    (AssignGpuStream.tagged g d).attrs n key = g.attrs n key := by
  obtain ⟨g1, _, h2, _, h4⟩ := tagged_eq g d hnn
  rw [h2, tagComm_attrs, h4]
  simp [hkey]

theorem AssignGpuStream_few (g : KernelGraph) (d : Device)
    (hnn : ∀ k ∈ g.execution_order, k ≠ nullptr)
    (h : (allreduceKernels g g.execution_order).length ≤ 1) :
    ∃ g1, AssignGpuStream g d = .ok (g1, d) ∧ sameButAttrs g g1 ∧
      ∀ (n : CNodePtr) (key : String), g1.attrs n key
        = if key = "stream_id" ∧ n ∈ g.execution_order ∧
              GetCNodeName g n ≠ .ok kAllReduceOpName then some d.default_stream
          else g.attrs n key := by
  obtain ⟨g1, h1, _, h3, h4⟩ := tagged_eq g d hnn
  refine ⟨g1, ?_, h3, h4⟩
  unfold AssignGpuStream
  rw [h1]
  have : ¬ (allreduceKernels g g.execution_order).length > 1 := by omega
  simp only [this, if_false]

theorem AssignGpuStream_many (g : KernelGraph) (d : Device)
    (hnn : ∀ k ∈ g.execution_order, k ≠ nullptr)
    (h : 2 ≤ (allreduceKernels g g.execution_order).length) :
    AssignGpuStream g d
      = match FindAllReduceStreamSwitchPos (AssignGpuStream.tagged g d) with
        | .error e => .error e
        | .ok send_recv_pairs =>
          InsertStreamSwitchNode (AssignGpuStream.tagged g d) (CreateStream d).2
            send_recv_pairs := by
  obtain ⟨g1, h1, h2, _, _⟩ := tagged_eq g d hnn
  unfold AssignGpuStream
  rw [h1, h2]
  have : (allreduceKernels g g.execution_order).length > 1 := by omega
  simp only [this, if_true]

theorem AssignGpuStream_ok (g : KernelGraph) (d : Device)
    (h : 2 ≤ (allreduceKernels g g.execution_order).length)
    (hnn : ∀ k ∈ g.execution_order, k ≠ nullptr) :
    ∃ pairs g1 d' w, FindAllReduceStreamSwitchPos g = .ok pairs ∧
      (∀ p ∈ pairs, pairWithin g.execution_order p) ∧
      CollectEffect (AssignGpuStream.tagged g d) (CreateStream d).2 pairs g1 d' ∧
      AssignGpuStream g d = .ok ({ g1 with execution_order := w }, d') ∧
      w.length = g.execution_order.length + 2 * pairs.length ∧
      w.Perm ((placeholders g.node_count pairs).map StreamSwitchNode.cnode ++ g.execution_order) ∧
      (∀ keep : CNodePtr → Bool, (∀ x ∈ placeholders g.node_count pairs, keep x.cnode = false) →
        w.filter keep = g.execution_order.filter keep) ∧
      ∀ x ∈ placeholders g.node_count pairs, ∃ pre mid post, w = pre ++ x.cnode :: (mid ++ post) ∧
        (∀ c ∈ mid, ∃ y ∈ placeholders g.node_count pairs, y.cnode = c ∧ y.offset = x.offset) ∧
        post.head? = g.execution_order[x.offset]? := by
  have hlen : g.execution_order.length ≠ 1 := by
    have := allreduceKernels_length_le g g.execution_order
    omega
  obtain ⟨pairs, hfind, hwithin⟩ :=
    FindAllReduceStreamSwitchPos_ok g hnn hlen
  have hsame := tagged_same g d hnn
  have hready : ∀ p ∈ pairs, pairReady (AssignGpuStream.tagged g d) p := by
    intro p hp
    obtain ⟨h1, h2, h3, _, _⟩ := hwithin p hp
    exact ⟨h1, by rw [tagged_stream_id g d hnn _ h2]; rfl,
      by rw [tagged_stream_id g d hnn _ h3]; rfl⟩
  have hoff : ∀ p ∈ pairs,
      p.send_node_offset ≤ (AssignGpuStream.tagged g d).execution_order.length ∧
        p.recv_node_offset ≤ (AssignGpuStream.tagged g d).execution_order.length := by
    intro p hp
    obtain ⟨_, _, _, h4, h5⟩ := hwithin p hp
    rw [hsame.1]
    exact ⟨h4, h5⟩
  obtain ⟨g1, d', w, heff, hins, hwl, hwp, hwf, hwd⟩ :=
    InsertStreamSwitchNode_result (AssignGpuStream.tagged g d) (CreateStream d).2 pairs
      hready hoff
  rw [hsame.1] at hwl hwp hwf hwd
  rw [hsame.2.2.2.2] at hwp hwf hwd
  refine ⟨pairs, g1, d', w, hfind, hwithin, heff, ?_, hwl, hwp, hwf, hwd⟩
  rw [AssignGpuStream_many g d hnn h, FindAllReduceStreamSwitchPos_congr hsame, hfind]
  exact hins

theorem InsertStreamSwitchNode_eq_read (g : KernelGraph) (d : Device) (pairs : List SendRecvPair)
    (hready : ∀ p ∈ pairs, pairReady g p)
    (hoff : ∀ p ∈ pairs, p.send_node_offset ≤ g.execution_order.length ∧
      p.recv_node_offset ≤ g.execution_order.length) :
    ∃ g1 d', CollectEffect g d pairs g1 d' ∧
      InsertStreamSwitchNode g d pairs
        = .ok ({ g1 with execution_order :=
            (readAgainstOriginal (setInsertAll (placeholders g.node_count pairs) []) 0
              g.execution_order) }, d') := by
  obtain ⟨g1, d', w, heff, hw, hins⟩ := InsertStreamSwitchNode_ok g d pairs hready hoff
  obtain ⟨hperm, hsorted⟩ := setInsertAll_placeholders g.node_count pairs
  have hoffs : ∀ x ∈ (setInsertAll (placeholders g.node_count pairs) []).reverse,
      x.offset ≤ g.execution_order.length := fun x hx =>
    placeholders_offsets pairs _ hoff g.node_count x (hperm.subset (List.mem_reverse.mp hx))
  have hdesc : (setInsertAll (placeholders g.node_count pairs) []).reverse.Pairwise
      (fun a b => b.offset ≤ a.offset) := by
    rw [List.pairwise_reverse]
    exact hsorted.imp (fun hab => StreamSwitchNode.offset_le_of_lt hab)
  have hread := splice_eq_readAgainstOriginal _ g.execution_order hoffs hdesc
  rw [List.reverse_reverse, hw] at hread
  rw [Except.ok.inj hread] at hins
  exact ⟨g1, d', heff, hins⟩

theorem AssignGpuStream_eq_read (g : KernelGraph) (d : Device)
    (h : 2 ≤ (allreduceKernels g g.execution_order).length)
    (hnn : ∀ k ∈ g.execution_order, k ≠ nullptr) :
    ∃ pairs g1 d', FindAllReduceStreamSwitchPos g = .ok pairs ∧
      CollectEffect (AssignGpuStream.tagged g d) (CreateStream d).2 pairs g1 d' ∧
      AssignGpuStream g d
        = .ok ({ g1 with execution_order :=
            (readAgainstOriginal (setInsertAll (placeholders g.node_count pairs) []) 0
              g.execution_order) }, d') := by
  have hlen : g.execution_order.length ≠ 1 := by
    have := allreduceKernels_length_le g g.execution_order
    omega
  obtain ⟨pairs, hfind, hwithin⟩ :=
    FindAllReduceStreamSwitchPos_ok g hnn hlen
  have hsame := tagged_same g d hnn
  have hready : ∀ p ∈ pairs, pairReady (AssignGpuStream.tagged g d) p := by
    intro p hp
    obtain ⟨h1, h2, h3, _, _⟩ := hwithin p hp
    exact ⟨h1, by rw [tagged_stream_id g d hnn _ h2]; rfl,
      by rw [tagged_stream_id g d hnn _ h3]; rfl⟩
  have hoff : ∀ p ∈ pairs,
      p.send_node_offset ≤ (AssignGpuStream.tagged g d).execution_order.length ∧
        p.recv_node_offset ≤ (AssignGpuStream.tagged g d).execution_order.length := by
    intro p hp
    obtain ⟨_, _, _, h4, h5⟩ := hwithin p hp
    rw [hsame.1]
    exact ⟨h4, h5⟩
  obtain ⟨g1, d', heff, hins⟩ :=
    InsertStreamSwitchNode_eq_read (AssignGpuStream.tagged g d) (CreateStream d).2 pairs
      hready hoff
  rw [hsame.1, hsame.2.2.2.2] at hins
  refine ⟨pairs, g1, d', hfind, heff, ?_⟩
  rw [AssignGpuStream_many g d hnn h, FindAllReduceStreamSwitchPos_congr hsame, hfind]
  exact hins

theorem nodup_five {a r1 m r2 c : CNodePtr} (hnd : [a, r1, m, r2, c].Nodup) :
    a ≠ r1 ∧ a ≠ m ∧ a ≠ r2 ∧ a ≠ c ∧ r1 ≠ m ∧ r1 ≠ r2 ∧ r1 ≠ c ∧ m ≠ r2 ∧ m ≠ c ∧ r2 ≠ c := by
  simp only [List.nodup_cons, List.mem_cons, List.mem_singleton, List.not_mem_nil, or_false,
    not_or, List.nodup_nil, and_true, not_false_eq_true] at hnd
  obtain ⟨⟨h1, h2, h3, h4⟩, ⟨h5, h6, h7⟩, ⟨h8, h9⟩, h10⟩ := hnd
  exact ⟨h1, h2, h3, h4, h5, h6, h7, h8, h9, h10⟩

theorem consumes_false_of_not_true {g : KernelGraph} {node m : CNodePtr}
    (hn : node ≠ nullptr) (h : ¬ consumes g node m = .ok true) : consumes g node m = .ok false := by
  rw [consumes_of_ne_nullptr g m hn] at h ⊢
  cases hb : (g.inputs node).any (fun input => decide (m = VisitKernel g input)) with
  | false => rfl
  | true => rw [hb] at h; exact absurd rfl h

theorem scenario_pairs (g : KernelGraph) (a r1 m r2 c : CNodePtr) (na nm nc : String)
    (horder : g.execution_order = [a, r1, m, r2, c])
    (hnd : [a, r1, m, r2, c].Nodup)
    (hr1 : GetCNodeName g r1 = .ok kAllReduceOpName)
    (hr2 : GetCNodeName g r2 = .ok kAllReduceOpName)
    (ha : GetCNodeName g a = .ok na) (hm : GetCNodeName g m = .ok nm)
    (hc : GetCNodeName g c = .ok nc)
    (hna : na ≠ kAllReduceOpName) (hnm : nm ≠ kAllReduceOpName) (hnc : nc ≠ kAllReduceOpName)
    (hdeps : ∀ x ∈ [a, r1, m, r2, c], ∀ y ∈ [a, r1, m, r2, c],
      (consumes g x y = .ok true ↔ (x = r1 ∧ y = a) ∨ (x = r2 ∧ y = m) ∨ (x = c ∧ y = r2))) :
    FindAllReduceStreamSwitchPos g
      = .ok [⟨.kAllReduceStreamSwitch, a, r1, 1, 1⟩, ⟨.kAllReduceStreamSwitch, m, r2, 3, 3⟩,
          ⟨.kAllReduceStreamSwitch, r2, c, 4, 4⟩] := by
  obtain ⟨h1, h2, h3, h4, h5, h6, h7, h8, h9, h10⟩ := nodup_five hnd
  have n1 : r1 ≠ nullptr := GetCNodeName_ne_nullptr hr1
  have n2 : r2 ≠ nullptr := GetCNodeName_ne_nullptr hr2
  have n3 : m ≠ nullptr := GetCNodeName_ne_nullptr hm
  have n4 : c ≠ nullptr := GetCNodeName_ne_nullptr hc
  have c1 : consumes g r1 r1 = .ok false := by
    refine consumes_false_of_not_true n1 (fun hcon => ?_)
    have := (hdeps r1 (by simp) r1 (by simp)).mp hcon
    simp [Ne.symm h1, h6, h7, h5] at this
  have c2 : consumes g m r1 = .ok false := by
    refine consumes_false_of_not_true n3 (fun hcon => ?_)
    have := (hdeps m (by simp) r1 (by simp)).mp hcon
    simp [Ne.symm h1, Ne.symm h5, h8, h9, h5, h6] at this
  have c3 : consumes g r2 r1 = .ok false := by
    refine consumes_false_of_not_true n2 (fun hcon => ?_)
    have := (hdeps r2 (by simp) r1 (by simp)).mp hcon
    simp [Ne.symm h1, Ne.symm h6, h5, h6, h10] at this
  have c4 : consumes g c r1 = .ok false := by
    refine consumes_false_of_not_true n4 (fun hcon => ?_)
    have := (hdeps c (by simp) r1 (by simp)).mp hcon
    simp [Ne.symm h1, Ne.symm h7, h6, h5, Ne.symm h10] at this
  have c5 : consumes g r2 r2 = .ok false := by
    refine consumes_false_of_not_true n2 (fun hcon => ?_)
    have := (hdeps r2 (by simp) r2 (by simp)).mp hcon
    simp [Ne.symm h6, Ne.symm h8, h10] at this
  have c6 : consumes g c r2 = .ok true :=
    (hdeps c (by simp) r2 (by simp)).mpr (Or.inr (Or.inr ⟨rfl, rfl⟩))
  simp [FindAllReduceStreamSwitchPos, horder, FindAllReduceStreamSwitchPos.loop,
    FindAllReduceStreamSwitchPos.body, FindSendNodePos, FindSendNodePos.loop, FindRecvNodePos,
    FindRecvNodePos.loop, hr1, hr2, ha, hm, hc, hna, hnm, hnc, n1, n2, c1, c2, c3, c4, c5, c6,
    h1, h2, h3, h4, h5, h6, h7, h8, h9, h10, Ne.symm h5, Ne.symm h8, Ne.symm h6]

theorem scenario_order (count : Nat) (a r1 m r2 c : CNodePtr) :
    readAgainstOriginal
        (setInsertAll
          (placeholders count
            [⟨.kAllReduceStreamSwitch, a, r1, 1, 1⟩, ⟨.kAllReduceStreamSwitch, m, r2, 3, 3⟩,
              ⟨.kAllReduceStreamSwitch, r2, c, 4, 4⟩]) []) 0 [a, r1, m, r2, c]
      = [a, count + 2, count + 4, r1, m, count + 6, count + 8, r2, count + 10, count + 12, c] := by
  simp [placeholders, setInsertAll, setInsert, StreamSwitchNode.lt, readAgainstOriginal,
    List.filter_cons]

theorem AssignGpuStream_single_allreduce_untagged (g : KernelGraph) (d : Device)
    (h : (allreduceKernels g g.execution_order).length = 1)
    (hnn : ∀ k ∈ g.execution_order, k ≠ nullptr) :
    ∃ g', AssignGpuStream g d = .ok (g', d) ∧
      ∀ k ∈ g.execution_order,
        (GetCNodeName g k ≠ .ok kAllReduceOpName →
          g'.attrs k "stream_id" = some d.default_stream) ∧
        (GetCNodeName g k = .ok kAllReduceOpName →
          g'.attrs k "stream_id" = g.attrs k "stream_id") := by
  obtain ⟨g1, h1, _, h3⟩ := AssignGpuStream_few g d hnn (by omega)
  refine ⟨g1, h1, fun k hk => ⟨fun hname => ?_, fun hname => ?_⟩⟩
  · rw [h3]
    simp [hk, hname]
  · rw [h3]
    simp [hname]

theorem AssignGpuStream_null_entry :
    (AssignGpuStream graphNullEntry dev0).map (fun r => r.1.execution_order)
      = .error .null_pointer := rfl

theorem FindRecvNodePos_null_entry :
    FindRecvNodePos graphNullEntry [1, nullptr, 2] 0 3 1 .kAllReduceStreamSwitch
      = .error .null_pointer := rfl

/-! ## The claims -/

/-- C1: on an execution order with at least two AllReduce kernels `AssignGpuStream` returns,
exactly one stream has been created (a handle other than the default stream), every AllReduce
kernel of the original order carries that stream as its `stream_id` and every other kernel of
the original order carries the default compute stream. -/
theorem AssignGpuStream_two_allreduce_streams (g : KernelGraph) (d : Device)
    (h : 2 ≤ (allreduceKernels g g.execution_order).length)
    (hnn : ∀ k ∈ g.execution_order, k ≠ nullptr) :
    ∃ g' d', AssignGpuStream g d = .ok (g', d') ∧
      d'.stream_count = d.stream_count + 1 ∧ d'.default_stream = d.default_stream ∧
      (CreateStream d).1 ≠ d.default_stream ∧
      ∀ k ∈ g.execution_order,
        (GetCNodeName g k = .ok kAllReduceOpName →
          g'.attrs k "stream_id" = some (CreateStream d).1) ∧
        (GetCNodeName g k ≠ .ok kAllReduceOpName →
          g'.attrs k "stream_id" = some d.default_stream) := by
  obtain ⟨pairs, g1, d', w, _, _, heff, hres, _⟩ := AssignGpuStream_ok g d h hnn
  refine ⟨_, _, hres, ?_, ?_, ?_, ?_⟩
  · rw [heff.device]; rfl
  · rw [heff.device]; rfl
  · simp only [CreateStream]; omega
  · intro k hk
    have hattr : g1.attrs k "stream_id"
        = some (if GetCNodeName g k = .ok kAllReduceOpName then (CreateStream d).1
            else d.default_stream) := by
      rw [heff.stream_id, tagged_stream_id g d hnn k hk]
    constructor
    · intro hname
      show g1.attrs k "stream_id" = _
      rw [hattr, if_pos hname]
    · intro hname
      show g1.attrs k "stream_id" = _
      rw [hattr, if_neg hname]

/-- Witness of C1 on the order `[A, R1, M, R2, C]`. -/
theorem AssignGpuStream_two_allreduce_streams_witness :
    2 ≤ (allreduceKernels graphTwoAllReduce graphTwoAllReduce.execution_order).length ∧
    (∀ k ∈ graphTwoAllReduce.execution_order, k ≠ nullptr) ∧
    ∃ g' d', AssignGpuStream graphTwoAllReduce dev0 = .ok (g', d') ∧
      d'.stream_count = dev0.stream_count + 1 ∧ d'.default_stream = dev0.default_stream ∧
      (CreateStream dev0).1 ≠ dev0.default_stream ∧
      ∀ k ∈ graphTwoAllReduce.execution_order,
        (GetCNodeName graphTwoAllReduce k = .ok kAllReduceOpName →
          g'.attrs k "stream_id" = some (CreateStream dev0).1) ∧
        (GetCNodeName graphTwoAllReduce k ≠ .ok kAllReduceOpName →
          g'.attrs k "stream_id" = some dev0.default_stream) :=
  ⟨by decide, by decide,
    AssignGpuStream_two_allreduce_streams graphTwoAllReduce dev0 (by decide) (by decide)⟩

/-- C2: on an execution order of non-null kernels with at most one AllReduce kernel
`AssignGpuStream` returns with the device unchanged (no stream and no event created), no node
allocated, no node renamed, and the execution order exactly as it was. -/
theorem AssignGpuStream_at_most_one_allreduce (g : KernelGraph) (d : Device)
    (h : (allreduceKernels g g.execution_order).length ≤ 1)
    (hnn : ∀ k ∈ g.execution_order, k ≠ nullptr) :
    ∃ g', AssignGpuStream g d = .ok (g', d) ∧
      g'.execution_order = g.execution_order ∧ g'.node_count = g.node_count ∧
      g'.cnode_name = g.cnode_name ∧ g'.inputs = g.inputs := by
  obtain ⟨g1, h1, hs, _⟩ := AssignGpuStream_few g d hnn h
  exact ⟨g1, h1, hs.1, hs.2.2.2.2, hs.2.1, hs.2.2.1⟩

/-- Witness of C2 on the order `[A, B, C]` with the single AllReduce kernel `B`. -/
theorem AssignGpuStream_at_most_one_allreduce_witness :
    (allreduceKernels graphOneAllReduce graphOneAllReduce.execution_order).length ≤ 1 ∧
    (∀ k ∈ graphOneAllReduce.execution_order, k ≠ nullptr) ∧
    ∃ g', AssignGpuStream graphOneAllReduce dev0 = .ok (g', dev0) ∧
      g'.execution_order = [1, 2, 3] ∧ g'.node_count = graphOneAllReduce.node_count ∧
      g'.cnode_name = graphOneAllReduce.cnode_name ∧ g'.inputs = graphOneAllReduce.inputs :=
  ⟨by decide, by decide,
    AssignGpuStream_at_most_one_allreduce graphOneAllReduce dev0 (by decide) (by decide)⟩

/-- C3: for AllReduce pairs whose mock nodes carry a stream and whose offsets are at most the
length of the order, `InsertStreamSwitchNode` writes back an order from which the original order
is recovered by removing the nodes created by the call: what is removed are Send and Recv
placeholders only, and every original node occurs as often as before, in the original relative
order. -/
theorem InsertStreamSwitchNode_keeps_original_order (g : KernelGraph) (d : Device)
    (pairs : List SendRecvPair)
    (hfresh : ∀ n ∈ g.execution_order, n ≤ g.node_count)
    (hready : ∀ p ∈ pairs, pairReady g p)
    (hoff : ∀ p ∈ pairs, p.send_node_offset ≤ g.execution_order.length ∧
      p.recv_node_offset ≤ g.execution_order.length) :
    ∃ g' d', InsertStreamSwitchNode g d pairs = .ok (g', d') ∧
      g'.execution_order.filter (fun n => decide (n ≤ g.node_count)) = g.execution_order ∧
      (∀ n ∈ g'.execution_order, g.node_count < n →
        GetCNodeName g' n = .ok kSendOpName ∨ GetCNodeName g' n = .ok kRecvOpName) ∧
      ∀ n ∈ g.execution_order, g'.execution_order.count n = g.execution_order.count n := by
  obtain ⟨g1, d', w, heff, hins, _, hperm, hfilter, _⟩ :=
    InsertStreamSwitchNode_result g d pairs hready hoff
  have hkeep : ∀ x ∈ placeholders g.node_count pairs,
      (fun n : CNodePtr => decide (n ≤ g.node_count)) x.cnode = false := by
    intro x hx
    have := (placeholders_cnode_bounds pairs g.node_count x hx).1
    simp only [decide_eq_false_iff_not]
    unfold CNodePtr at *
    omega
  have hfil : w.filter (fun n => decide (n ≤ g.node_count)) = g.execution_order := by
    rw [hfilter _ hkeep, List.filter_eq_self]
    intro n hn
    simpa using hfresh n hn
  refine ⟨_, _, hins, hfil, ?_, ?_⟩
  · intro n hn hgt
    have hn0 : n ≠ nullptr := by
      unfold nullptr
      unfold CNodePtr at *
      omega
    have hn' : n ∈ (placeholders g.node_count pairs).map StreamSwitchNode.cnode ++
        g.execution_order := hperm.subset hn
    rcases List.mem_append.mp hn' with hpl | hord
    · obtain ⟨x, hx, hxn⟩ := List.mem_map.mp hpl
      obtain ⟨i, hi, hcase | hcase⟩ := (mem_placeholders pairs g.node_count x).mp hx
      · left
        refine GetCNodeName_eq_ok_iff.mpr ⟨hn0, ?_⟩
        show g1.cnode_name n = _
        rw [← hxn, hcase]
        exact heff.name_send i hi
      · right
        refine GetCNodeName_eq_ok_iff.mpr ⟨hn0, ?_⟩
        show g1.cnode_name n = _
        rw [← hxn, hcase]
        exact heff.name_recv i hi
    · have := hfresh n hord
      unfold CNodePtr at *
      omega
  · intro n hn
    show w.count n = g.execution_order.count n
    have h1 : (w.filter (fun n => decide (n ≤ g.node_count))).count n = w.count n :=
      List.count_filter (by simpa using hfresh n hn)
    rw [← h1, hfil]

/-- Witness of C3: the three pairs of the order `[A, R1, M, R2, C]`, on the tagged graph. -/
theorem InsertStreamSwitchNode_keeps_original_order_witness :
    (∀ n ∈ graphTwoAllReduceTagged.execution_order, n ≤ graphTwoAllReduceTagged.node_count) ∧
    ∃ g' d', InsertStreamSwitchNode graphTwoAllReduceTagged dev0 pairsTwoAllReduce
        = .ok (g', d') ∧
      g'.execution_order.filter (fun n => decide (n ≤ graphTwoAllReduceTagged.node_count))
        = [1, 2, 3, 4, 5] ∧
      (∀ n ∈ g'.execution_order, graphTwoAllReduceTagged.node_count < n →
        GetCNodeName g' n = .ok kSendOpName ∨ GetCNodeName g' n = .ok kRecvOpName) ∧
      ∀ n ∈ graphTwoAllReduceTagged.execution_order,
        g'.execution_order.count n = graphTwoAllReduceTagged.execution_order.count n :=
  ⟨by decide,
    InsertStreamSwitchNode_keeps_original_order graphTwoAllReduceTagged dev0 pairsTwoAllReduce
      (by decide) (by decide) (by decide)⟩

/-- C4, counterexample: in `[R1, C, R2]` the send-side pair of `R2` records offset 2 for its
Send node (node 5) and for its Recv node (node 7); the new order is `[R1, C, Send, Recv, R2]`,
so the Send node is followed by the Recv node and not by `R2`, the node that occupied offset 2. -/
theorem InsertStreamSwitchNode_send_not_adjacent :
    FindAllReduceStreamSwitchPos graphLeadingAllReduce
        = .ok [⟨.kAllReduceStreamSwitch, 2, 3, 2, 2⟩] ∧
      (AssignGpuStream graphLeadingAllReduce dev0).map (fun r => r.1.execution_order)
        = .ok [1, 2, 5, 7, 3] ∧
      placeholders 3 [⟨.kAllReduceStreamSwitch, 2, 3, 2, 2⟩] = [⟨2, 5⟩, ⟨2, 7⟩] ∧
      ¬ ∀ x ∈ placeholders 3 [⟨.kAllReduceStreamSwitch, 2, 3, 2, 2⟩], ∀ i : Nat,
          ([1, 2, 5, 7, 3] : List CNodePtr)[i]? = some x.cnode →
            ([1, 2, 5, 7, 3] : List CNodePtr)[i + 1]? = ([1, 2, 3] : List CNodePtr)[x.offset]? := by
  refine ⟨rfl, rfl, rfl, fun hall => ?_⟩
  have := hall ⟨2, 5⟩ (by decide) 2 (by decide)
  exact absurd this (by decide)

/-- C4, amended: the ordered set built by `InsertStreamSwitchNode` holds the Send and the Recv
placeholder of every pair, and in the order written back every placeholder whose recorded offset
is below the original length is followed by the node that occupied that offset in the original
order, with nothing but other placeholders of the same recorded offset in between; a placeholder
whose recorded offset is the original length is followed by such placeholders only. -/
theorem InsertStreamSwitchNode_placeholder_before_original (g : KernelGraph) (d : Device)
    (pairs : List SendRecvPair)
    (hready : ∀ p ∈ pairs, pairReady g p)
    (hoff : ∀ p ∈ pairs, p.send_node_offset ≤ g.execution_order.length ∧
      p.recv_node_offset ≤ g.execution_order.length) :
    ∃ g' d', InsertStreamSwitchNode g d pairs = .ok (g', d') ∧
      (∃ g1 d1 nodes, InsertStreamSwitchNode.collect pairs g d [] = .ok (g1, d1, nodes) ∧
        nodes.Perm (placeholders g.node_count pairs)) ∧
      ∀ x ∈ placeholders g.node_count pairs,
        ∃ pre mid post, g'.execution_order = pre ++ x.cnode :: (mid ++ post) ∧
          (∀ c ∈ mid, ∃ y ∈ placeholders g.node_count pairs, y.cnode = c ∧ y.offset = x.offset) ∧
          (∀ hx : x.offset < g.execution_order.length,
            ∃ post', post = g.execution_order[x.offset] :: post') ∧
          (x.offset = g.execution_order.length → post = []) := by
  obtain ⟨g1, d', w, _, hins, _, _, _, hdec⟩ :=
    InsertStreamSwitchNode_result g d pairs hready hoff
  obtain ⟨g2, d2, hcol, _⟩ := collect_ok pairs g d [] hready
  refine ⟨_, _, hins, ⟨g2, d2, _, hcol, (setInsertAll_placeholders g.node_count pairs).1⟩,
    fun x hx => ?_⟩
  obtain ⟨pre, mid, post, h1, h2, h3⟩ := hdec x hx
  refine ⟨pre, mid, post, h1, h2, fun hlt => ?_, fun heq => ?_⟩
  · rw [List.getElem?_eq_getElem hlt] at h3
    cases post with
    | nil => simp at h3
    | cons a post' =>
      simp only [List.head?_cons, Option.some.injEq] at h3
      exact ⟨post', by rw [h3]⟩
  · have hnone : g.execution_order[x.offset]? = none := by
      rw [List.getElem?_eq_none_iff]; omega
    rw [hnone] at h3
    cases post with
    | nil => rfl
    | cons a post' => simp at h3

/-- Witness of the amended C4: the three pairs of the order `[A, R1, M, R2, C]`. -/
theorem InsertStreamSwitchNode_placeholder_before_original_witness :
    (∀ p ∈ pairsTwoAllReduce, pairReady graphTwoAllReduceTagged p) ∧
    ∃ g' d', InsertStreamSwitchNode graphTwoAllReduceTagged dev0 pairsTwoAllReduce
        = .ok (g', d') ∧
      (∃ g1 d1 nodes, InsertStreamSwitchNode.collect pairsTwoAllReduce graphTwoAllReduceTagged
          dev0 [] = .ok (g1, d1, nodes) ∧
        nodes.Perm (placeholders graphTwoAllReduceTagged.node_count pairsTwoAllReduce)) ∧
      ∀ x ∈ placeholders graphTwoAllReduceTagged.node_count pairsTwoAllReduce,
        ∃ pre mid post, g'.execution_order = pre ++ x.cnode :: (mid ++ post) ∧
          (∀ c ∈ mid, ∃ y ∈ placeholders graphTwoAllReduceTagged.node_count pairsTwoAllReduce,
            y.cnode = c ∧ y.offset = x.offset) ∧
          (∀ hx : x.offset < graphTwoAllReduceTagged.execution_order.length,
            ∃ post', post = graphTwoAllReduceTagged.execution_order[x.offset] :: post') ∧
          (x.offset = graphTwoAllReduceTagged.execution_order.length → post = []) :=
  ⟨by decide,
    InsertStreamSwitchNode_placeholder_before_original graphTwoAllReduceTagged dev0
      pairsTwoAllReduce (by decide) (by decide)⟩

/-- C5: on an execution order with at least two AllReduce kernels the search returns a list of
pairs and the pass returns an execution order whose length is the original length plus twice
the number of those pairs: every pair contributes its Send and its Recv node and none is dropped
by the ordered set. -/
theorem AssignGpuStream_order_length (g : KernelGraph) (d : Device)
    (h : 2 ≤ (allreduceKernels g g.execution_order).length)
    (hnn : ∀ k ∈ g.execution_order, k ≠ nullptr) :
    ∃ pairs g' d', FindAllReduceStreamSwitchPos g = .ok pairs ∧
      AssignGpuStream g d = .ok (g', d') ∧
      g'.execution_order.length = g.execution_order.length + 2 * pairs.length ∧
      g'.node_count = g.node_count + 4 * pairs.length := by
  obtain ⟨pairs, g1, d', w, hfind, _, heff, hres, hlen, _⟩ := AssignGpuStream_ok g d h hnn
  refine ⟨pairs, _, _, hfind, hres, hlen, ?_⟩
  show g1.node_count = _
  rw [heff.count, (tagged_same g d hnn).2.2.2.2]

/-- Witness of C5 on the order `[A, R1, M, R2, C]`. -/
theorem AssignGpuStream_order_length_witness :
    2 ≤ (allreduceKernels graphTwoAllReduce graphTwoAllReduce.execution_order).length ∧
    (∀ k ∈ graphTwoAllReduce.execution_order, k ≠ nullptr) ∧
    ∃ pairs g' d', FindAllReduceStreamSwitchPos graphTwoAllReduce = .ok pairs ∧
      AssignGpuStream graphTwoAllReduce dev0 = .ok (g', d') ∧
      g'.execution_order.length = graphTwoAllReduce.execution_order.length + 2 * pairs.length ∧
      g'.node_count = graphTwoAllReduce.node_count + 4 * pairs.length :=
  ⟨by decide, by decide,
    AssignGpuStream_order_length graphTwoAllReduce dev0 (by decide) (by decide)⟩

/-- C6: with event creation returning a fresh handle each time, one run of
`InsertStreamSwitchNode` creates one event per pair, and the `i`-th event is the `record_event`
of exactly one inserted Send node and the `wait_event` of exactly one inserted Recv node, namely
the Send node and the Recv node generated for the `i`-th pair; both are in the new order. -/
theorem InsertStreamSwitchNode_event_per_pair (g : KernelGraph) (d : Device)
    (pairs : List SendRecvPair)
    (hfresh : ∀ n ∈ g.execution_order, n ≤ g.node_count)
    (hready : ∀ p ∈ pairs, pairReady g p)
    (hoff : ∀ p ∈ pairs, p.send_node_offset ≤ g.execution_order.length ∧
      p.recv_node_offset ≤ g.execution_order.length) :
    ∃ g' d', InsertStreamSwitchNode g d pairs = .ok (g', d') ∧
      d'.event_count = d.event_count + pairs.length ∧
      ∀ i, i < pairs.length →
        g.node_count + 4 * i + 2 ∈ g'.execution_order ∧
        g.node_count + 4 * i + 4 ∈ g'.execution_order ∧
        ∀ n ∈ g'.execution_order, g.node_count < n →
          ((GetCNodeName g' n = .ok kSendOpName ∧
              g'.attrs n "record_event" = some (d.event_count + i + 1))
            ↔ n = g.node_count + 4 * i + 2) ∧
          ((GetCNodeName g' n = .ok kRecvOpName ∧
              g'.attrs n "wait_event" = some (d.event_count + i + 1))
            ↔ n = g.node_count + 4 * i + 4) := by
  obtain ⟨g1, d', w, heff, hins, _, hperm, _, _⟩ :=
    InsertStreamSwitchNode_result g d pairs hready hoff
  have hsr : kSendOpName ≠ kRecvOpName := by decide
  refine ⟨_, _, hins, by rw [heff.device], fun i hi => ⟨?_, ?_, ?_⟩⟩
  · refine hperm.symm.subset (List.mem_append_left _ (List.mem_map.mpr
      ⟨⟨pairs[i].send_node_offset, g.node_count + 4 * i + 2⟩, ?_, rfl⟩))
    exact (mem_placeholders pairs g.node_count _).mpr ⟨i, hi, Or.inl rfl⟩
  · refine hperm.symm.subset (List.mem_append_left _ (List.mem_map.mpr
      ⟨⟨pairs[i].recv_node_offset, g.node_count + 4 * i + 4⟩, ?_, rfl⟩))
    exact (mem_placeholders pairs g.node_count _).mpr ⟨i, hi, Or.inr rfl⟩
  · intro n hn hgt
    have hn0 : n ≠ nullptr := by
      unfold nullptr
      unfold CNodePtr at *
      omega
    have hnm : ∀ name : String,
        GetCNodeName { g1 with execution_order := w } n = .ok name ↔ g1.cnode_name n = name :=
      fun name => GetCNodeName_eq_ok_iff.trans ⟨fun hh => hh.2, fun hh => ⟨hn0, hh⟩⟩
    rw [hnm, hnm]
    show ((g1.cnode_name n = kSendOpName ∧ g1.attrs n "record_event" = _) ↔ _) ∧
      ((g1.cnode_name n = kRecvOpName ∧ g1.attrs n "wait_event" = _) ↔ _)
    have hn' : n ∈ (placeholders g.node_count pairs).map StreamSwitchNode.cnode ++
        g.execution_order := hperm.subset hn
    have hcases : ∃ j, j < pairs.length ∧
        (n = g.node_count + 4 * j + 2 ∨ n = g.node_count + 4 * j + 4) := by
      rcases List.mem_append.mp hn' with hpl | hord
      · obtain ⟨x, hx, hxn⟩ := List.mem_map.mp hpl
        obtain ⟨j, hj, hcase | hcase⟩ := (mem_placeholders pairs g.node_count x).mp hx
        · exact ⟨j, hj, Or.inl (by rw [← hxn, hcase])⟩
        · exact ⟨j, hj, Or.inr (by rw [← hxn, hcase])⟩
      · have := hfresh n hord
        unfold CNodePtr at *
        omega
    obtain ⟨j, hj, hnj | hnj⟩ := hcases
    · constructor
      · constructor
        · rintro ⟨_, hev⟩
          rw [hnj, heff.record_event j hj] at hev
          have : j = i := by
            have := Option.some.inj hev
            omega
          rw [hnj, this]
        · intro he
          rw [he]
          exact ⟨heff.name_send i hi, heff.record_event i hi⟩
      · constructor
        · rintro ⟨hname, _⟩
          rw [hnj, heff.name_send j hj] at hname
          exact absurd hname hsr
        · intro he
          unfold CNodePtr at *
          omega
    · constructor
      · constructor
        · rintro ⟨hname, _⟩
          rw [hnj, heff.name_recv j hj] at hname
          exact absurd hname.symm hsr
        · intro he
          unfold CNodePtr at *
          omega
      · constructor
        · rintro ⟨_, hev⟩
          rw [hnj, heff.wait_event j hj] at hev
          have : j = i := by
            have := Option.some.inj hev
            omega
          rw [hnj, this]
        · intro he
          rw [he]
          exact ⟨heff.name_recv i hi, heff.wait_event i hi⟩

/-- Witness of C6: the three pairs of the order `[A, R1, M, R2, C]`, on the tagged graph. -/
theorem InsertStreamSwitchNode_event_per_pair_witness :
    (∀ n ∈ graphTwoAllReduceTagged.execution_order, n ≤ graphTwoAllReduceTagged.node_count) ∧
    (∀ p ∈ pairsTwoAllReduce, pairReady graphTwoAllReduceTagged p) ∧
    ∃ g' d', InsertStreamSwitchNode graphTwoAllReduceTagged dev0 pairsTwoAllReduce
        = .ok (g', d') ∧
      d'.event_count = dev0.event_count + pairsTwoAllReduce.length ∧
      ∀ i, i < pairsTwoAllReduce.length →
        graphTwoAllReduceTagged.node_count + 4 * i + 2 ∈ g'.execution_order ∧
        graphTwoAllReduceTagged.node_count + 4 * i + 4 ∈ g'.execution_order ∧
        ∀ n ∈ g'.execution_order, graphTwoAllReduceTagged.node_count < n →
          ((GetCNodeName g' n = .ok kSendOpName ∧
              g'.attrs n "record_event" = some (dev0.event_count + i + 1))
            ↔ n = graphTwoAllReduceTagged.node_count + 4 * i + 2) ∧
          ((GetCNodeName g' n = .ok kRecvOpName ∧
              g'.attrs n "wait_event" = some (dev0.event_count + i + 1))
            ↔ n = graphTwoAllReduceTagged.node_count + 4 * i + 4) :=
  ⟨by decide, by decide,
    InsertStreamSwitchNode_event_per_pair graphTwoAllReduceTagged dev0 pairsTwoAllReduce
      (by decide) (by decide) (by decide)⟩

/-- C7, counterexample: in `[A, R1, R2]`, where `R2` consumes `R1`, the third pair is the
producer → collective pair of `R2`; its Send node (node 13) records on the communication stream
`8`, not on the default stream `7`, because the producer `R1` is itself an AllReduce kernel.
Likewise the Recv node (node 11) of the collective → consumer pair of `R1` waits on the
communication stream. -/
theorem AssignGpuStream_adjacent_allreduce_streams :
    FindAllReduceStreamSwitchPos graphAdjacentAllReduce
        = .ok [⟨.kAllReduceStreamSwitch, 1, 2, 1, 1⟩, ⟨.kAllReduceStreamSwitch, 2, 3, 2, 2⟩,
            ⟨.kAllReduceStreamSwitch, 2, 3, 2, 2⟩] ∧
      (AssignGpuStream graphAdjacentAllReduce dev0).map
          (fun r => (r.1.cnode_name 13, r.1.attrs 13 "record_event_stream",
            r.1.cnode_name 11, r.1.attrs 11 "wait_event_stream"))
        = .ok ("Send", some 8, "Recv", some 8) ∧
      (CreateStream dev0).1 = 8 ∧ dev0.default_stream = 7 :=
  ⟨rfl, rfl, rfl, rfl⟩

/-- C7, amended: on an execution order with at least two AllReduce kernels every pair of the
search is the send-side (producer → collective) pair or the recv-side (collective → consumer)
pair of an AllReduce kernel of the order.  In a send-side pair the Recv node waits on the
communication stream and the Send node records on the stream of the mock send node: the default
compute stream, unless that node is itself an AllReduce kernel, then the communication stream.
In a recv-side pair the Send node records on the communication stream and the Recv node waits on
the stream of the mock recv node: the default compute stream, unless that node is itself an
AllReduce kernel, then the communication stream. -/
theorem AssignGpuStream_placeholder_streams (g : KernelGraph) (d : Device)
    (h : 2 ≤ (allreduceKernels g g.execution_order).length)
    (hnn : ∀ k ∈ g.execution_order, k ≠ nullptr) :
    ∃ pairs g' d', FindAllReduceStreamSwitchPos g = .ok pairs ∧
      AssignGpuStream g d = .ok (g', d') ∧
      ∀ (i : Nat) (hi : i < pairs.length),
        GetCNodeName g' (g.node_count + 4 * i + 2) = .ok kSendOpName ∧
        GetCNodeName g' (g.node_count + 4 * i + 4) = .ok kRecvOpName ∧
        pairFound g g.execution_order pairs[i] ∧
        (∀ iter K, g.execution_order[iter]? = some K →
          GetCNodeName g K = .ok kAllReduceOpName →
          sendSidePair g.execution_order iter K pairs[i] →
            g'.attrs (g.node_count + 4 * i + 4) "wait_event_stream" = some (CreateStream d).1 ∧
            g'.attrs (g.node_count + 4 * i + 2) "record_event_stream"
              = some (if GetCNodeName g pairs[i].mock_send_node = .ok kAllReduceOpName
                  then (CreateStream d).1 else d.default_stream)) ∧
        (∀ iter K, g.execution_order[iter]? = some K →
          GetCNodeName g K = .ok kAllReduceOpName →
          recvSidePair g g.execution_order iter K pairs[i] →
            g'.attrs (g.node_count + 4 * i + 2) "record_event_stream"
              = some (CreateStream d).1 ∧
            g'.attrs (g.node_count + 4 * i + 4) "wait_event_stream"
              = some (if GetCNodeName g pairs[i].mock_recv_node = .ok kAllReduceOpName
                  then (CreateStream d).1 else d.default_stream)) := by
  obtain ⟨pairs, g1, d', w, hfind, hwithin, heff, hres, _⟩ := AssignGpuStream_ok g d h hnn
  have hlen : g.execution_order.length ≠ 1 := by
    have := allreduceKernels_length_le g g.execution_order
    omega
  obtain ⟨pairs', hfind', hfound⟩ := FindAllReduceStreamSwitchPos_found g hnn hlen
  have hpe : pairs' = pairs := by
    rw [hfind] at hfind'; exact (Except.ok.inj hfind').symm
  rw [hpe] at hfound
  have hcount : (AssignGpuStream.tagged g d).node_count = g.node_count :=
    (tagged_same g d hnn).2.2.2.2
  refine ⟨pairs, _, _, hfind, hres, fun i hi => ?_⟩
  have hmem : pairs[i] ∈ pairs := List.getElem_mem hi
  obtain ⟨_, hs, hr, _, _⟩ := hwithin _ hmem
  have hrec : g1.attrs (g.node_count + 4 * i + 2) "record_event_stream"
      = some (if GetCNodeName g pairs[i].mock_send_node = .ok kAllReduceOpName
          then (CreateStream d).1 else d.default_stream) := by
    have := heff.record_event_stream i hi
    rw [hcount, tagged_stream_id g d hnn _ hs] at this
    exact this
  have hwait : g1.attrs (g.node_count + 4 * i + 4) "wait_event_stream"
      = some (if GetCNodeName g pairs[i].mock_recv_node = .ok kAllReduceOpName
          then (CreateStream d).1 else d.default_stream) := by
    have := heff.wait_event_stream i hi
    rw [hcount, tagged_stream_id g d hnn _ hr] at this
    exact this
  have hne : ∀ k : Nat, g.node_count + 4 * i + k + 1 ≠ nullptr := by
    intro k
    unfold nullptr
    omega
  refine ⟨?_, ?_, hfound _ hmem, ?_, ?_⟩
  · refine GetCNodeName_eq_ok_iff.mpr ⟨hne 1, ?_⟩
    have := heff.name_send i hi
    rw [hcount] at this
    exact this
  · refine GetCNodeName_eq_ok_iff.mpr ⟨hne 3, ?_⟩
    have := heff.name_recv i hi
    rw [hcount] at this
    exact this
  · intro iter K _ hname hside
    refine ⟨?_, hrec⟩
    show g1.attrs (g.node_count + 4 * i + 4) "wait_event_stream" = _
    rw [hwait, hside.2.1, if_pos hname]
  · intro iter K _ hname hside
    refine ⟨?_, hwait⟩
    show g1.attrs (g.node_count + 4 * i + 2) "record_event_stream" = _
    rw [hrec, hside.2.1, if_pos hname]

/-- Witness of the amended C7 on the order `[A, R1, R2]`. -/
theorem AssignGpuStream_placeholder_streams_witness :
    2 ≤ (allreduceKernels graphAdjacentAllReduce graphAdjacentAllReduce.execution_order).length ∧
    (∀ k ∈ graphAdjacentAllReduce.execution_order, k ≠ nullptr) ∧
    ∃ pairs g' d', FindAllReduceStreamSwitchPos graphAdjacentAllReduce = .ok pairs ∧
      AssignGpuStream graphAdjacentAllReduce dev0 = .ok (g', d') ∧
      ∀ (i : Nat) (hi : i < pairs.length),
        GetCNodeName g' (graphAdjacentAllReduce.node_count + 4 * i + 2) = .ok kSendOpName ∧
        GetCNodeName g' (graphAdjacentAllReduce.node_count + 4 * i + 4) = .ok kRecvOpName ∧
        pairFound graphAdjacentAllReduce graphAdjacentAllReduce.execution_order pairs[i] ∧
        (∀ iter K, graphAdjacentAllReduce.execution_order[iter]? = some K →
          GetCNodeName graphAdjacentAllReduce K = .ok kAllReduceOpName →
          sendSidePair graphAdjacentAllReduce.execution_order iter K pairs[i] →
            g'.attrs (graphAdjacentAllReduce.node_count + 4 * i + 4) "wait_event_stream"
              = some (CreateStream dev0).1 ∧
            g'.attrs (graphAdjacentAllReduce.node_count + 4 * i + 2) "record_event_stream"
              = some (if GetCNodeName graphAdjacentAllReduce pairs[i].mock_send_node
                    = .ok kAllReduceOpName
                  then (CreateStream dev0).1 else dev0.default_stream)) ∧
        (∀ iter K, graphAdjacentAllReduce.execution_order[iter]? = some K →
          GetCNodeName graphAdjacentAllReduce K = .ok kAllReduceOpName →
          recvSidePair graphAdjacentAllReduce graphAdjacentAllReduce.execution_order iter K
              pairs[i] →
            g'.attrs (graphAdjacentAllReduce.node_count + 4 * i + 2) "record_event_stream"
              = some (CreateStream dev0).1 ∧
            g'.attrs (graphAdjacentAllReduce.node_count + 4 * i + 4) "wait_event_stream"
              = some (if GetCNodeName graphAdjacentAllReduce pairs[i].mock_recv_node
                    = .ok kAllReduceOpName
                  then (CreateStream dev0).1 else dev0.default_stream)) :=
  ⟨by decide, by decide,
    AssignGpuStream_placeholder_streams graphAdjacentAllReduce dev0 (by decide) (by decide)⟩

/-- C8, the code at the failing input `[A, B, K]`: the AllReduce kernel `K` has the single
input `A`, the comment at the call says `Find AllReduce node's last input node`, and the search
produces one pair, the send-side pair of `K`, whose mock send node is `B`, to which no input of
`K` resolves; the position of `A`, the producer, is not what `FindSendNodePos` returns. -/
theorem FindAllReduceStreamSwitchPos_mock_send_not_producer :
    graphUnrelatedPredecessor.inputs 3 = [1] ∧
      FindSendNodePos [1, 2, 3] 0 (2 + 1) 3 .kAllReduceStreamSwitch = .ok 1 ∧
      FindAllReduceStreamSwitchPos graphUnrelatedPredecessor
        = .ok [⟨.kAllReduceStreamSwitch, 2, 3, 2, 2⟩] ∧
      ¬ ∀ p ∈ [(⟨.kAllReduceStreamSwitch, 2, 3, 2, 2⟩ : SendRecvPair)],
          ∃ input ∈ graphUnrelatedPredecessor.inputs p.mock_recv_node,
            VisitKernel graphUnrelatedPredecessor input = p.mock_send_node :=
  ⟨rfl, rfl, rfl, by decide⟩

/-- C9: for a range `[first, last)` of the order whose entries are not null and a non-null
kernel `K`, `FindRecvNodePos` with `kAllReduceStreamSwitch` returns a position `r` of the range
or `last`; no node of the range before `r` has an input that resolves through `VisitKernel` to
`K`; when `r` is below `last` the node at `r` has such an input; and `r` is `last` exactly when
no node of the range has such an input. -/
theorem FindRecvNodePos_first_consumer (g : KernelGraph) (v : List CNodePtr) (first last : Nat)
    (K : CNodePtr) (hK : K ≠ nullptr) (hfl : first ≤ last) (hlast : last ≤ v.length)
    (hnn : ∀ j, first ≤ j → j < last → v[j]? ≠ some nullptr) :
    ∃ r, FindRecvNodePos g v first last K .kAllReduceStreamSwitch = .ok r ∧
      first ≤ r ∧ r ≤ last ∧
      (∀ j, first ≤ j → j < r → ∀ node, v[j]? = some node →
        ∀ input ∈ g.inputs node, VisitKernel g input ≠ K) ∧
      (r < last → ∃ node, v[r]? = some node ∧ ∃ input ∈ g.inputs node, VisitKernel g input = K) ∧
      (r = last ↔ ∀ j, first ≤ j → j < last → ∀ node, v[j]? = some node →
        ∀ input ∈ g.inputs node, VisitKernel g input ≠ K) := by
  have hrange : first + (last - first) = last := by omega
  obtain ⟨r, hr, hprop⟩ :=
    FindRecvNodePos_loop_spec g v K last (last - first) first (by omega)
      (fun t h1 h2 => hnn t h1 (by omega))
  rw [hrange] at hprop
  refine ⟨r, by rw [FindRecvNodePos_eq_loop g v first last K _ hK]; exact hr, ?_⟩
  rcases hprop with ⟨h1, h2⟩ | ⟨h1, h2, ⟨node, hnode, hc⟩, h4⟩
  · subst h1
    refine ⟨hfl, le_refl _,
      fun j hj1 hj2 node hn => (consumes_eq_ok_false_iff.mp (h2 j hj1 hj2 node hn)).2,
      fun hlt => absurd hlt (lt_irrefl _),
      ⟨fun _ j hj1 hj2 node hn => (consumes_eq_ok_false_iff.mp (h2 j hj1 hj2 node hn)).2,
        fun _ => rfl⟩⟩
  · refine ⟨h1, le_of_lt h2,
      fun j hj1 hj2 nd hn => (consumes_eq_ok_false_iff.mp (h4 j hj1 hj2 nd hn)).2,
      fun _ => ⟨node, hnode, (consumes_eq_ok_true_iff.mp hc).2⟩,
      ⟨fun he => absurd he (ne_of_lt h2), fun hall => ?_⟩⟩
    obtain ⟨input, hin, he⟩ := (consumes_eq_ok_true_iff.mp hc).2
    exact absurd he (hall r h1 h2 node hnode input hin)

/-- Witness of C9: in `[A, R1, M, R2, C]` the first consumer of `R2` at or after position 3 is
`C`, at position 4. -/
theorem FindRecvNodePos_first_consumer_witness :
    (4 : CNodePtr) ≠ nullptr ∧ 3 ≤ 5 ∧ 5 ≤ ([1, 2, 3, 4, 5] : List CNodePtr).length ∧
    (∀ j, 3 ≤ j → j < 5 → ([1, 2, 3, 4, 5] : List CNodePtr)[j]? ≠ some nullptr) ∧
    ∃ r, FindRecvNodePos graphTwoAllReduce [1, 2, 3, 4, 5] 3 5 4 .kAllReduceStreamSwitch = .ok r ∧
      3 ≤ r ∧ r ≤ 5 ∧
      (∀ j, 3 ≤ j → j < r → ∀ node, [1, 2, 3, 4, 5][j]? = some node →
        ∀ input ∈ graphTwoAllReduce.inputs node, VisitKernel graphTwoAllReduce input ≠ 4) ∧
      (r < 5 → ∃ node, [1, 2, 3, 4, 5][r]? = some node ∧
        ∃ input ∈ graphTwoAllReduce.inputs node, VisitKernel graphTwoAllReduce input = 4) ∧
      (r = 5 ↔ ∀ j, 3 ≤ j → j < 5 → ∀ node, [1, 2, 3, 4, 5][j]? = some node →
        ∀ input ∈ graphTwoAllReduce.inputs node, VisitKernel graphTwoAllReduce input ≠ 4) :=
  ⟨by decide, by decide, by decide, by decide,
    FindRecvNodePos_first_consumer graphTwoAllReduce [1, 2, 3, 4, 5] 3 5 4
      (by decide) (by decide) (by decide) (by decide)⟩

/-- C10, the code at the failing input `[R1, C, R2]`: for `R1` the send search returns its end
position, and although the recv search from `R1` does find the consumer `C` at position 1, the
only pair of the whole search is the send-side pair of `R2`; the pass inserts nothing between
`R1` and `C`. -/
theorem FindAllReduceStreamSwitchPos_leading_allreduce :
    FindSendNodePos [1, 2, 3] 0 1 1 .kAllReduceStreamSwitch = .ok 1 ∧
      FindRecvNodePos graphLeadingAllReduce [1, 2, 3] 0 3 1 .kAllReduceStreamSwitch = .ok 1 ∧
      FindAllReduceStreamSwitchPos graphLeadingAllReduce
        = .ok [⟨.kAllReduceStreamSwitch, 2, 3, 2, 2⟩] ∧
      (AssignGpuStream graphLeadingAllReduce dev0).map (fun r => r.1.execution_order)
        = .ok [1, 2, 5, 7, 3] :=
  ⟨rfl, rfl, rfl, rfl⟩

/-- C12, counterexample: for the order `[A, R1, M, R2, C]` the search returns three pairs (the
send-side pair of `R1`, the send-side pair and the recv-side pair of `R2`), the pass allocates
six placeholder nodes with their value nodes, and it ends with an execution order of length 11,
not 9. -/
theorem AssignGpuStream_two_allreduce_length_eleven :
    FindAllReduceStreamSwitchPos graphTwoAllReduce = .ok pairsTwoAllReduce ∧
      pairsTwoAllReduce.length = 3 ∧
      (AssignGpuStream graphTwoAllReduce dev0).map
          (fun r => (r.1.execution_order.length, r.1.node_count - graphTwoAllReduce.node_count))
        = .ok (11, 12) ∧
      (11 : Nat) ≠ 9 :=
  ⟨rfl, rfl, rfl, by decide⟩

/-- C12, amended: for every order `[A, R1, M, R2, C]` of distinct non-null kernels in which
exactly `R1` and `R2` are AllReduce kernels, `R1` consumes `A`, `R2` consumes `M`, `C` consumes
`R2` and there is no other dependency, the search returns three pairs (the send-side pair of
`R1`, the send-side pair and the recv-side pair of `R2`), and the pass tags `R1` and `R2` with
the new communication stream and inserts six placeholder nodes, three Send and three Recv nodes:
the final order has length 11.  The two placeholders of the first pair stand between `A` and
`R1`, those of the second between `M` and `R2`, those of the third between `R2` and `C`; which
of the two placeholders of a pair comes first is left open. -/
theorem AssignGpuStream_scenario (g : KernelGraph) (d : Device) (a r1 m r2 c : CNodePtr)
    (horder : g.execution_order = [a, r1, m, r2, c])
    (hnd : [a, r1, m, r2, c].Nodup) (hnn : ∀ k ∈ [a, r1, m, r2, c], k ≠ nullptr)
    (hr1 : GetCNodeName g r1 = .ok kAllReduceOpName)
    (hr2 : GetCNodeName g r2 = .ok kAllReduceOpName)
    (ha : GetCNodeName g a ≠ .ok kAllReduceOpName)
    (hm : GetCNodeName g m ≠ .ok kAllReduceOpName)
    (hc : GetCNodeName g c ≠ .ok kAllReduceOpName)
    (hdeps : ∀ x ∈ [a, r1, m, r2, c], ∀ y ∈ [a, r1, m, r2, c],
      (consumes g x y = .ok true ↔ (x = r1 ∧ y = a) ∨ (x = r2 ∧ y = m) ∨ (x = c ∧ y = r2))) :
    FindAllReduceStreamSwitchPos g
        = .ok [⟨.kAllReduceStreamSwitch, a, r1, 1, 1⟩, ⟨.kAllReduceStreamSwitch, m, r2, 3, 3⟩,
            ⟨.kAllReduceStreamSwitch, r2, c, 4, 4⟩] ∧
    ∃ g' d', AssignGpuStream g d = .ok (g', d') ∧
      g'.attrs r1 "stream_id" = some (CreateStream d).1 ∧
      g'.attrs r2 "stream_id" = some (CreateStream d).1 ∧
      g'.execution_order.length = 11 ∧
      (∃ x1 x2 x3 : List CNodePtr,
        g'.execution_order = a :: (x1 ++ r1 :: m :: (x2 ++ r2 :: (x3 ++ [c]))) ∧
        x1.Perm [g.node_count + 2, g.node_count + 4] ∧
        x2.Perm [g.node_count + 6, g.node_count + 8] ∧
        x3.Perm [g.node_count + 10, g.node_count + 12]) ∧
      (∀ i, i < 3 → GetCNodeName g' (g.node_count + 4 * i + 2) = .ok kSendOpName ∧
        GetCNodeName g' (g.node_count + 4 * i + 4) = .ok kRecvOpName) := by
  have hname : ∀ k ∈ [a, r1, m, r2, c], GetCNodeName g k ≠ .ok kAllReduceOpName →
      GetCNodeName g k = .ok (g.cnode_name k) ∧ g.cnode_name k ≠ kAllReduceOpName := by
    intro k hk hne
    have hget := GetCNodeName_of_ne_nullptr g (hnn k hk)
    exact ⟨hget, fun h => hne (by rw [hget, h])⟩
  obtain ⟨ha1, ha2⟩ := hname a (by simp) ha
  obtain ⟨hm1, hm2⟩ := hname m (by simp) hm
  obtain ⟨hc1, hc2⟩ := hname c (by simp) hc
  have hpairs := scenario_pairs g a r1 m r2 c _ _ _ horder hnd hr1 hr2 ha1 hm1 hc1 ha2 hm2 hc2
    hdeps
  refine ⟨hpairs, ?_⟩
  have h2 : 2 ≤ (allreduceKernels g g.execution_order).length := by
    simp [allreduceKernels, horder, List.filter_cons, hr1, hr2, ha, hm, hc]
  have hnn' : ∀ k ∈ g.execution_order, k ≠ nullptr := by rw [horder]; exact hnn
  obtain ⟨pairs, g1, d', hfind, heff, hres⟩ := AssignGpuStream_eq_read g d h2 hnn'
  have hpe : pairs = [⟨.kAllReduceStreamSwitch, a, r1, 1, 1⟩,
      ⟨.kAllReduceStreamSwitch, m, r2, 3, 3⟩, ⟨.kAllReduceStreamSwitch, r2, c, 4, 4⟩] := by
    rw [hpairs] at hfind; exact (Except.ok.inj hfind).symm
  subst hpe
  rw [horder, scenario_order] at hres
  have hcount : (AssignGpuStream.tagged g d).node_count = g.node_count :=
    (tagged_same g d hnn').2.2.2.2
  refine ⟨_, _, hres, ?_, ?_, rfl,
    ⟨[g.node_count + 2, g.node_count + 4], [g.node_count + 6, g.node_count + 8],
      [g.node_count + 10, g.node_count + 12], rfl, List.Perm.refl _, List.Perm.refl _,
      List.Perm.refl _⟩, ?_⟩
  · show g1.attrs r1 "stream_id" = _
    rw [heff.stream_id, tagged_stream_id g d hnn' r1 (by rw [horder]; simp), if_pos hr1]
  · show g1.attrs r2 "stream_id" = _
    rw [heff.stream_id, tagged_stream_id g d hnn' r2 (by rw [horder]; simp), if_pos hr2]
  · intro i hi
    have hs := heff.name_send i (by simpa using hi)
    have hr := heff.name_recv i (by simpa using hi)
    rw [hcount] at hs hr
    have hne : ∀ k : Nat, g.node_count + 4 * i + k + 1 ≠ nullptr := by
      intro k
      unfold nullptr
      omega
    exact ⟨GetCNodeName_eq_ok_iff.mpr ⟨hne 1, hs⟩, GetCNodeName_eq_ok_iff.mpr ⟨hne 3, hr⟩⟩

/-- Witness of the amended C12: the graph `graphTwoAllReduce`. -/
theorem AssignGpuStream_scenario_witness :
    ([1, 2, 3, 4, 5] : List CNodePtr).Nodup ∧
    (∀ x ∈ ([1, 2, 3, 4, 5] : List CNodePtr), ∀ y ∈ ([1, 2, 3, 4, 5] : List CNodePtr),
      (consumes graphTwoAllReduce x y = .ok true ↔
        (x = 2 ∧ y = 1) ∨ (x = 4 ∧ y = 3) ∨ (x = 5 ∧ y = 4))) ∧
    FindAllReduceStreamSwitchPos graphTwoAllReduce
        = .ok [⟨.kAllReduceStreamSwitch, 1, 2, 1, 1⟩, ⟨.kAllReduceStreamSwitch, 3, 4, 3, 3⟩,
            ⟨.kAllReduceStreamSwitch, 4, 5, 4, 4⟩] ∧
    ∃ g' d', AssignGpuStream graphTwoAllReduce dev0 = .ok (g', d') ∧
      g'.attrs 2 "stream_id" = some (CreateStream dev0).1 ∧
      g'.attrs 4 "stream_id" = some (CreateStream dev0).1 ∧
      g'.execution_order.length = 11 ∧
      (∃ x1 x2 x3 : List CNodePtr,
        g'.execution_order = 1 :: (x1 ++ 2 :: 3 :: (x2 ++ 4 :: (x3 ++ [5]))) ∧
        x1.Perm [graphTwoAllReduce.node_count + 2, graphTwoAllReduce.node_count + 4] ∧
        x2.Perm [graphTwoAllReduce.node_count + 6, graphTwoAllReduce.node_count + 8] ∧
        x3.Perm [graphTwoAllReduce.node_count + 10, graphTwoAllReduce.node_count + 12]) ∧
      (∀ i, i < 3 →
        GetCNodeName g' (graphTwoAllReduce.node_count + 4 * i + 2) = .ok kSendOpName ∧
        GetCNodeName g' (graphTwoAllReduce.node_count + 4 * i + 4) = .ok kRecvOpName) :=
  ⟨by decide, by decide,
    AssignGpuStream_scenario graphTwoAllReduce dev0 1 2 3 4 5 rfl (by decide) (by decide)
      (by decide) (by decide) (by decide) (by decide) (by decide) (by decide)⟩

/-- C13, the code at the failing input `[A, B, C]` with the single AllReduce kernel `B`
(node 2): the pass returns, `A` and `C` carry the default stream `7` as their `stream_id`, and
`B` carries no `stream_id` attribute at all; the loop that tags the other kernels only collects
`B`, and the tagging of the collected kernels is skipped with the stream creation. -/
theorem AssignGpuStream_single_allreduce_no_stream :
    (allreduceKernels graphOneAllReduce graphOneAllReduce.execution_order).length = 1 ∧
      GetCNodeName graphOneAllReduce 2 = .ok kAllReduceOpName ∧
      dev0.default_stream = 7 ∧
      (AssignGpuStream graphOneAllReduce dev0).map
          (fun r => (r.1.attrs 1 "stream_id", r.1.attrs 2 "stream_id", r.1.attrs 3 "stream_id"))
        = .ok (some 7, none, some 7) :=
  ⟨by decide, by decide, rfl, rfl⟩

/-- C14: every pair that `FindAllReduceStreamSwitchPos` produces has its send offset and its
recv offset at most the length of the execution order, so that inserting placeholders at offsets
taken from the pairs, in any sequence, never leaves the vector: step 3 of
`InsertStreamSwitchNode` returns an order. -/
theorem FindAllReduceStreamSwitchPos_offsets_within (g : KernelGraph)
    (pairs : List SendRecvPair) (h : FindAllReduceStreamSwitchPos g = .ok pairs) :
    (∀ p ∈ pairs, p.send_node_offset ≤ g.execution_order.length ∧
      p.recv_node_offset ≤ g.execution_order.length) ∧
    ∀ nodes : List StreamSwitchNode,
      (∀ x ∈ nodes, ∃ p ∈ pairs, x.offset = p.send_node_offset ∨ x.offset = p.recv_node_offset) →
      ∃ w, InsertStreamSwitchNode.splice nodes g.execution_order = .ok w := by
  have hin : ∀ p ∈ pairs, p.send_node_offset ≤ g.execution_order.length ∧
      p.recv_node_offset ≤ g.execution_order.length := by
    intro p hp
    obtain ⟨_, _, _, h4, h5⟩ :=
      pairFound_within (FindAllReduceStreamSwitchPos_found_of_ok g pairs h p hp)
    exact ⟨h4, h5⟩
  refine ⟨hin, fun nodes hnodes => ?_⟩
  obtain ⟨w, hw, _⟩ := splice_ok nodes.reverse g.execution_order (fun x hx => by
    obtain ⟨p, hp, hcase | hcase⟩ := hnodes x (List.mem_reverse.mp hx)
    · rw [hcase]; exact (hin p hp).1
    · rw [hcase]; exact (hin p hp).2)
  exact ⟨w, hw⟩

/-- Witness of C14 on the order `[A, R1, M, R2, C]`, whose search returns three pairs. -/
theorem FindAllReduceStreamSwitchPos_offsets_within_witness :
    FindAllReduceStreamSwitchPos graphTwoAllReduce = .ok pairsTwoAllReduce ∧
    (∀ p ∈ pairsTwoAllReduce, p.send_node_offset ≤ graphTwoAllReduce.execution_order.length ∧
      p.recv_node_offset ≤ graphTwoAllReduce.execution_order.length) ∧
    ∀ nodes : List StreamSwitchNode,
      (∀ x ∈ nodes, ∃ p ∈ pairsTwoAllReduce,
        x.offset = p.send_node_offset ∨ x.offset = p.recv_node_offset) →
      ∃ w, InsertStreamSwitchNode.splice nodes graphTwoAllReduce.execution_order = .ok w :=
  ⟨rfl, FindAllReduceStreamSwitchPos_offsets_within graphTwoAllReduce pairsTwoAllReduce rfl⟩

/-- C15: for a set of placeholders, given as the list of its elements in ascending order of
offset, whose offsets are at most the length of the order, the insertion loop of
`InsertStreamSwitchNode`, which walks the set from its last element to its first, returns
exactly the order obtained by reading every offset against the original order; and
`InsertStreamSwitchNode` as a whole, on pairs whose offsets are at most the length of the order,
writes back the order obtained by reading the offsets of the set it has collected against the
order it started from. -/
theorem InsertStreamSwitchNode_splice_reads_original (nodes : List StreamSwitchNode)
    (v : List CNodePtr) (g : KernelGraph) (d : Device) (pairs : List SendRecvPair)
    (hsorted : nodes.Pairwise (fun a b => a.offset ≤ b.offset))
    (hoff : ∀ x ∈ nodes, x.offset ≤ v.length)
    (hready : ∀ p ∈ pairs, pairReady g p)
    (hpairs : ∀ p ∈ pairs, p.send_node_offset ≤ g.execution_order.length ∧
      p.recv_node_offset ≤ g.execution_order.length) :
    InsertStreamSwitchNode.splice nodes v = .ok (readAgainstOriginal nodes 0 v) ∧
    ∃ g1 d1 ordered_stream_switch_nodes,
      InsertStreamSwitchNode.collect pairs g d [] = .ok (g1, d1, ordered_stream_switch_nodes) ∧
      InsertStreamSwitchNode g d pairs
        = .ok ({ g1 with execution_order :=
            (readAgainstOriginal ordered_stream_switch_nodes 0 g.execution_order) }, d1) := by
  constructor
  · have h := splice_eq_readAgainstOriginal nodes.reverse v
      (fun x hx => hoff x (List.mem_reverse.mp hx))
      (by rw [List.pairwise_reverse]; exact hsorted)
    rw [List.reverse_reverse] at h
    exact h
  · obtain ⟨g1, d1, hcol, _⟩ := collect_ok pairs g d [] hready
    obtain ⟨g2, d2, _, hins⟩ := InsertStreamSwitchNode_eq_read g d pairs hready hpairs
    have hins' := hins
    unfold InsertStreamSwitchNode at hins'
    rw [hcol] at hins'
    simp only [] at hins'
    cases hsp : InsertStreamSwitchNode.splice (setInsertAll (placeholders g.node_count pairs) [])
        g1.execution_order with
    | error e => rw [hsp] at hins'; cases hins'
    | ok w =>
      rw [hsp] at hins'
      have hpair := Except.ok.inj hins'
      have hd : d1 = d2 := congrArg Prod.snd hpair
      have hg : ({ g1 with execution_order := w } : KernelGraph)
          = { g2 with execution_order :=
              (readAgainstOriginal (setInsertAll (placeholders g.node_count pairs) []) 0
                g.execution_order) } := congrArg Prod.fst hpair
      have hw : w = readAgainstOriginal (setInsertAll (placeholders g.node_count pairs) []) 0
          g.execution_order := congrArg KernelGraph.execution_order hg
      refine ⟨g1, d1, _, hcol, ?_⟩
      unfold InsertStreamSwitchNode
      rw [hcol]
      simp only []
      rw [hsp, hw]

/-- Witness of C15: the six placeholders of the order `[A, R1, M, R2, C]`, and the three pairs
of that order on the tagged graph. -/
theorem InsertStreamSwitchNode_splice_reads_original_witness :
    ([⟨1, 7⟩, ⟨1, 9⟩, ⟨3, 11⟩, ⟨3, 13⟩, ⟨4, 15⟩, ⟨4, 17⟩] : List StreamSwitchNode).Pairwise
        (fun a b => a.offset ≤ b.offset) ∧
    (∀ p ∈ pairsTwoAllReduce, pairReady graphTwoAllReduceTagged p) ∧
    readAgainstOriginal [⟨1, 7⟩, ⟨1, 9⟩, ⟨3, 11⟩, ⟨3, 13⟩, ⟨4, 15⟩, ⟨4, 17⟩] 0 [1, 2, 3, 4, 5]
      = [1, 7, 9, 2, 3, 11, 13, 4, 15, 17, 5] ∧
    (InsertStreamSwitchNode.splice [⟨1, 7⟩, ⟨1, 9⟩, ⟨3, 11⟩, ⟨3, 13⟩, ⟨4, 15⟩, ⟨4, 17⟩]
        [1, 2, 3, 4, 5]
      = .ok (readAgainstOriginal [⟨1, 7⟩, ⟨1, 9⟩, ⟨3, 11⟩, ⟨3, 13⟩, ⟨4, 15⟩, ⟨4, 17⟩] 0
          [1, 2, 3, 4, 5]) ∧
    ∃ g1 d1 ordered_stream_switch_nodes,
      InsertStreamSwitchNode.collect pairsTwoAllReduce graphTwoAllReduceTagged dev0 []
        = .ok (g1, d1, ordered_stream_switch_nodes) ∧
      InsertStreamSwitchNode graphTwoAllReduceTagged dev0 pairsTwoAllReduce
        = .ok ({ g1 with execution_order :=
            (readAgainstOriginal ordered_stream_switch_nodes 0
              graphTwoAllReduceTagged.execution_order) }, d1)) :=
  ⟨by decide, by decide, by decide,
    InsertStreamSwitchNode_splice_reads_original _ _ graphTwoAllReduceTagged dev0
      pairsTwoAllReduce (by decide) (by decide) (by decide) (by decide)⟩

/-- C16: in a duplicate-free execution order, every pair that `FindAllReduceStreamSwitchPos`
produces has its send offset equal to the index of its mock send node plus one and its recv
offset equal to the index of its mock recv node. -/
theorem FindAllReduceStreamSwitchPos_offsets_of_mock_nodes (g : KernelGraph)
    (pairs : List SendRecvPair) (hnd : g.execution_order.Nodup)
    (h : FindAllReduceStreamSwitchPos g = .ok pairs) :
    ∀ p ∈ pairs,
      p.send_node_offset = g.execution_order.indexOf p.mock_send_node + 1 ∧
      p.recv_node_offset = g.execution_order.indexOf p.mock_recv_node := by
  intro p hp
  obtain ⟨iter, K, hx, _, hs | hr⟩ := FindAllReduceStreamSwitchPos_found_of_ok g pairs h p hp
  · obtain ⟨_, h2, h3, s, _, hs2, _, _, hs5⟩ := hs
    rw [indexOf_of_getElem? hnd hs2, h2, indexOf_of_getElem? hnd hx]
    exact ⟨hs5, h3⟩
  · obtain ⟨_, h2, h3, r, _, _, hr3, _, _, hr6⟩ := hr
    rw [indexOf_of_getElem? hnd hr3, h2, indexOf_of_getElem? hnd hx]
    exact ⟨h3, hr6⟩

/-- Witness of C16 on the order `[A, R1, M, R2, C]`. -/
theorem FindAllReduceStreamSwitchPos_offsets_of_mock_nodes_witness :
    graphTwoAllReduce.execution_order.Nodup ∧
    FindAllReduceStreamSwitchPos graphTwoAllReduce = .ok pairsTwoAllReduce ∧
    ∀ p ∈ pairsTwoAllReduce,
      p.send_node_offset = graphTwoAllReduce.execution_order.indexOf p.mock_send_node + 1 ∧
      p.recv_node_offset = graphTwoAllReduce.execution_order.indexOf p.mock_recv_node :=
  ⟨by decide, rfl,
    FindAllReduceStreamSwitchPos_offsets_of_mock_nodes graphTwoAllReduce pairsTwoAllReduce
      (by decide) rfl⟩

/-- C17: in an execution order without duplicates in which no AllReduce kernel has itself as a
resolved input, every pair that `FindAllReduceStreamSwitchPos` produces has its send offset at
most its recv offset. -/
theorem FindAllReduceStreamSwitchPos_send_before_recv (g : KernelGraph)
    (pairs : List SendRecvPair)
    (hnd : g.execution_order.Nodup)
    (hself : ∀ K ∈ g.execution_order, GetCNodeName g K = .ok kAllReduceOpName →
      ∀ input ∈ g.inputs K, VisitKernel g input ≠ K)
    (h : FindAllReduceStreamSwitchPos g = .ok pairs) :
    ∀ p ∈ pairs, p.send_node_offset ≤ p.recv_node_offset := by
  intro p hp
  obtain ⟨iter, K, hx, hname, hs | hr⟩ := FindAllReduceStreamSwitchPos_found_of_ok g pairs h p hp
  · by_cases hpos : 1 ≤ iter
    · exact sendSidePair_offset_le hx hs hpos
    · have h0 : iter = 0 := by omega
      subst h0
      obtain ⟨_, _, _, s, hs1, _, hs3, _, _⟩ := hs
      have hs0 : s = 0 := by omega
      subst hs0
      obtain ⟨hlt1, he1⟩ := List.getElem?_eq_some_iff.mp hs3
      obtain ⟨hlt2, he2⟩ := List.getElem?_eq_some_iff.mp hx
      have := (List.Nodup.getElem_inj_iff hnd).mp (he1.trans he2.symm)
      omega
  · obtain ⟨_, h2, h3, r, hr1, _, hr3, hr4, _, hr6⟩ := hr
    rw [h3, hr6]
    by_contra hcon
    have hri : r = iter := by omega
    rw [hri, hx] at hr3
    have hK : K = p.mock_recv_node := Option.some.inj hr3
    rw [← hK] at hr4
    obtain ⟨_, input, hin, he⟩ := consumes_eq_ok_true_iff.mp hr4
    exact hself K (mem_of_getElem?_eq_some hx) hname input hin he

/-- Witness of C17 on the order `[A, R1, M, R2, C]`. -/
theorem FindAllReduceStreamSwitchPos_send_before_recv_witness :
    graphTwoAllReduce.execution_order.Nodup ∧
    (∀ K ∈ graphTwoAllReduce.execution_order,
      GetCNodeName graphTwoAllReduce K = .ok kAllReduceOpName →
      ∀ input ∈ graphTwoAllReduce.inputs K, VisitKernel graphTwoAllReduce input ≠ K) ∧
    FindAllReduceStreamSwitchPos graphTwoAllReduce = .ok pairsTwoAllReduce ∧
    ∀ p ∈ pairsTwoAllReduce, p.send_node_offset ≤ p.recv_node_offset :=
  ⟨by decide, by decide, rfl,
    FindAllReduceStreamSwitchPos_send_before_recv graphTwoAllReduce pairsTwoAllReduce
      (by decide) (by decide) rfl⟩

/-- C18: in an execution order of length at least 2, every position that `FindSendNodePos`
reads as `*(iter + 1)` when `FindAllReduceStreamSwitchPos` calls it for the kernel at position
`iter` is below the length of the order, and the call does not end in a read outside the
vector. -/
theorem FindSendNodePos_reads_within (v : List CNodePtr) (iter : Nat) (K : CNodePtr)
    (hlen : 2 ≤ v.length) (hx : v[iter]? = some K) :
    (∀ i ∈ FindSendNodePos.reads v K (iter + 1 - 0) 0, i < v.length) ∧
      FindSendNodePos v 0 (iter + 1) K .kAllReduceStreamSwitch ≠ .error .out_of_range := by
  have hpre := FindSendNodePos_call_pre v iter K hx (Or.inr hlen)
  have hreads := FindSendNodePos_reads_lt v K (iter + 1 - 0) 0 hpre
  refine ⟨hreads, ?_⟩
  unfold FindSendNodePos
  by_cases hK : K = nullptr
  · rw [if_pos hK]
    intro h; cases h
  · rw [if_neg hK]
    simp only [if_true]
    intro h
    obtain ⟨i, hi, hle⟩ :=
      (FindSendNodePos_loop_out_of_range_iff v K (iter + 1) (iter + 1 - 0) 0).mp h
    have := hreads i hi
    omega

/-- Witness of C18: the call for `R2` at position 3 of `[A, R1, M, R2, C]`. -/
theorem FindSendNodePos_reads_within_witness :
    2 ≤ ([1, 2, 3, 4, 5] : List CNodePtr).length ∧
    ([1, 2, 3, 4, 5] : List CNodePtr)[3]? = some 4 ∧
    (∀ i ∈ FindSendNodePos.reads [1, 2, 3, 4, 5] 4 (3 + 1 - 0) 0, i < 5) ∧
      FindSendNodePos [1, 2, 3, 4, 5] 0 (3 + 1) 4 .kAllReduceStreamSwitch
        ≠ .error .out_of_range :=
  ⟨by decide, by decide, FindSendNodePos_reads_within [1, 2, 3, 4, 5] 3 4 (by decide) (by decide)⟩

/-- C19: within `AssignGpuStream` on an order with at least two AllReduce kernels, whenever a
pair of the search is handed to `GenSendRecvCNodesForAllReduce` (after the pairs before it have
been processed), its mock send node and its mock recv node carry a `stream_id` attribute, the
call returns with the flag `true`, and so the whole loop over the pairs and the pass return:
neither a failed `stream_id` lookup nor the branch for a failed generation is reached. -/
theorem AssignGpuStream_mock_nodes_carry_stream (g : KernelGraph) (d : Device)
    (h : 2 ≤ (allreduceKernels g g.execution_order).length)
    (hnn : ∀ k ∈ g.execution_order, k ≠ nullptr) :
    ∃ pairs, FindAllReduceStreamSwitchPos (AssignGpuStream.tagged g d) = .ok pairs ∧
      (∀ done p rest, pairs = done ++ p :: rest →
        ∃ gk dk nodes,
          InsertStreamSwitchNode.collect done (AssignGpuStream.tagged g d) (CreateStream d).2 []
            = .ok (gk, dk, nodes) ∧
          InsertStreamSwitchNode.collect pairs (AssignGpuStream.tagged g d) (CreateStream d).2 []
            = InsertStreamSwitchNode.collect (p :: rest) gk dk nodes ∧
          p.stream_switch_type = .kAllReduceStreamSwitch ∧
          (∃ a b, gk.attrs p.mock_send_node "stream_id" = some a ∧
            gk.attrs p.mock_recv_node "stream_id" = some b) ∧
          ∃ send_node recv_node gk' dk',
            GenSendRecvCNodesForAllReduce gk dk p.mock_send_node p.mock_recv_node
              = .ok (true, send_node, recv_node, gk', dk')) ∧
      (∃ g1 d1 nodes,
        InsertStreamSwitchNode.collect pairs (AssignGpuStream.tagged g d) (CreateStream d).2 []
          = .ok (g1, d1, nodes)) ∧
      ∃ g' d', AssignGpuStream g d = .ok (g', d') := by
  obtain ⟨pairs, g1, d', w, hfind, hwithin, _, hres, _⟩ := AssignGpuStream_ok g d h hnn
  have hsame := tagged_same g d hnn
  have hready : ∀ p ∈ pairs, pairReady (AssignGpuStream.tagged g d) p := by
    intro p hp
    obtain ⟨h1, h2, h3, _, _⟩ := hwithin p hp
    exact ⟨h1, by rw [tagged_stream_id g d hnn _ h2]; rfl,
      by rw [tagged_stream_id g d hnn _ h3]; rfl⟩
  refine ⟨pairs, by rw [FindAllReduceStreamSwitchPos_congr hsame]; exact hfind, ?_, ?_,
    ⟨_, _, hres⟩⟩
  · intro done p rest hsplit
    have hdone : ∀ q ∈ done, pairReady (AssignGpuStream.tagged g d) q := by
      intro q hq
      exact hready q (by rw [hsplit]; exact List.mem_append_left _ hq)
    obtain ⟨hty, hs, hr⟩ := hready p (by rw [hsplit]; simp)
    obtain ⟨gk, dk, hcol, heff⟩ :=
      collect_ok done (AssignGpuStream.tagged g d) (CreateStream d).2 [] hdone
    obtain ⟨a, ha⟩ := Option.isSome_iff_exists.mp hs
    obtain ⟨b, hb⟩ := Option.isSome_iff_exists.mp hr
    have ha' : gk.attrs p.mock_send_node "stream_id" = some a := by
      rw [heff.stream_id]; exact ha
    have hb' : gk.attrs p.mock_recv_node "stream_id" = some b := by
      rw [heff.stream_id]; exact hb
    obtain ⟨gk', dk', hgen, _⟩ :=
      GenSendRecvCNodesForAllReduce_ok gk dk p.mock_send_node p.mock_recv_node a b ha' hb'
    refine ⟨gk, dk, _, hcol, ?_, hty, ⟨a, b, ha', hb'⟩, _, _, gk', dk', hgen⟩
    rw [hsplit]
    exact collect_append done (p :: rest) _ _ _ _ _ _ hcol
  · obtain ⟨g2, d2, hcol, _⟩ :=
      collect_ok pairs (AssignGpuStream.tagged g d) (CreateStream d).2 [] hready
    exact ⟨g2, d2, _, hcol⟩

/-- Witness of C19 on the order `[A, R1, M, R2, C]`. -/
theorem AssignGpuStream_mock_nodes_carry_stream_witness :
    2 ≤ (allreduceKernels graphTwoAllReduce graphTwoAllReduce.execution_order).length ∧
    (∀ k ∈ graphTwoAllReduce.execution_order, k ≠ nullptr) ∧
    ∃ pairs, FindAllReduceStreamSwitchPos (AssignGpuStream.tagged graphTwoAllReduce dev0)
        = .ok pairs ∧
      (∀ done p rest, pairs = done ++ p :: rest →
        ∃ gk dk nodes,
          InsertStreamSwitchNode.collect done (AssignGpuStream.tagged graphTwoAllReduce dev0)
            (CreateStream dev0).2 [] = .ok (gk, dk, nodes) ∧
          InsertStreamSwitchNode.collect pairs (AssignGpuStream.tagged graphTwoAllReduce dev0)
            (CreateStream dev0).2 [] = InsertStreamSwitchNode.collect (p :: rest) gk dk nodes ∧
          p.stream_switch_type = .kAllReduceStreamSwitch ∧
          (∃ a b, gk.attrs p.mock_send_node "stream_id" = some a ∧
            gk.attrs p.mock_recv_node "stream_id" = some b) ∧
          ∃ send_node recv_node gk' dk',
            GenSendRecvCNodesForAllReduce gk dk p.mock_send_node p.mock_recv_node
              = .ok (true, send_node, recv_node, gk', dk')) ∧
      (∃ g1 d1 nodes,
        InsertStreamSwitchNode.collect pairs (AssignGpuStream.tagged graphTwoAllReduce dev0)
          (CreateStream dev0).2 [] = .ok (g1, d1, nodes)) ∧
      ∃ g' d', AssignGpuStream graphTwoAllReduce dev0 = .ok (g', d') :=
  ⟨by decide, by decide,
    AssignGpuStream_mock_nodes_carry_stream graphTwoAllReduce dev0 (by decide) (by decide)⟩

/-- C20, counterexample: in the duplicate-free order `[K]` the AllReduce kernel `K` sits at
index 0; `FindSendNodePos` reads position 1, outside the vector, and neither it nor
`FindAllReduceStreamSwitchPos` returns. -/
theorem FindSendNodePos_single_allreduce :
    graphSingleAllReduce.execution_order.Nodup ∧
      GetCNodeName graphSingleAllReduce 1 = .ok kAllReduceOpName ∧
      FindSendNodePos.reads [1] 1 (0 + 1 - 0) 0 = [1] ∧
      FindSendNodePos [1] 0 (0 + 1) 1 .kAllReduceStreamSwitch = .error .out_of_range ∧
      FindAllReduceStreamSwitchPos graphSingleAllReduce = .error .out_of_range :=
  ⟨by decide, by decide, rfl, rfl, rfl⟩

/-- C20, amended: in a duplicate-free execution order of non-null kernels, for an AllReduce
kernel `K` at index `iter ≥ 1` `FindSendNodePos` returns `iter - 1`, the mock send node is the
node right before `K` and both offsets of the send-side pair are `iter` (what follows the
send-side pair, if anything, is the recv-side pair of `K`); for an AllReduce kernel at index 0
of an order of length at least 2, `FindSendNodePos` returns its end position `1` and the
iteration adds no pair. -/
theorem FindAllReduceStreamSwitchPos_send_side_by_index (g : KernelGraph) (v : List CNodePtr)
    (iter : Nat) (pairs : List SendRecvPair) (K : CNodePtr) (hnd : v.Nodup)
    (hx : v[iter]? = some K) (hname : GetCNodeName g K = .ok kAllReduceOpName)
    (hnn : ∀ k ∈ v, k ≠ nullptr) :
    (1 ≤ iter →
      FindSendNodePos v 0 (iter + 1) K .kAllReduceStreamSwitch = .ok (iter - 1) ∧
      ∃ ms tail, v[iter - 1]? = some ms ∧
        FindAllReduceStreamSwitchPos.body g v iter pairs
          = .ok (pairs ++ ⟨.kAllReduceStreamSwitch, ms, K, iter, iter⟩ :: tail) ∧
        ∀ q ∈ tail, q.mock_send_node = K ∧ q.send_node_offset = iter + 1) ∧
    (iter = 0 → 2 ≤ v.length →
      FindSendNodePos v 0 (iter + 1) K .kAllReduceStreamSwitch = .ok (iter + 1) ∧
      FindAllReduceStreamSwitchPos.body g v iter pairs = .ok pairs) := by
  have hK : K ≠ nullptr := GetCNodeName_ne_nullptr hname
  have hi : iter < v.length := (List.getElem?_eq_some_iff.mp hx).1
  have hrecv : ∀ s, FindSendNodePos v 0 (iter + 1) K .kAllReduceStreamSwitch = .ok s →
      s ≠ iter + 1 →
      ∃ r, FindRecvNodePos g v iter v.length K .kAllReduceStreamSwitch = .ok r :=
    fun _ _ _ => FindRecvNodePos_ok_of_ne_nullptr g v iter K hK (le_of_lt hi)
      (fun t _ _ he => hnn nullptr (mem_of_getElem?_eq_some he) rfl)
  have hinj : ∀ s, v[s + 1]? = some K → s + 1 = iter := by
    intro s hs
    obtain ⟨hlt1, he1⟩ := List.getElem?_eq_some_iff.mp hs
    obtain ⟨hlt2, he2⟩ := List.getElem?_eq_some_iff.mp hx
    exact (List.Nodup.getElem_inj_iff hnd).mp (he1.trans he2.symm)
  constructor
  · intro hpos
    obtain ⟨s, hs, hcase⟩ :=
      FindAllReduceStreamSwitchPos_body_allreduce g v iter pairs K hx hname (Or.inl hpos) hrecv
    rcases hcase with ⟨_, hno, _⟩ | ⟨_, h2, _, ms, hms, r, _, _, _, hr⟩
    · exfalso
      have := hno (iter - 1) (by omega)
      have e : iter - 1 + 1 = iter := by omega
      rw [e] at this
      exact this hx
    · have hsi : s + 1 = iter := hinj s h2
      have hs1 : s = iter - 1 := by omega
      rw [hs1] at hs hms
      refine ⟨hs, ms, ?_⟩
      rw [hsi] at hr
      rcases hr with ⟨_, hb⟩ | ⟨_, mr, _, _, hb⟩
      · exact ⟨[], hms, hb, by simp⟩
      · refine ⟨[⟨.kAllReduceStreamSwitch, K, mr, iter + 1, r⟩], hms, hb, ?_⟩
        intro q hq
        rw [List.mem_singleton] at hq
        rw [hq]
        exact ⟨rfl, rfl⟩
  · intro h0 hlen
    obtain ⟨s, hs, hcase⟩ :=
      FindAllReduceStreamSwitchPos_body_allreduce g v iter pairs K hx hname (Or.inr hlen) hrecv
    rcases hcase with ⟨h1, _, hb⟩ | ⟨_, h2, _⟩
    · rw [h1] at hs
      exact ⟨hs, hb⟩
    · have := hinj s h2
      omega

/-- Witness of the amended C20 on `[A, R1, M, R2, C]`, at the position of `R2`. -/
theorem FindAllReduceStreamSwitchPos_send_side_by_index_witness :
    ([1, 2, 3, 4, 5] : List CNodePtr).Nodup ∧
    (∀ k ∈ ([1, 2, 3, 4, 5] : List CNodePtr), k ≠ nullptr) ∧
    FindSendNodePos [1, 2, 3, 4, 5] 0 (3 + 1) 4 .kAllReduceStreamSwitch = .ok (3 - 1) ∧
    ∃ ms tail, ([1, 2, 3, 4, 5] : List CNodePtr)[3 - 1]? = some ms ∧
      FindAllReduceStreamSwitchPos.body graphTwoAllReduce [1, 2, 3, 4, 5] 3 []
        = .ok ([] ++ ⟨.kAllReduceStreamSwitch, ms, 4, 3, 3⟩ :: tail) ∧
      ∀ q ∈ tail, q.mock_send_node = 4 ∧ q.send_node_offset = 3 + 1 :=
  ⟨by decide, by decide,
    (FindAllReduceStreamSwitchPos_send_side_by_index graphTwoAllReduce [1, 2, 3, 4, 5] 3 [] 4
      (by decide) (by decide) (by decide) (by decide)).1 (by decide)⟩


end GpuStreamAssign

namespace PynativeExecute

/-! ## Argument conversion -/

/-- The loop that fills `py_inputs` gives one item for every argument, and the argument itself
where it is neither an int nor a float. -/
theorem ConvertInputs_fillLoop_spec {PyObject Tensor : Type} (env : Interface PyObject Tensor)
    (dtypes : List SignatureEnumDType) (py_args : List PyObject)
    (dst_type : List (SignatureEnumDType × Nat)) :
    ∀ (rest : List PyObject) (i : Nat) (items : List PyObject),
      ConvertInputs.fillLoop env dtypes py_args dst_type rest i = .ok items →
      items.length = rest.length ∧
      ∀ (j : Nat) (obj : PyObject), rest[j]? = some obj →
        env.isinstance_int obj = false → env.isinstance_float obj = false →
        items[j]? = some obj := by
  intro rest
  induction rest with
  | nil =>
    intro i items h
    simp only [ConvertInputs.fillLoop] at h
    cases h
    exact ⟨rfl, fun j obj hj => by simp at hj⟩
  | cons arg rest ih =>
    intro i items h
    simp only [ConvertInputs.fillLoop] at h
    cases hd : dtypes[i]? with
    | none => simp [hd] at h
    | some dtype =>
      simp only [hd] at h
      split at h
      · rename_i hc
        cases hs : py_args[(mapFind dst_type dtype).getD 0]? with
        | none => simp [hs] at h
        | some source =>
          simp only [hs] at h
          cases ht : env.cast_TensorPtr source with
          | none => simp [ht] at h
          | some tensor_ptr =>
            simp only [ht] at h
            cases hr : ConvertInputs.fillLoop env dtypes py_args dst_type rest (i + 1) with
            | error e => simp [hr] at h
            | ok tail =>
              simp only [hr] at h
              cases h
              obtain ⟨hlen, hframe⟩ := ih (i + 1) tail hr
              refine ⟨by simp [hlen], ?_⟩
              intro j obj hj hint hfloat
              cases j with
              | zero =>
                simp only [List.getElem?_cons_zero, Option.some.injEq] at hj
                subst hj
                rcases hc.2.2 with h1 | h1
                · rw [hint] at h1
                  cases h1
                · rw [hfloat] at h1
                  cases h1
              | succ j =>
                simp only [List.getElem?_cons_succ] at hj ⊢
                exact hframe j obj hj hint hfloat
      · cases hr : ConvertInputs.fillLoop env dtypes py_args dst_type rest (i + 1) with
        | error e => simp [hr] at h
        | ok tail =>
          simp only [hr] at h
          cases h
          obtain ⟨hlen, hframe⟩ := ih (i + 1) tail hr
          refine ⟨by simp [hlen], ?_⟩
          intro j obj hj hint hfloat
          cases j with
          | zero =>
            simp only [List.getElem?_cons_zero] at hj ⊢
            exact hj
          | succ j =>
            simp only [List.getElem?_cons_succ] at hj ⊢
            exact hframe j obj hj hint hfloat

/-- A signature whose dtypes are all the empty default counts as many of them as it has. -/
theorem count_eq_length_of_all_empty (signature : List Signature) (empty : SignatureEnumDType)
    (h : ∀ sig ∈ signature, sig.dtype = empty) :
    ((signature.map (fun sig => sig.dtype)).count empty) =
      (signature.map (fun sig => sig.dtype)).length := by
  rw [List.count_eq_length]
  intro d hd
  rw [List.mem_map] at hd
  obtain ⟨sig, hsig, rfl⟩ := hd
  exact (h sig hsig).symm

/-! ## The claim on the argument conversion -/

/-- C21: whenever `ConvertInputs` returns, its result is as long as the argument tuple and holds,
at the position of every argument that is neither a Python int nor a Python float, that argument
itself; and on a signature that has no dtypes, or only the empty default, it returns the argument
tuple as it is. -/
theorem ConvertInputs_keeps_other_arguments {PyObject Tensor : Type}
    (env : Interface PyObject Tensor) (signature : List Signature) (py_args : List PyObject) :
    (∀ py_inputs : List PyObject, ConvertInputs env signature py_args = .ok py_inputs →
      py_inputs.length = py_args.length ∧
      ∀ (i : Nat) (obj : PyObject), py_args[i]? = some obj →
        env.isinstance_int obj = false → env.isinstance_float obj = false →
        py_inputs[i]? = some obj) ∧
    ((signature = [] ∨ ∀ sig ∈ signature, sig.dtype = env.kDTypeEmptyDefaultValue) →
      ConvertInputs env signature py_args = .ok py_args) := by
  constructor
  · intro py_inputs h
    unfold ConvertInputs at h
    simp only [] at h
    split at h
    · cases h
      exact ⟨rfl, fun i obj hi _ _ => hi⟩
    · cases hd : ConvertInputs.dstLoop env py_args
          (ConvertInputs.groupLoop (signature.map (fun sig => sig.dtype)) 0 []) [] with
      | error e => simp [hd] at h
      | ok dst_type =>
        simp only [hd] at h
        exact ConvertInputs_fillLoop_spec env _ py_args dst_type py_args 0 py_inputs h
  · intro hsig
    unfold ConvertInputs
    simp only []
    rcases hsig with hsig | hsig
    · subst hsig
      simp
    · rw [count_eq_length_of_all_empty signature env.kDTypeEmptyDefaultValue hsig]
      simp

/-- The claim C21 on a call that converts: the int beside a tensor of the same dtype group
becomes a tensor, the tensor and the string stay. -/
theorem ConvertInputs_keeps_other_arguments_witness :
    ConvertInputs exampleInterface [⟨1⟩, ⟨1⟩, ⟨2⟩] [.tensor 7 32, .int_ 3, .str "x"] =
        .ok [.tensor 7 32, .int_tensor 3 32, .str "x"] ∧
      ([ExampleObject.tensor 7 32, .int_tensor 3 32, .str "x"].length =
          [ExampleObject.tensor 7 32, .int_ 3, .str "x"].length ∧
        ∀ (i : Nat) (obj : ExampleObject),
          [ExampleObject.tensor 7 32, .int_ 3, .str "x"][i]? = some obj →
          exampleInterface.isinstance_int obj = false →
          exampleInterface.isinstance_float obj = false →
          [ExampleObject.tensor 7 32, .int_tensor 3 32, .str "x"][i]? = some obj) ∧
      ConvertInputs exampleInterface [⟨0⟩, ⟨0⟩] [.int_ 3, .tensor 7 32] =
        .ok [.int_ 3, .tensor 7 32] :=
  ⟨rfl,
    (ConvertInputs_keeps_other_arguments exampleInterface [⟨1⟩, ⟨1⟩, ⟨2⟩]
      [.tensor 7 32, .int_ 3, .str "x"]).1 _ rfl,
    (ConvertInputs_keeps_other_arguments exampleInterface [⟨0⟩, ⟨0⟩]
      [.int_ 3, .tensor 7 32]).2 (Or.inr (by decide))⟩


end PynativeExecute
